import Mathlib

/-!
# IKModule: inverse-kinematics solvers of `AIKModuleCharacter`

Shallow embedding of `Source/IKModule/Private/IKModuleCharacter.cpp`
(`SolveCCD`, `SolveFABRIK`, `SolveJacobianTranspose`, `SolveJacobianPinv`).

* Scalars (`float`) are elements of a linearly ordered field `K`; the
  transcendental functions of `FMath` are the fields of a record `FMath K`.
  Theorems are stated under exact arithmetic (`FMath.Exact`), met by the reals.
* The engine's `UPoseableMeshComponent` is an interface record: the solvers
  are written against its getters and setters and know nothing else of the
  pose store.  `FlatMesh` is the in-memory skeleton of the spec's section 6.
* Loops over bone indices are folds over the index list; the `while` loops
  are recursive functions that carry the source's loop variables.
-/

namespace IKModule

/-! ## Engine value types -/

/-- Bone names (`FName`), compared by `IsEqual`; bone names are taken in one
spelling, so the comparison is equality. The sentinel of the hierarchy is the
name "None". -/
abbrev FName := String

/-- The three rotation axes the solvers ask for (`EAxis::X`, `EAxis::Y`, `EAxis::Z`). -/
inductive EAxis where
  | X : EAxis
  | Y : EAxis
  | Z : EAxis
  deriving DecidableEq, Repr

/-- The functions of the engine's math library that the solvers call.
`SMALL_NUMBER` is the default tolerance of `FMath::IsNearlyZero`. -/
structure FMath (K : Type) where
  Sqrt : K → K
  Acos : K → K
  Sin : K → K
  Cos : K → K
  SMALL_NUMBER : K

/-- Three-component vector (`FVector`). -/
@[ext] structure FVector (K : Type) where
  X : K
  Y : K
  Z : K
  deriving DecidableEq

/-- Quaternion (`FQuat`), components in the engine's order X, Y, Z, W. -/
@[ext] structure FQuat (K : Type) where
  X : K
  Y : K
  Z : K
  W : K
  deriving DecidableEq

section Values

variable {K : Type} [LinearOrderedField K]

instance : Add (FVector K) := ⟨fun a b => ⟨a.X + b.X, a.Y + b.Y, a.Z + b.Z⟩⟩

instance : Sub (FVector K) := ⟨fun a b => ⟨a.X - b.X, a.Y - b.Y, a.Z - b.Z⟩⟩

instance : HMul K (FVector K) (FVector K) := ⟨fun c v => ⟨c * v.X, c * v.Y, c * v.Z⟩⟩

/-- Component access `V[Row]` for `Row` in 0..2. -/
def FVector.Component (V : FVector K) (Row : Nat) : K :=
  if Row = 0 then V.X else if Row = 1 then V.Y else V.Z

/-- Squared length, `FVector::SizeSquared`. -/
def FVector.SizeSquared (V : FVector K) : K :=
  V.X * V.X + V.Y * V.Y + V.Z * V.Z

/-- Dot product, `FVector::DotProduct`. -/
def FVector.DotProduct (A B : FVector K) : K :=
  A.X * B.X + A.Y * B.Y + A.Z * B.Z

/-- Cross product, `FVector::CrossProduct`. -/
def FVector.CrossProduct (A B : FVector K) : FVector K :=
  ⟨A.Y * B.Z - A.Z * B.Y, A.Z * B.X - A.X * B.Z, A.X * B.Y - A.Y * B.X⟩

/-- Euclidean distance, `FVector::Dist`. -/
def FVector.Dist (M : FMath K) (A B : FVector K) : K :=
  M.Sqrt ((B - A).SizeSquared)

/-- Modelled from the spec: `FVector::Normalize` is engine code, absent from the
repository. The spec's "normalize": a vector of non-zero length is scaled by
the inverse of its length; the zero vector is left as it is. -/
def FVector.Normalize (M : FMath K) (V : FVector K) : FVector K :=
  let SquareSum := V.SizeSquared
  if 0 < SquareSum then
    let Scale := 1 / M.Sqrt SquareSum
    ⟨V.X * Scale, V.Y * Scale, V.Z * Scale⟩
  else V

/-- Squared norm of a quaternion, `FQuat::SizeSquared`. -/
def FQuat.SizeSquared (Q : FQuat K) : K :=
  Q.X * Q.X + Q.Y * Q.Y + Q.Z * Q.Z + Q.W * Q.W

/-- The identity rotation, `FQuat::Identity`. -/
def FQuat.Identity : FQuat K := ⟨0, 0, 0, 1⟩

/-- The constructor `FQuat(Axis, AngleRad)`: `(sin(angle/2) * axis, cos(angle/2))`.
The axis is used as given. -/
def FQuat.ofAxisAngle (M : FMath K) (Axis : FVector K) (AngleRad : K) : FQuat K :=
  let half_a := (1 / 2) * AngleRad
  let s := M.Sin half_a
  let c := M.Cos half_a
  ⟨s * Axis.X, s * Axis.Y, s * Axis.Z, c⟩

/-- Quaternion product `A * B` (Hamilton product), `FQuat::operator*`. -/
def FQuat.mul (A B : FQuat K) : FQuat K :=
  ⟨A.W * B.X + A.X * B.W + A.Y * B.Z - A.Z * B.Y,
   A.W * B.Y - A.X * B.Z + A.Y * B.W + A.Z * B.X,
   A.W * B.Z + A.X * B.Y - A.Y * B.X + A.Z * B.W,
   A.W * B.W - A.X * B.X - A.Y * B.Y - A.Z * B.Z⟩

instance : Mul (FQuat K) := ⟨FQuat.mul⟩

/-- Modelled from the spec: `FQuat::Normalize` is engine code, absent from the
repository. The spec's "re-normalize": a quaternion of non-zero norm is scaled
by the inverse of its norm; the zero quaternion becomes the identity. -/
def FQuat.Normalize (M : FMath K) (Q : FQuat K) : FQuat K :=
  let SquareSum := Q.SizeSquared
  if 0 < SquareSum then
    let Scale := 1 / M.Sqrt SquareSum
    ⟨Q.X * Scale, Q.Y * Scale, Q.Z * Scale, Q.W * Scale⟩
  else FQuat.Identity

/-- Rotation of a vector by a quaternion, `FQuat::RotateVector`:
`V + 2W (Q x V) + 2 Q x (Q x V)` with `Q` the vector part. -/
def FQuat.RotateVector (Q : FQuat K) (V : FVector K) : FVector K :=
  let q : FVector K := ⟨Q.X, Q.Y, Q.Z⟩
  let T : FVector K := (2 : K) * FVector.CrossProduct q V
  V + (Q.W * T) + FVector.CrossProduct q T

/-- The inverse rotation, `FQuat::Inverse`: the conjugate. -/
def FQuat.Inverse (Q : FQuat K) : FQuat K := ⟨-Q.X, -Q.Y, -Q.Z, Q.W⟩

/-- The rotation of space that a quaternion stands for, whatever its norm:
`V + (2 / |Q|^2) (W (Q x V) + Q x (Q x V))` with `Q` the vector part. For a unit
quaternion it is `RotateVector`; the zero quaternion turns nothing. -/
def FQuat.Rotation (Q : FQuat K) (V : FVector K) : FVector K :=
  let q : FVector K := ⟨Q.X, Q.Y, Q.Z⟩
  let T : FVector K := (2 / Q.SizeSquared) * FVector.CrossProduct q V
  V + (Q.W * T) + FVector.CrossProduct q T

/-- `FMath::IsNearlyZero(Value)` with its default tolerance. -/
def FMath.IsNearlyZero (M : FMath K) (Value : K) : Prop :=
  |Value| ≤ M.SMALL_NUMBER

instance (M : FMath K) (Value : K) : Decidable (M.IsNearlyZero Value) := by
  unfold FMath.IsNearlyZero; infer_instance

/-- Dense matrix of run-time size (`Eigen::MatrixXf`); `Eigen::Vector3f` is the
case of 3 rows and 1 column. Coefficients are read at `(row, column)`. -/
structure MatrixXf (K : Type) where
  rows : Nat
  cols : Nat
  coeff : Nat → Nat → K

/-- The call `transpose()`. -/
def MatrixXf.transpose (A : MatrixXf K) : MatrixXf K :=
  ⟨A.cols, A.rows, fun i j => A.coeff j i⟩

/-- Matrix product. -/
def MatrixXf.mul (A B : MatrixXf K) : MatrixXf K :=
  ⟨A.rows, B.cols, fun i j => Finset.sum (Finset.range A.cols) fun k => A.coeff i k * B.coeff k j⟩

instance : Mul (MatrixXf K) := ⟨MatrixXf.mul⟩

instance : HMul K (MatrixXf K) (MatrixXf K) :=
  ⟨fun c A => ⟨A.rows, A.cols, fun i j => c * A.coeff i j⟩⟩

instance : Sub (MatrixXf K) :=
  ⟨fun A B => ⟨A.rows, A.cols, fun i j => A.coeff i j - B.coeff i j⟩⟩

/-- The call `dot` on two column vectors. -/
def MatrixXf.dot (A B : MatrixXf K) : K :=
  Finset.sum (Finset.range A.rows) fun i => A.coeff i 0 * B.coeff i 0

/-- The `Eigen::Vector3f` filled by `V(i) = Location[i]` for `i` in 0..2. -/
def MatrixXf.ofFVector (V : FVector K) : MatrixXf K :=
  ⟨3, 1, fun i _ => V.Component i⟩

/-- The assignments `JacobianMat(Row, Column) = Delta[Row]` for `Row` in 0..2. -/
def MatrixXf.setColumn (A : MatrixXf K) (Column : Nat) (Delta : FVector K) : MatrixXf K :=
  ⟨A.rows, A.cols, fun i j => if j = Column ∧ i < 3 then Delta.Component i else A.coeff i j⟩

/-- The determinant of a square matrix, taken over its `rows` by `rows`
coefficients. -/
def MatrixXf.det (A : MatrixXf K) : K :=
  Matrix.det (Matrix.of fun (i j : Fin A.rows) => A.coeff i j)

/-- Every column of the three-row matrix `J` is orthogonal to the vector `d`. -/
def MatrixXf.ColumnsOrthogonalTo (J : MatrixXf K) (d : FVector K) : Prop :=
  ∀ c, d.X * J.coeff 0 c + d.Y * J.coeff 1 c + d.Z * J.coeff 2 c = 0

/-- Exact arithmetic: the laws of square root, sine and cosine the proofs use. -/
structure FMath.Exact (M : FMath K) : Prop where
  Sqrt_nonneg : ∀ x, 0 ≤ M.Sqrt x
  Sqrt_mul_self : ∀ x, 0 ≤ x → M.Sqrt x * M.Sqrt x = x
  Sin_sq_add_Cos_sq : ∀ x, M.Sin x * M.Sin x + M.Cos x * M.Cos x = 1

end Values

/-! ## The pose store -/

/-- The part of `UPoseableMeshComponent` the solvers use, over a pose state `S`.
`SetBoneRotationByName` receives the quaternion whose `Rotator()` the source
passes (the spec's `setBoneWorldOrientation(boneId, Quaternion)`). -/
structure UPoseableMeshComponent (K : Type) (S : Type) where
  GetParentBone : FName → FName
  GetBoneLocation : S → FName → FVector K
  GetBoneLocationByName : S → FName → FVector K
  GetBoneQuaternion : S → FName → FQuat K
  GetBoneAxis : S → FName → EAxis → FVector K
  SetBoneLocationByName : S → FName → FVector K → S
  SetBoneRotationByName : S → FName → FQuat K → S

/-- What a solve call did: it reported the chain as invalid and returned, it
ran the solving code, or a division by zero took it out of exact arithmetic. -/
inductive Outcome (S : Type) where
  | ChainInvalid (s : S) : Outcome S
  | Solved (s : S) : Outcome S
  | NonFinite : Outcome S

section Chain

variable {K : Type} {S : Type}

/-! ## Chain walk -/

/-- The walk that opens `SolveCCD`, `SolveJacobianTranspose` and
`SolveJacobianPinv`: `while (!BoneName.IsEqual(RootBoneName))` replaces
`BoneName` by its parent and inserts it at the front of `BoneNames`.
`fuel` bounds the evaluations of the loop condition; `none` is "still walking". -/
def ChainWalk (mesh : UPoseableMeshComponent K S) (RootBoneName : FName) :
    Nat → FName → List FName → Option (FName × List FName)
  | 0, _, _ => none
  | fuel + 1, BoneName, BoneNames =>
    if BoneName = RootBoneName then some (BoneName, BoneNames)
    else
      let BoneName := mesh.GetParentBone BoneName
      ChainWalk mesh RootBoneName fuel BoneName (BoneName :: BoneNames)

/-- The walk that opens `SolveFABRIK`: as `ChainWalk`, and the location of each
bone is inserted at the front of `OriginalLocation`. -/
def ChainWalkFABRIK (mesh : UPoseableMeshComponent K S) (s : S) (RootBoneName : FName) :
    Nat → FName → List FName → List (FVector K) →
      Option (FName × List FName × List (FVector K))
  | 0, _, _, _ => none
  | fuel + 1, BoneName, BoneNames, OriginalLocation =>
    if BoneName = RootBoneName then some (BoneName, BoneNames, OriginalLocation)
    else
      let BoneName := mesh.GetParentBone BoneName
      ChainWalkFABRIK mesh s RootBoneName fuel BoneName (BoneName :: BoneNames)
        (mesh.GetBoneLocationByName s BoneName :: OriginalLocation)

end Chain

section Solvers

variable {K : Type} [LinearOrderedField K] {S : Type}

/-! ## CCD -/

/-- Body of the `for` loop of `SolveCCD` for the joint `CurrentBoneName`. -/
def SolveCCD.JointStep (M : FMath K) (mesh : UPoseableMeshComponent K S)
    (TipBoneName : FName) (TargetLocation : FVector K) (s : S) (CurrentBoneName : FName) : S :=
  let TipLocation := mesh.GetBoneLocationByName s TipBoneName
  let CurrentBoneLocation := mesh.GetBoneLocationByName s CurrentBoneName
  let ToEnd := FVector.Normalize M (TipLocation - CurrentBoneLocation)
  let ToTarget := FVector.Normalize M (TargetLocation - CurrentBoneLocation)
  let Angle := M.Acos (FVector.DotProduct ToEnd ToTarget)
  let RotationAxis := FVector.CrossProduct ToEnd ToTarget
  if 0 < RotationAxis.SizeSquared then
    let DeltaRotation := FQuat.ofAxisAngle M RotationAxis Angle
    let CurrentQuat := mesh.GetBoneQuaternion s CurrentBoneName
    let NewQuat := FQuat.Normalize M (DeltaRotation * CurrentQuat)
    mesh.SetBoneRotationByName s CurrentBoneName NewQuat
  else s

/-- One execution of the body of the `while` loop of `SolveCCD`, up to the
recomputation of `Distance`: the joints from index `Num - 2` down to 0. -/
def SolveCCD.Iteration (M : FMath K) (mesh : UPoseableMeshComponent K S)
    (BoneNames : List FName) (TipBoneName : FName) (TargetLocation : FVector K) (s : S) : S :=
  (List.range (BoneNames.length - 1)).reverse.foldl
    (fun s Index => SolveCCD.JointStep M mesh TipBoneName TargetLocation s
      (BoneNames.getD Index "None")) s

/-- The loop `while (Distance > Precision && IterationCount++ < MaxIterations)`
of `SolveCCD`, from the loop variables `IterationCount` and `Distance`.
Returns the final pose and the number of executions of the body.
`IterationCount` stays within 0..MaxIterations while it is read, so the
32-bit counter is an integer here. -/
def SolveCCD.Loop (M : FMath K) (mesh : UPoseableMeshComponent K S)
    (BoneNames : List FName) (TipBoneName : FName) (TargetLocation : FVector K)
    (Precision : K) (MaxIterations : Int) (IterationCount : Int) (Distance : K) (s : S) :
    S × Nat :=
  if Precision < Distance ∧ IterationCount < MaxIterations then
    let s1 := SolveCCD.Iteration M mesh BoneNames TipBoneName TargetLocation s
    let Distance := FVector.Dist M (mesh.GetBoneLocation s1 TipBoneName) TargetLocation
    let r := SolveCCD.Loop M mesh BoneNames TipBoneName TargetLocation Precision MaxIterations
      (IterationCount + 1) Distance s1
    (r.1, r.2 + 1)
  else (s, 0)
termination_by (MaxIterations - IterationCount).toNat
decreasing_by omega

/-- The solving code of `SolveCCD` (from the comment "solve" on), for a chain
`BoneNames` that passed the chain check. -/
def SolveCCD.Solve (M : FMath K) (mesh : UPoseableMeshComponent K S)
    (BoneNames : List FName) (TipBoneName : FName) (TargetLocation : FVector K)
    (Precision : K) (MaxIterations : Int) (s : S) : S :=
  let IterationCount : Int := 0
  let Distance := FVector.Dist M (mesh.GetBoneLocation s TipBoneName) TargetLocation
  (SolveCCD.Loop M mesh BoneNames TipBoneName TargetLocation Precision MaxIterations
    IterationCount Distance s).1

/-- `AIKModuleCharacter::SolveCCD`. `none`: the chain walk is still running
after `fuel` evaluations of its condition. -/
def SolveCCD (M : FMath K) (mesh : UPoseableMeshComponent K S) (fuel : Nat)
    (TipBoneName RootBoneName : FName) (TargetLocation : FVector K)
    (Precision : K) (MaxIterations : Int) (s : S) : Option (Outcome S) :=
  match ChainWalk mesh RootBoneName fuel TipBoneName [TipBoneName] with
  | none => none
  | some (BoneName, BoneNames) =>
    if BoneName = "None" then some (Outcome.ChainInvalid s)
    else some (Outcome.Solved
      (SolveCCD.Solve M mesh BoneNames TipBoneName TargetLocation Precision MaxIterations s))

/-! ## FABRIK -/

/-- The loop "bone length" of `SolveFABRIK`: the distance between the bones
of index `Index` and `Index + 1`, for `Index` from 0 to `Num - 2`. -/
def SolveFABRIK.BoneLengths (M : FMath K) (mesh : UPoseableMeshComponent K S)
    (BoneNames : List FName) (s : S) : List K :=
  (List.range (BoneNames.length - 1)).map fun Index =>
    let CurrentLocation := mesh.GetBoneLocationByName s (BoneNames.getD Index "None")
    let NextLocation := mesh.GetBoneLocationByName s (BoneNames.getD (Index + 1) "None")
    FVector.Dist M CurrentLocation NextLocation

/-- The accumulation `BoneLengthSum += BoneLength`, from `0.f`. -/
def SolveFABRIK.BoneLengthSum (BoneLengths : List K) : K :=
  BoneLengths.foldl (fun BoneLengthSum BoneLength => BoneLengthSum + BoneLength) 0

/-- Body of the loop of the unreachable branch. `none`: `DistanceToTarget` is
zero, the division leaves exact arithmetic. -/
def SolveFABRIK.StretchStep (M : FMath K) (mesh : UPoseableMeshComponent K S)
    (BoneNames : List FName) (BoneLengths : List K) (TargetLocation : FVector K)
    (s : S) (Index : Nat) : Option S :=
  let BoneLocation := mesh.GetBoneLocationByName s (BoneNames.getD Index "None")
  let DistanceToTarget := FVector.Dist M BoneLocation TargetLocation
  if DistanceToTarget = 0 then none
  else
    let Lambda := BoneLengths.getD Index 0 / DistanceToTarget
    let NewLocation := (1 - Lambda) * BoneLocation + Lambda * TargetLocation
    some (mesh.SetBoneLocationByName s (BoneNames.getD (Index + 1) "None") NewLocation)

/-- The unreachable branch of `SolveFABRIK`: `Index` from 0 to `Num - 2`. -/
def SolveFABRIK.Stretch (M : FMath K) (mesh : UPoseableMeshComponent K S)
    (BoneNames : List FName) (BoneLengths : List K) (TargetLocation : FVector K)
    (s : S) : Option S :=
  (List.range (BoneNames.length - 1)).foldlM
    (SolveFABRIK.StretchStep M mesh BoneNames BoneLengths TargetLocation) s

/-- Body of the loop "forward reaching". `none`: `JointDistance` is zero. -/
def SolveFABRIK.ForwardStep (M : FMath K) (mesh : UPoseableMeshComponent K S)
    (BoneNames : List FName) (BoneLengths : List K) (s : S) (Index : Nat) : Option S :=
  let BoneLocation := mesh.GetBoneLocationByName s (BoneNames.getD Index "None")
  let NextBoneLocation := mesh.GetBoneLocationByName s (BoneNames.getD (Index + 1) "None")
  let JointDistance := FVector.Dist M BoneLocation NextBoneLocation
  if JointDistance = 0 then none
  else
    let Lambda := BoneLengths.getD Index 0 / JointDistance
    let NewLocation := (1 - Lambda) * NextBoneLocation + Lambda * BoneLocation
    some (mesh.SetBoneLocationByName s (BoneNames.getD Index "None") NewLocation)

/-- Body of the loop "backward reaching". `none`: `JointDistance` is zero. -/
def SolveFABRIK.BackwardStep (M : FMath K) (mesh : UPoseableMeshComponent K S)
    (BoneNames : List FName) (BoneLengths : List K) (s : S) (Index : Nat) : Option S :=
  let BoneLocation := mesh.GetBoneLocationByName s (BoneNames.getD Index "None")
  let NextBoneLocation := mesh.GetBoneLocationByName s (BoneNames.getD (Index + 1) "None")
  let JointDistance := FVector.Dist M BoneLocation NextBoneLocation
  if JointDistance = 0 then none
  else
    let Lambda := BoneLengths.getD Index 0 / JointDistance
    let NewLocation := (1 - Lambda) * BoneLocation + Lambda * NextBoneLocation
    some (mesh.SetBoneLocationByName s (BoneNames.getD (Index + 1) "None") NewLocation)

/-- The backward pass: the root is pinned to `RootLocation`, then `Index` runs
from 0 to `Num - 2`. -/
def SolveFABRIK.BackwardReaching (M : FMath K) (mesh : UPoseableMeshComponent K S)
    (BoneNames : List FName) (BoneLengths : List K) (RootBoneName : FName)
    (RootLocation : FVector K) (s : S) : Option S :=
  (List.range (BoneNames.length - 1)).foldlM
    (SolveFABRIK.BackwardStep M mesh BoneNames BoneLengths)
    (mesh.SetBoneLocationByName s RootBoneName RootLocation)

/-- The forward pass: the tip is set to the target, then `Index` runs from
`Num - 2` down to 0. -/
def SolveFABRIK.ForwardReaching (M : FMath K) (mesh : UPoseableMeshComponent K S)
    (BoneNames : List FName) (BoneLengths : List K) (TipBoneName : FName)
    (TargetLocation : FVector K) (s : S) : Option S :=
  (List.range (BoneNames.length - 1)).reverse.foldlM
    (SolveFABRIK.ForwardStep M mesh BoneNames BoneLengths)
    (mesh.SetBoneLocationByName s TipBoneName TargetLocation)

/-- One execution of the body of the `while` loop of the reachable branch, up
to the recomputation of `Distance`. -/
def SolveFABRIK.Iteration (M : FMath K) (mesh : UPoseableMeshComponent K S)
    (BoneNames : List FName) (BoneLengths : List K) (TipBoneName RootBoneName : FName)
    (TargetLocation RootLocation : FVector K) (s : S) : Option S :=
  (SolveFABRIK.ForwardReaching M mesh BoneNames BoneLengths TipBoneName TargetLocation s).bind
    (SolveFABRIK.BackwardReaching M mesh BoneNames BoneLengths RootBoneName RootLocation)

/-- The loop `while (Distance > Precision && IterationCount++ < MaxIterations)`
of the reachable branch, from the loop variables `IterationCount` and
`Distance`. Returns the final pose (`none` once a division by zero was met,
which ends the run) and the number of executions of the body. -/
def SolveFABRIK.Loop (M : FMath K) (mesh : UPoseableMeshComponent K S)
    (BoneNames : List FName) (BoneLengths : List K) (TipBoneName RootBoneName : FName)
    (TargetLocation RootLocation : FVector K) (Precision : K) (MaxIterations : Int)
    (IterationCount : Int) (Distance : K) (s : S) : Option S × Nat :=
  if Precision < Distance ∧ IterationCount < MaxIterations then
    match SolveFABRIK.Iteration M mesh BoneNames BoneLengths TipBoneName RootBoneName
        TargetLocation RootLocation s with
    | none => (none, 1)
    | some s1 =>
      let Distance := FVector.Dist M (mesh.GetBoneLocation s1 TipBoneName) TargetLocation
      let r := SolveFABRIK.Loop M mesh BoneNames BoneLengths TipBoneName RootBoneName
        TargetLocation RootLocation Precision MaxIterations (IterationCount + 1) Distance s1
      (r.1, r.2 + 1)
  else (some s, 0)
termination_by (MaxIterations - IterationCount).toNat
decreasing_by omega

/-- Body of the loop "orientation adjustment". -/
def SolveFABRIK.OrientationStep (M : FMath K) (mesh : UPoseableMeshComponent K S)
    (BoneNames : List FName) (OriginalLocation : List (FVector K)) (s : S) (Index : Nat) : S :=
  let OriginalOrientation := FVector.Normalize M
    (OriginalLocation.getD (Index + 1) ⟨0, 0, 0⟩ - OriginalLocation.getD Index ⟨0, 0, 0⟩)
  let NewOrientation := FVector.Normalize M
    (mesh.GetBoneLocationByName s (BoneNames.getD (Index + 1) "None")
      - mesh.GetBoneLocationByName s (BoneNames.getD Index "None"))
  let Angle := M.Acos (FVector.DotProduct OriginalOrientation NewOrientation)
  let RotationAxis := FVector.CrossProduct OriginalOrientation NewOrientation
  if 0 < RotationAxis.SizeSquared then
    let DeltaRotation := FQuat.ofAxisAngle M RotationAxis Angle
    let BoneQuat := mesh.GetBoneQuaternion s (BoneNames.getD Index "None")
    let NewQuat := FQuat.Normalize M (DeltaRotation * BoneQuat)
    mesh.SetBoneRotationByName s (BoneNames.getD Index "None") NewQuat
  else s

/-- The loop "orientation adjustment": `Index` from 0 to `Num - 2`. -/
def SolveFABRIK.OrientationAdjustment (M : FMath K) (mesh : UPoseableMeshComponent K S)
    (BoneNames : List FName) (OriginalLocation : List (FVector K)) (s : S) : S :=
  (List.range (BoneNames.length - 1)).foldl
    (SolveFABRIK.OrientationStep M mesh BoneNames OriginalLocation) s

/-- The repositioning part of `SolveFABRIK`: the bone lengths, the
reachability test and the branch it selects. -/
def SolveFABRIK.Reposition (M : FMath K) (mesh : UPoseableMeshComponent K S)
    (BoneNames : List FName) (TipBoneName RootBoneName : FName) (TargetLocation : FVector K)
    (Precision : K) (MaxIterations : Int) (s : S) : Option S :=
  let BoneLengths := SolveFABRIK.BoneLengths M mesh BoneNames s
  let BoneLengthSum := SolveFABRIK.BoneLengthSum BoneLengths
  let RootLocation := mesh.GetBoneLocationByName s RootBoneName
  let RootToTargetDist := FVector.Dist M RootLocation TargetLocation
  if BoneLengthSum < RootToTargetDist then
    SolveFABRIK.Stretch M mesh BoneNames BoneLengths TargetLocation s
  else
    let IterationCount : Int := 0
    let Distance := FVector.Dist M (mesh.GetBoneLocation s TipBoneName) TargetLocation
    (SolveFABRIK.Loop M mesh BoneNames BoneLengths TipBoneName RootBoneName TargetLocation
      RootLocation Precision MaxIterations IterationCount Distance s).1

/-- The solving code of `SolveFABRIK` (from the comment "bone length" on), for
a chain that passed the chain check. -/
def SolveFABRIK.Solve (M : FMath K) (mesh : UPoseableMeshComponent K S)
    (BoneNames : List FName) (OriginalLocation : List (FVector K))
    (TipBoneName RootBoneName : FName) (TargetLocation : FVector K)
    (Precision : K) (MaxIterations : Int) (s : S) : Outcome S :=
  match SolveFABRIK.Reposition M mesh BoneNames TipBoneName RootBoneName TargetLocation
      Precision MaxIterations s with
  | none => Outcome.NonFinite
  | some s1 =>
    Outcome.Solved (SolveFABRIK.OrientationAdjustment M mesh BoneNames OriginalLocation s1)

/-- `AIKModuleCharacter::SolveFABRIK`. `none`: the chain walk is still running
after `fuel` evaluations of its condition. -/
def SolveFABRIK (M : FMath K) (mesh : UPoseableMeshComponent K S) (fuel : Nat)
    (TipBoneName RootBoneName : FName) (TargetLocation : FVector K)
    (Precision : K) (MaxIterations : Int) (s : S) : Option (Outcome S) :=
  match ChainWalkFABRIK mesh s RootBoneName fuel TipBoneName [TipBoneName]
      [mesh.GetBoneLocationByName s TipBoneName] with
  | none => none
  | some (BoneName, BoneNames, OriginalLocation) =>
    if BoneName = "None" then some (Outcome.ChainInvalid s)
    else some (SolveFABRIK.Solve M mesh BoneNames OriginalLocation TipBoneName RootBoneName
      TargetLocation Precision MaxIterations s)

/-! ## Jacobian solvers -/

/-- The vector `GetBoneAxis(BoneName, Axis) - BoneLocation` that both Jacobian
solvers take as rotation axis of a joint. -/
def RotAxis (mesh : UPoseableMeshComponent K S) (s : S) (BoneName : FName) (Axis : EAxis) :
    FVector K :=
  mesh.GetBoneAxis s BoneName Axis - mesh.GetBoneLocationByName s BoneName

/-- Body of the loop that fills the Jacobian (the same text in
`SolveJacobianTranspose` and `SolveJacobianPinv`): the three columns of the
joint `Index`. A column is assigned only inside both tests. -/
def JacobianColumns (M : FMath K) (mesh : UPoseableMeshComponent K S)
    (BoneNames : List FName) (TipLocation : FVector K) (s : S)
    (JacobianMat : MatrixXf K) (Index : Nat) : MatrixXf K :=
  let BoneLocation := mesh.GetBoneLocationByName s (BoneNames.getD Index "None")
  let RotAxisX := RotAxis mesh s (BoneNames.getD Index "None") EAxis.X
  let RotAxisY := RotAxis mesh s (BoneNames.getD Index "None") EAxis.Y
  let RotAxisZ := RotAxis mesh s (BoneNames.getD Index "None") EAxis.Z
  let ColumnOffset := Index * 3
  let JacobianMat :=
    if 0 < RotAxisX.SizeSquared then
      let RotAxisX := FVector.Normalize M RotAxisX
      let DeltaX := FVector.CrossProduct RotAxisX (TipLocation - BoneLocation)
      if 0 < DeltaX.SizeSquared then JacobianMat.setColumn ColumnOffset DeltaX
      else JacobianMat
    else JacobianMat
  let JacobianMat :=
    if 0 < RotAxisY.SizeSquared then
      let RotAxisY := FVector.Normalize M RotAxisY
      let DeltaY := FVector.CrossProduct RotAxisY (TipLocation - BoneLocation)
      if 0 < DeltaY.SizeSquared then
        let DeltaY := FVector.Normalize M DeltaY
        JacobianMat.setColumn (ColumnOffset + 1) DeltaY
      else JacobianMat
    else JacobianMat
  if 0 < RotAxisZ.SizeSquared then
    let RotAxisZ := FVector.Normalize M RotAxisZ
    let DeltaZ := FVector.CrossProduct RotAxisZ (TipLocation - BoneLocation)
    if 0 < DeltaZ.SizeSquared then JacobianMat.setColumn (ColumnOffset + 2) DeltaZ
    else JacobianMat
  else JacobianMat

/-- The Jacobian of both solvers: `JacobianMat.resize(3, NumOfLinks * 3)`, whose
coefficients are whatever the storage holds (`Uninitialized`), followed by the
loop over the joints `Index` from 0 to `NumOfLinks - 1`. -/
def BuildJacobian (M : FMath K) (mesh : UPoseableMeshComponent K S)
    (Uninitialized : Nat → Nat → K) (BoneNames : List FName) (TipLocation : FVector K)
    (s : S) : MatrixXf K :=
  let NumOfLinks := BoneNames.length - 1
  (List.range NumOfLinks).foldl (JacobianColumns M mesh BoneNames TipLocation s)
    ⟨3, NumOfLinks * 3, Uninitialized⟩

/-- The three tests of the apply step (the same text in both solvers): the
rotations about X, Y and Z, by the coefficients 0, 1 and 2 of `DeltaRotation`,
multiplied in this order onto the quaternion of the bone. -/
def ComposeAxisRotations (M : FMath K) (mesh : UPoseableMeshComponent K S)
    (DeltaRotation : MatrixXf K) (s : S) (BoneName : FName) : FQuat K :=
  let RotAxisX := RotAxis mesh s BoneName EAxis.X
  let RotAxisY := RotAxis mesh s BoneName EAxis.Y
  let RotAxisZ := RotAxis mesh s BoneName EAxis.Z
  let Quat := mesh.GetBoneQuaternion s BoneName
  let Quat :=
    if 0 < RotAxisX.SizeSquared then
      let DeltaQuatX := FQuat.ofAxisAngle M (FVector.Normalize M RotAxisX) (DeltaRotation.coeff 0 0)
      DeltaQuatX * Quat
    else Quat
  let Quat :=
    if 0 < RotAxisY.SizeSquared then
      let DeltaQuatY := FQuat.ofAxisAngle M (FVector.Normalize M RotAxisY) (DeltaRotation.coeff 1 0)
      DeltaQuatY * Quat
    else Quat
  if 0 < RotAxisZ.SizeSquared then
    let DeltaQuatZ := FQuat.ofAxisAngle M (FVector.Normalize M RotAxisZ) (DeltaRotation.coeff 2 0)
    DeltaQuatZ * Quat
  else Quat

/-- The vector `DeltaRotation` of `SolveJacobianTranspose`, as computed between
the comment "create Jacobian matrix" and the loop "apply the result":
`(AlphaUp / AlphaBottom) * JacobianTranspose * EffectorDerivatives`. -/
def SolveJacobianTranspose.DeltaRotation (M : FMath K) (mesh : UPoseableMeshComponent K S)
    (Uninitialized : Nat → Nat → K) (BoneNames : List FName) (TipBoneName : FName)
    (TargetLocation : FVector K) (s : S) : MatrixXf K :=
  let TipLocation := mesh.GetBoneLocationByName s TipBoneName
  let JacobianMat := BuildJacobian M mesh Uninitialized BoneNames TipLocation s
  let JacobianTranspose := JacobianMat.transpose
  let JacobianSquare := JacobianMat * JacobianTranspose
  let EffectorDerivatives := MatrixXf.ofFVector TargetLocation - MatrixXf.ofFVector TipLocation
  let Result := JacobianSquare * EffectorDerivatives
  let AlphaBottom := Result.dot Result
  let AlphaUp := EffectorDerivatives.dot Result
  ((AlphaUp / AlphaBottom) * JacobianTranspose) * EffectorDerivatives

/-- The scalar `AlphaBottom` of `SolveJacobianTranspose`: `Result.dot(Result)`
with `Result = JacobianSquare * EffectorDerivatives`. -/
def SolveJacobianTranspose.AlphaBottom (M : FMath K) (mesh : UPoseableMeshComponent K S)
    (Uninitialized : Nat → Nat → K) (BoneNames : List FName) (TipBoneName : FName)
    (TargetLocation : FVector K) (s : S) : K :=
  let TipLocation := mesh.GetBoneLocationByName s TipBoneName
  let JacobianMat := BuildJacobian M mesh Uninitialized BoneNames TipLocation s
  let JacobianTranspose := JacobianMat.transpose
  let JacobianSquare := JacobianMat * JacobianTranspose
  let EffectorDerivatives := MatrixXf.ofFVector TargetLocation - MatrixXf.ofFVector TipLocation
  let Result := JacobianSquare * EffectorDerivatives
  Result.dot Result

/-- Body of the loop "apply the result" of `SolveJacobianTranspose`. -/
def SolveJacobianTranspose.ApplyStep (M : FMath K) (mesh : UPoseableMeshComponent K S)
    (BoneNames : List FName) (DeltaRotation : MatrixXf K) (s : S) (Index : Nat) : S :=
  let Quat := ComposeAxisRotations M mesh DeltaRotation s (BoneNames.getD Index "None")
  mesh.SetBoneRotationByName s (BoneNames.getD Index "None") Quat

/-- The solving code of `SolveJacobianTranspose`, for a chain that passed the
chain check. -/
def SolveJacobianTranspose.Solve (M : FMath K) (mesh : UPoseableMeshComponent K S)
    (Uninitialized : Nat → Nat → K) (BoneNames : List FName) (TipBoneName : FName)
    (TargetLocation : FVector K) (Precision : K) (s : S) : S :=
  let TipBoneLocation := mesh.GetBoneLocationByName s TipBoneName
  let Distance := FVector.Dist M TipBoneLocation TargetLocation
  if Precision < Distance then
    let NumOfLinks := BoneNames.length - 1
    let TipLocation := mesh.GetBoneLocationByName s TipBoneName
    let JacobianMat := BuildJacobian M mesh Uninitialized BoneNames TipLocation s
    let JacobianTranspose := JacobianMat.transpose
    let JacobianSquare := JacobianMat * JacobianTranspose
    let EffectorDerivatives := MatrixXf.ofFVector TargetLocation - MatrixXf.ofFVector TipLocation
    let Result := JacobianSquare * EffectorDerivatives
    let AlphaBottom := Result.dot Result
    let AlphaUp := EffectorDerivatives.dot Result
    if ¬ M.IsNearlyZero AlphaBottom then
      let DeltaRotation := ((AlphaUp / AlphaBottom) * JacobianTranspose) * EffectorDerivatives
      (List.range NumOfLinks).foldl
        (SolveJacobianTranspose.ApplyStep M mesh BoneNames DeltaRotation) s
    else s
  else s

/-- `AIKModuleCharacter::SolveJacobianTranspose`. `none`: the chain walk is
still running after `fuel` evaluations of its condition. -/
def SolveJacobianTranspose (M : FMath K) (mesh : UPoseableMeshComponent K S)
    (Uninitialized : Nat → Nat → K) (fuel : Nat) (TipBoneName RootBoneName : FName)
    (TargetLocation : FVector K) (Precision : K) (s : S) : Option (Outcome S) :=
  match ChainWalk mesh RootBoneName fuel TipBoneName [TipBoneName] with
  | none => none
  | some (BoneName, BoneNames) =>
    if BoneName = "None" then some (Outcome.ChainInvalid s)
    else some (Outcome.Solved
      (SolveJacobianTranspose.Solve M mesh Uninitialized BoneNames TipBoneName TargetLocation
        Precision s))

/-- Body of the loop "apply the result" of `SolveJacobianPinv`: as in
`SolveJacobianTranspose`, with `Quat.Normalize()` before the write. -/
def SolveJacobianPinv.ApplyStep (M : FMath K) (mesh : UPoseableMeshComponent K S)
    (BoneNames : List FName) (DeltaRotation : MatrixXf K) (s : S) (Index : Nat) : S :=
  let Quat := ComposeAxisRotations M mesh DeltaRotation s (BoneNames.getD Index "None")
  let Quat := FQuat.Normalize M Quat
  mesh.SetBoneRotationByName s (BoneNames.getD Index "None") Quat

/-- The solving code of `SolveJacobianPinv`, for a chain that passed the chain
check. `inverse` is the call `inverse()` of the matrix library. -/
def SolveJacobianPinv.Solve (M : FMath K) (mesh : UPoseableMeshComponent K S)
    (Uninitialized : Nat → Nat → K) (inverse : MatrixXf K → MatrixXf K)
    (BoneNames : List FName) (TipBoneName : FName)
    (TargetLocation : FVector K) (Precision : K) (s : S) : S :=
  let TipBoneLocation := mesh.GetBoneLocationByName s TipBoneName
  let Distance := FVector.Dist M TipBoneLocation TargetLocation
  if Precision < Distance then
    let NumOfLinks := BoneNames.length - 1
    let TipLocation := mesh.GetBoneLocationByName s TipBoneName
    let JacobianMat := BuildJacobian M mesh Uninitialized BoneNames TipLocation s
    let EffectorDerivatives := MatrixXf.ofFVector TargetLocation - MatrixXf.ofFVector TipLocation
    let JacobianSquare := JacobianMat.transpose * JacobianMat
    let JacobianPinv := inverse JacobianSquare * JacobianMat.transpose
    let DeltaRotation := JacobianPinv * EffectorDerivatives
    (List.range NumOfLinks).foldl
      (SolveJacobianPinv.ApplyStep M mesh BoneNames DeltaRotation) s
  else s

/-- The matrix `JacobianSquare` of `SolveJacobianPinv`, the one `inverse()` is
called on: `JacobianMat.transpose() * JacobianMat`. -/
def SolveJacobianPinv.JacobianSquare (M : FMath K) (mesh : UPoseableMeshComponent K S)
    (Uninitialized : Nat → Nat → K) (BoneNames : List FName) (TipBoneName : FName)
    (s : S) : MatrixXf K :=
  let TipLocation := mesh.GetBoneLocationByName s TipBoneName
  let JacobianMat := BuildJacobian M mesh Uninitialized BoneNames TipLocation s
  JacobianMat.transpose * JacobianMat

/-- `AIKModuleCharacter::SolveJacobianPinv`. `none`: the chain walk is still
running after `fuel` evaluations of its condition. -/
def SolveJacobianPinv (M : FMath K) (mesh : UPoseableMeshComponent K S)
    (Uninitialized : Nat → Nat → K) (inverse : MatrixXf K → MatrixXf K)
    (fuel : Nat) (TipBoneName RootBoneName : FName)
    (TargetLocation : FVector K) (Precision : K) (s : S) : Option (Outcome S) :=
  match ChainWalk mesh RootBoneName fuel TipBoneName [TipBoneName] with
  | none => none
  | some (BoneName, BoneNames) =>
    if BoneName = "None" then some (Outcome.ChainInvalid s)
    else some (Outcome.Solved
      (SolveJacobianPinv.Solve M mesh Uninitialized inverse BoneNames TipBoneName
        TargetLocation Precision s))

/-! ## An in-memory pose store -/

/-- Pose of a flat skeleton: per bone a world-space position and a world-space
orientation. -/
structure FlatPose (K : Type) where
  Location : FName → FVector K
  Rotation : FName → FQuat K

/-- The unit vector of a coordinate axis. -/
def EAxis.UnitVector : EAxis → FVector K
  | EAxis.X => ⟨1, 0, 0⟩
  | EAxis.Y => ⟨0, 1, 0⟩
  | EAxis.Z => ⟨0, 0, 1⟩

/-- Modelled from the spec: the pose store of the engine is not part of the
repository. Section 3 and section 6 of the spec: per bone a world-space
position and orientation, read and written by bone identifier; a write
changes the entry of that bone. `GetBoneAxis` is the local axis of the bone
in world space, the coordinate axis rotated by the orientation of the bone.
`Parent` is the bone hierarchy. -/
def FlatMesh (Parent : FName → FName) : UPoseableMeshComponent K (FlatPose K) where
  GetParentBone := Parent
  GetBoneLocation := fun s BoneName => s.Location BoneName
  GetBoneLocationByName := fun s BoneName => s.Location BoneName
  GetBoneQuaternion := fun s BoneName => s.Rotation BoneName
  GetBoneAxis := fun s BoneName Axis => (s.Rotation BoneName).RotateVector Axis.UnitVector
  SetBoneLocationByName := fun s BoneName V =>
    ⟨fun b => if b = BoneName then V else s.Location b, s.Rotation⟩
  SetBoneRotationByName := fun s BoneName Q =>
    ⟨s.Location, fun b => if b = BoneName then Q else s.Rotation b⟩

/-- The bone `Bone` lies below the bone `Above` in the hierarchy `Parent`:
`Above` is met among the parents of `Bone` within `Depth` steps, before the
sentinel "None". -/
def IsBelow (Parent : FName → FName) : Nat → FName → FName → Bool
  | 0, _, _ => false
  | Depth + 1, Bone, Above =>
    if Parent Bone = "None" then false
    else if Parent Bone = Above then true
    else IsBelow Parent Depth (Parent Bone) Above

/-- Modelled from the spec: the pose store of the engine is not part of the
repository. A skeleton of rigid segments (section 1) whose bones are posed in
world space (section 3, section 6) and hang on their parents: the tip moves
when a joint above it rotates (section 4.2, step 1, and the joint loop of
`SolveCCD`, which writes orientations only and reads the tip again). The
bones below a bone keep their place relative to it: an orientation write
gives the bone the orientation given and turns the bones below it about the
position of the bone, by the rotation from the old orientation to the new
one; a position write moves the bone to the position given and shifts the
bones below it along. `Depth` bounds the depth of the hierarchy. -/
def CarryMesh (Parent : FName → FName) (Depth : Nat) :
    UPoseableMeshComponent K (FlatPose K) where
  GetParentBone := Parent
  GetBoneLocation := fun s BoneName => s.Location BoneName
  GetBoneLocationByName := fun s BoneName => s.Location BoneName
  GetBoneQuaternion := fun s BoneName => s.Rotation BoneName
  GetBoneAxis := fun s BoneName Axis => (s.Rotation BoneName).RotateVector Axis.UnitVector
  SetBoneLocationByName := fun s BoneName V =>
    ⟨fun b => if b = BoneName then V
      else if IsBelow Parent Depth b BoneName then
        s.Location b + (V - s.Location BoneName)
      else s.Location b, s.Rotation⟩
  SetBoneRotationByName := fun s BoneName Q =>
    let Delta := Q * (s.Rotation BoneName).Inverse
    ⟨fun b => if IsBelow Parent Depth b BoneName then
        s.Location BoneName + Delta.Rotation (s.Location b - s.Location BoneName)
      else s.Location b,
     fun b => if b = BoneName then Q
      else if IsBelow Parent Depth b BoneName then Delta * s.Rotation b
      else s.Rotation b⟩

/-- A pose store that also keeps the list of the orientations written through
`SetBoneRotationByName`, latest first. -/
def WithWriteLog (mesh : UPoseableMeshComponent K S) :
    UPoseableMeshComponent K (S × List (FName × FQuat K)) where
  GetParentBone := mesh.GetParentBone
  GetBoneLocation := fun s BoneName => mesh.GetBoneLocation s.1 BoneName
  GetBoneLocationByName := fun s BoneName => mesh.GetBoneLocationByName s.1 BoneName
  GetBoneQuaternion := fun s BoneName => mesh.GetBoneQuaternion s.1 BoneName
  GetBoneAxis := fun s BoneName Axis => mesh.GetBoneAxis s.1 BoneName Axis
  SetBoneLocationByName := fun s BoneName V => (mesh.SetBoneLocationByName s.1 BoneName V, s.2)
  SetBoneRotationByName := fun s BoneName Q =>
    (mesh.SetBoneRotationByName s.1 BoneName Q, (BoneName, Q) :: s.2)

/-- The pose a solve call left, when it left one. -/
def Outcome.pose : Outcome S → Option S
  | Outcome.ChainInvalid s => some s
  | Outcome.Solved s => some s
  | Outcome.NonFinite => none

/-- Laws of a pose store over a hierarchy of rigid segments: a position read
after a position write of the same bone returns what was written; a position
write moves no bone above the bone written; an orientation write keeps the
length of every segment, the distance between a bone and its parent. They
hold for a store in which a write to a bone carries the bones below it
(`CarryMesh` over the left arm) and for a per-bone table (`FlatMesh`). -/
structure SegmentStore (mesh : UPoseableMeshComponent K S) : Prop where
  get_set_same : ∀ s b v,
    mesh.GetBoneLocationByName (mesh.SetBoneLocationByName s b v) b = v
  set_location_above : ∀ s b v n, mesh.GetParentBone^[n] b ≠ b →
    mesh.GetBoneLocationByName (mesh.SetBoneLocationByName s b v) (mesh.GetParentBone^[n] b)
      = mesh.GetBoneLocationByName s (mesh.GetParentBone^[n] b)
  set_rotation_segment : ∀ s b q c,
    (mesh.GetBoneLocationByName (mesh.SetBoneRotationByName s b q) c
        - mesh.GetBoneLocationByName (mesh.SetBoneRotationByName s b q)
            (mesh.GetParentBone c)).SizeSquared
      = (mesh.GetBoneLocationByName s c
          - mesh.GetBoneLocationByName s (mesh.GetParentBone c)).SizeSquared

/-- Modelled from the spec: the laws of the pose store about orientations
(section 3: the orientation of a bone is a unit quaternion). While every
stored orientation is a unit quaternion, a position write leaves it so, and so
does the write of a unit quaternion. -/
structure OrientationStore (mesh : UPoseableMeshComponent K S) : Prop where
  set_location : ∀ s b v, (∀ c, (mesh.GetBoneQuaternion s c).SizeSquared = 1) →
    ∀ c, (mesh.GetBoneQuaternion (mesh.SetBoneLocationByName s b v) c).SizeSquared = 1
  set_rotation : ∀ s b q, (∀ c, (mesh.GetBoneQuaternion s c).SizeSquared = 1) →
    q.SizeSquared = 1 →
    ∀ c, (mesh.GetBoneQuaternion (mesh.SetBoneRotationByName s b q) c).SizeSquared = 1

/-- Every orientation in a list of writes is a unit quaternion. -/
def UnitWrites (log : List (FName × FQuat K)) : Prop :=
  ∀ w ∈ log, w.2.SizeSquared = 1

/-! ## Example skeletons -/

/-- The path of the spec's section 8: the bones met from `Tip` upwards in `k`
parent steps, listed from the highest one down to `Tip`. -/
def AncestorPath (Parent : FName → FName) (Tip : FName) : Nat → List FName
  | 0 => [Tip]
  | k + 1 => Parent^[k + 1] Tip :: AncestorPath Parent Tip k

/-- The synthetic hierarchy root -> A -> B -> tip of the spec's section 8. -/
def SyntheticParent (BoneName : FName) : FName :=
  if BoneName = "tip" then "B"
  else if BoneName = "B" then "A"
  else if BoneName = "A" then "root"
  else "None"

/-- The left arm of the skeleton that `Tick` solves: upperarm_l -> lowerarm_l ->
hand_l; the upper arm has no parent here. -/
def ArmParent (BoneName : FName) : FName :=
  if BoneName = "hand_l" then "lowerarm_l"
  else if BoneName = "lowerarm_l" then "upperarm_l"
  else "None"

/-- A pose in which every bone sits at the origin with the identity orientation. -/
def RestPose : FlatPose K := ⟨fun _ => ⟨0, 0, 0⟩, fun _ => FQuat.Identity⟩

/-- A pose of the left arm with the forearm bent: hand_l at (0, 3, 0), every
other bone at the origin, all orientations the identity. -/
def BentPose : FlatPose K :=
  ⟨fun b => if b = "hand_l" then ⟨0, 3, 0⟩ else ⟨0, 0, 0⟩, fun _ => FQuat.Identity⟩

/-- A pose of the left arm with the forearm along X: hand_l at (2, 0, 0), every
other bone at the origin, all orientations the identity. -/
def StraightPose : FlatPose K :=
  ⟨fun b => if b = "hand_l" then ⟨2, 0, 0⟩ else ⟨0, 0, 0⟩, fun _ => FQuat.Identity⟩

/-- A pose of the left arm with two links: upperarm_l at the origin, lowerarm_l
at (2/3, 2/3, 2/3), hand_l at (0, 1, 0), all orientations the identity. -/
def TwoLinkPose : FlatPose K :=
  ⟨fun b => if b = "lowerarm_l" then ⟨2 / 3, 2 / 3, 2 / 3⟩
    else if b = "hand_l" then ⟨0, 1, 0⟩ else ⟨0, 0, 0⟩, fun _ => FQuat.Identity⟩

/-- A pose of the left arm after the hand was moved: hand_l at (3, 4, 0), every
other bone at the origin, all orientations the identity. -/
def ReachedPose : FlatPose K :=
  ⟨fun b => if b = "hand_l" then ⟨3, 4, 0⟩ else ⟨0, 0, 0⟩, fun _ => FQuat.Identity⟩

/-- A pose of the left arm with two segments of length 5 along Y: upperarm_l at
the origin, lowerarm_l at (0, 5, 0), hand_l at (0, 10, 0), all orientations the
identity. -/
def UprightPose : FlatPose K :=
  ⟨fun b => if b = "lowerarm_l" then ⟨0, 5, 0⟩ else if b = "hand_l" then ⟨0, 10, 0⟩
    else ⟨0, 0, 0⟩, fun _ => FQuat.Identity⟩

/-- The flat skeleton over the synthetic hierarchy. -/
def SyntheticMesh : UPoseableMeshComponent K (FlatPose K) := FlatMesh SyntheticParent

/-- The flat skeleton over the left arm. -/
def ArmMesh : UPoseableMeshComponent K (FlatPose K) := FlatMesh ArmParent

/-- The left arm as a skeleton whose bones carry the bones below them. -/
def ArmRig : UPoseableMeshComponent K (FlatPose K) := CarryMesh ArmParent 2

end Solvers

/-! # Theorems -/

section ChainTheorems

variable {K : Type} {S : Type}

theorem AncestorPath_length (Parent : FName → FName) (Tip : FName) (k : Nat) :
    (AncestorPath Parent Tip k).length = k + 1 := by
  induction k with
  | zero => rfl
  | succ k ih => simp [AncestorPath, ih]

theorem AncestorPath_head (Parent : FName → FName) (Tip : FName) (k : Nat) :
    (AncestorPath Parent Tip k).head? = some (Parent^[k] Tip) := by
  cases k <;> rfl

theorem AncestorPath_getLast (Parent : FName → FName) (Tip : FName) (k : Nat) :
    (AncestorPath Parent Tip k).getLast? = some Tip := by
  induction k with
  | zero => rfl
  | succ k ih =>
    cases hk : AncestorPath Parent Tip k with
    | nil => simp [hk] at ih
    | cons a l =>
      rw [hk] at ih
      simp only [AncestorPath, hk]
      rw [List.getLast?_cons_cons]
      exact ih

theorem AncestorPath_chain (Parent : FName → FName) (Tip : FName) (k : Nat) :
    List.Chain' (fun a b => Parent b = a) (AncestorPath Parent Tip k) := by
  induction k with
  | zero => simp [AncestorPath]
  | succ k ih =>
    simp only [AncestorPath]
    rw [List.chain'_cons']
    refine ⟨?_, ih⟩
    intro y hy
    rw [AncestorPath_head] at hy
    cases hy
    exact (Function.iterate_succ_apply' Parent k Tip).symm

/-- The walk from the `j`-th ancestor of the tip with the path built so far
ends at the first ancestor equal to the root. -/
theorem ChainWalk_from (mesh : UPoseableMeshComponent K S) (Tip Root : FName) (k : Nat)
    (hk : mesh.GetParentBone^[k] Tip = Root)
    (hmin : ∀ j, j < k → mesh.GetParentBone^[j] Tip ≠ Root) :
    ∀ (d j fuel : Nat), j + d = k → d < fuel →
      ChainWalk mesh Root fuel (mesh.GetParentBone^[j] Tip)
        (AncestorPath mesh.GetParentBone Tip j)
        = some (Root, AncestorPath mesh.GetParentBone Tip k) := by
  intro d
  induction d with
  | zero =>
    intro j fuel hj hfuel
    obtain ⟨fuel, rfl⟩ : ∃ f, fuel = f + 1 := ⟨fuel - 1, by omega⟩
    have hjk : j = k := by omega
    subst hjk
    simp [ChainWalk, hk]
  | succ d ih =>
    intro j fuel hj hfuel
    obtain ⟨fuel, rfl⟩ : ∃ f, fuel = f + 1 := ⟨fuel - 1, by omega⟩
    have hne := hmin j (by omega)
    simp only [ChainWalk, hne, if_false]
    have := ih (j + 1) fuel (by omega) (by omega)
    rw [Function.iterate_succ_apply'] at this
    simpa [AncestorPath, Function.iterate_succ_apply'] using this

/-- The walk of `SolveFABRIK` builds the same chain and the locations of its bones. -/
theorem ChainWalkFABRIK_eq (mesh : UPoseableMeshComponent K S) (s : S) (Root : FName) :
    ∀ (fuel : Nat) (BoneName : FName) (BoneNames : List FName),
      ChainWalkFABRIK mesh s Root fuel BoneName BoneNames
          (BoneNames.map (mesh.GetBoneLocationByName s))
        = (ChainWalk mesh Root fuel BoneName BoneNames).map
            (fun r => (r.1, r.2, r.2.map (mesh.GetBoneLocationByName s))) := by
  intro fuel
  induction fuel with
  | zero => intro _ _; rfl
  | succ fuel ih =>
    intro BoneName BoneNames
    by_cases h : BoneName = Root
    · simp [ChainWalkFABRIK, ChainWalk, h]
    · simp only [ChainWalkFABRIK, ChainWalk, h, if_false]
      exact ih (mesh.GetParentBone BoneName) (mesh.GetParentBone BoneName :: BoneNames)

/-- Reading the recorded locations by index. -/
theorem getD_map_location (mesh : UPoseableMeshComponent K S) (s : S)
    (BoneNames : List FName) (i : Nat) (h : i < BoneNames.length) (d : FVector K) :
    (BoneNames.map (mesh.GetBoneLocationByName s)).getD i d
      = mesh.GetBoneLocationByName s (BoneNames.getD i "None") := by
  simp [List.getD_eq_getElem?_getD, List.getElem?_map, List.getElem?_eq_getElem h]

/-- The result of the walk of `SolveFABRIK`, from the result of `ChainWalk`. -/
theorem ChainWalkFABRIK_of_ChainWalk (mesh : UPoseableMeshComponent K S) (s : S)
    (fuel : Nat) (Tip Root BoneName : FName) (BoneNames : List FName)
    (hwalk : ChainWalk mesh Root fuel Tip [Tip] = some (BoneName, BoneNames)) :
    ChainWalkFABRIK mesh s Root fuel Tip [Tip] [mesh.GetBoneLocationByName s Tip]
      = some (BoneName, BoneNames, BoneNames.map (mesh.GetBoneLocationByName s)) := by
  have hF := ChainWalkFABRIK_eq mesh s Root fuel Tip [Tip]
  simp only [List.map_cons, List.map_nil] at hF
  rw [hF, hwalk]
  rfl

/-- A walk that ends, ends on the root, and the root heads the chain. -/
theorem ChainWalk_some_head (mesh : UPoseableMeshComponent K S) (Root : FName) :
    ∀ (fuel : Nat) (BoneName : FName) (BoneNames : List FName) (r : FName × List FName),
      BoneNames.head? = some BoneName →
      ChainWalk mesh Root fuel BoneName BoneNames = some r →
      r.1 = Root ∧ r.2.getD 0 "None" = Root := by
  intro fuel
  induction fuel with
  | zero => intro _ _ _ _ h; simp [ChainWalk] at h
  | succ fuel ih =>
    intro BoneName BoneNames r hhead h
    by_cases hb : BoneName = Root
    · simp only [ChainWalk, hb, if_true, Option.some.injEq] at h
      subst h
      cases BoneNames with
      | nil => simp at hhead
      | cons a l =>
        simp only [List.head?_cons, Option.some.injEq] at hhead
        simp [hhead, hb]
    · simp only [ChainWalk, hb, if_false] at h
      exact ih (mesh.GetParentBone BoneName) (mesh.GetParentBone BoneName :: BoneNames) r
        rfl h

/-- The walk never ends when no ancestor of the bone is the root. -/
theorem ChainWalk_none (mesh : UPoseableMeshComponent K S) (Root : FName) :
    ∀ (fuel : Nat) (BoneName : FName) (BoneNames : List FName),
      (∀ k, mesh.GetParentBone^[k] BoneName ≠ Root) →
      ChainWalk mesh Root fuel BoneName BoneNames = none := by
  intro fuel
  induction fuel with
  | zero => intro _ _ _; rfl
  | succ fuel ih =>
    intro BoneName BoneNames h
    have h0 : BoneName ≠ Root := h 0
    simp only [ChainWalk, h0, if_false]
    exact ih _ _ (fun k => h (k + 1))

/-- The chain built by the walk names each bone after its parent. -/
theorem ChainWalk_chain (mesh : UPoseableMeshComponent K S) (Root : FName) :
    ∀ (fuel : Nat) (BoneName : FName) (BoneNames : List FName) (r : FName × List FName),
      BoneNames.head? = some BoneName →
      List.Chain' (fun a b => mesh.GetParentBone b = a) BoneNames →
      ChainWalk mesh Root fuel BoneName BoneNames = some r →
      List.Chain' (fun a b => mesh.GetParentBone b = a) r.2 := by
  intro fuel
  induction fuel with
  | zero => intro _ _ _ _ _ h; simp [ChainWalk] at h
  | succ fuel ih =>
    intro BoneName BoneNames r hhead hchain h
    by_cases hb : BoneName = Root
    · simp only [ChainWalk, hb, if_true, Option.some.injEq] at h
      subst h
      exact hchain
    · simp only [ChainWalk, hb, if_false] at h
      refine ih (mesh.GetParentBone BoneName) (mesh.GetParentBone BoneName :: BoneNames) r
        rfl ?_ h
      rw [List.chain'_cons']
      refine ⟨?_, hchain⟩
      intro y hy
      rw [hhead] at hy
      cases hy
      rfl

/-- In a list that names each bone after its parent, the parent of the entry
`i + 1` is the entry `i`. -/
theorem chain_parent_getD (Parent : FName → FName) (l : List FName)
    (h : List.Chain' (fun a b => Parent b = a) l) :
    ∀ i, i + 1 < l.length → Parent (l.getD (i + 1) "None") = l.getD i "None" := by
  intro i hi
  have := List.chain'_iff_get.1 h i (by omega)
  rw [List.getD_eq_getElem _ _ hi, List.getD_eq_getElem _ _ (by omega)]
  simpa using this

/-- In such a list the entry `k` is met from the entry `k + m` in `m` parent
steps. -/
theorem chain_iterate_getD (Parent : FName → FName) (l : List FName)
    (h : ∀ i, i + 1 < l.length → Parent (l.getD (i + 1) "None") = l.getD i "None") :
    ∀ m k, k + m < l.length → Parent^[m] (l.getD (k + m) "None") = l.getD k "None" := by
  intro m
  induction m with
  | zero => intro k _; rfl
  | succ m ih =>
    intro k hk
    rw [Function.iterate_succ_apply, ← Nat.add_assoc, h (k + m) (by omega)]
    exact ih k (by omega)

/-- The parent relation along the chain that a walk returned. -/
theorem ChainWalk_parent (mesh : UPoseableMeshComponent K S) (Root Tip BoneName : FName)
    (fuel : Nat) (BoneNames : List FName)
    (hwalk : ChainWalk mesh Root fuel Tip [Tip] = some (BoneName, BoneNames)) :
    ∀ i, i + 1 < BoneNames.length →
      mesh.GetParentBone (BoneNames.getD (i + 1) "None") = BoneNames.getD i "None" :=
  chain_parent_getD mesh.GetParentBone BoneNames
    (ChainWalk_chain mesh Root fuel Tip [Tip] (BoneName, BoneNames) rfl
      (List.chain'_singleton _) hwalk)

/-- C1. Chain resolution: when the root is an ancestor of the tip (or the tip
itself), the walk at the start of each solver ends, for every fuel that covers
its length, with `BoneName` equal to the root and with the same list
`BoneNames` in all four solvers (the walk of `SolveFABRIK` records the bone
locations along it). The list starts with the root, ends with the tip, each
entry is the parent of the next one, and for a hierarchy root -> A -> B -> tip
it is `[root, A, B, tip]`. -/
theorem chain_resolution (mesh : UPoseableMeshComponent K S) (s : S) (Tip Root : FName)
    (h : ∃ k, mesh.GetParentBone^[k] Tip = Root) :
    ∃ BoneNames : List FName,
      (∀ fuel, BoneNames.length ≤ fuel →
        ChainWalk mesh Root fuel Tip [Tip] = some (Root, BoneNames)) ∧
      (∀ fuel, BoneNames.length ≤ fuel →
        ChainWalkFABRIK mesh s Root fuel Tip [Tip] [mesh.GetBoneLocationByName s Tip]
          = some (Root, BoneNames, BoneNames.map (mesh.GetBoneLocationByName s))) ∧
      BoneNames.head? = some Root ∧
      BoneNames.getLast? = some Tip ∧
      List.Chain' (fun a b => mesh.GetParentBone b = a) BoneNames ∧
      (∀ A B, mesh.GetParentBone Tip = B → mesh.GetParentBone B = A →
        mesh.GetParentBone A = Root → Tip ≠ Root → B ≠ Root → A ≠ Root →
        BoneNames = [Root, A, B, Tip]) := by
  classical
  have hk := Nat.find_spec h
  have hmin : ∀ j, j < Nat.find h → mesh.GetParentBone^[j] Tip ≠ Root :=
    fun j hj => Nat.find_min h hj
  have hwalk : ∀ fuel, (AncestorPath mesh.GetParentBone Tip (Nat.find h)).length ≤ fuel →
      ChainWalk mesh Root fuel Tip [Tip]
        = some (Root, AncestorPath mesh.GetParentBone Tip (Nat.find h)) := by
    intro fuel hfuel
    rw [AncestorPath_length] at hfuel
    exact ChainWalk_from mesh Tip Root (Nat.find h) hk hmin (Nat.find h) 0 fuel
      (by omega) (by omega)
  refine ⟨AncestorPath mesh.GetParentBone Tip (Nat.find h), hwalk, ?_, ?_,
    AncestorPath_getLast _ _ _, AncestorPath_chain _ _ _, ?_⟩
  · intro fuel hfuel
    have := ChainWalkFABRIK_eq mesh s Root fuel Tip [Tip]
    simp only [List.map_cons, List.map_nil] at this
    rw [this, hwalk fuel hfuel]
    rfl
  · rw [AncestorPath_head, hk]
  · intro A B hB hA hR h0 h1 h2
    have h3 : Nat.find h = 3 := by
      apply le_antisymm
      · apply Nat.find_min'
        simp [Function.iterate_succ_apply', hB, hA, hR]
      · by_contra hlt
        have hlt : Nat.find h < 3 := by omega
        have hcases : Nat.find h = 0 ∨ Nat.find h = 1 ∨ Nat.find h = 2 := by omega
        rcases hcases with e | e | e <;> rw [e] at hk <;>
          simp [Function.iterate_succ_apply', hB, hA] at hk <;> contradiction
    rw [h3]
    simp [AncestorPath, Function.iterate_succ_apply', hB, hA, hR]

/-- Witness of C1: the synthetic hierarchy root -> A -> B -> tip. -/
theorem chain_resolution_witness :
    (SyntheticParent^[3] "tip" = "root") ∧
    ∃ BoneNames : List FName,
      ChainWalk (SyntheticMesh : UPoseableMeshComponent ℚ (FlatPose ℚ)) "root" 4 "tip" ["tip"]
        = some ("root", BoneNames) ∧
      BoneNames = ["root", "A", "B", "tip"] := by
  have h3 : SyntheticParent^[3] "tip" = "root" := by decide
  refine ⟨h3, ?_⟩
  obtain ⟨BoneNames, hwalk, _, _, _, _, hex⟩ :=
    chain_resolution (SyntheticMesh : UPoseableMeshComponent ℚ (FlatPose ℚ)) RestPose
      "tip" "root" ⟨3, h3⟩
  have hb : BoneNames = ["root", "A", "B", "tip"] :=
    hex "A" "B" (by decide) (by decide) (by decide) (by decide) (by decide) (by decide)
  exact ⟨BoneNames, hwalk 4 (by rw [hb]; decide), hb⟩

end ChainTheorems

section ChainCheck

variable {K : Type} [LinearOrderedField K] {S : Type}

/-- Every ancestor of hand_l in the left arm is one of four names. -/
theorem ArmParent_iterate (k : Nat) :
    ArmParent^[k] "hand_l" ∈ ["hand_l", "lowerarm_l", "upperarm_l", "None"] := by
  induction k with
  | zero => simp
  | succ k ih =>
    rw [Function.iterate_succ_apply']
    simp only [List.mem_cons, List.mem_singleton, List.not_mem_nil, or_false] at ih ⊢
    rcases ih with e | e | e | e <;> rw [e] <;> decide

/-- No ancestor of hand_l in the left arm is upperarm_r. -/
theorem ArmParent_not_ancestor (k : Nat) : ArmParent^[k] "hand_l" ≠ "upperarm_r" := by
  have h := ArmParent_iterate k
  simp only [List.mem_cons, List.mem_singleton, List.not_mem_nil, or_false] at h
  rcases h with e | e | e | e <;> rw [e] <;> decide

/-- A walk that never ends leaves all four solvers without a result. -/
theorem solvers_none_of_walk_none (M : FMath K) (mesh : UPoseableMeshComponent K S)
    (Uninitialized : Nat → Nat → K) (inverse : MatrixXf K → MatrixXf K) (fuel : Nat)
    (Tip Root : FName) (TargetLocation : FVector K) (Precision : K) (MaxIterations : Int)
    (s : S) (h : ChainWalk mesh Root fuel Tip [Tip] = none) :
    SolveCCD M mesh fuel Tip Root TargetLocation Precision MaxIterations s = none ∧
    SolveFABRIK M mesh fuel Tip Root TargetLocation Precision MaxIterations s = none ∧
    SolveJacobianTranspose M mesh Uninitialized fuel Tip Root TargetLocation Precision s
      = none ∧
    SolveJacobianPinv M mesh Uninitialized inverse fuel Tip Root TargetLocation Precision s
      = none := by
  have hF := ChainWalkFABRIK_eq mesh s Root fuel Tip [Tip]
  simp only [List.map_cons, List.map_nil, h, Option.map_none'] at hF
  refine ⟨?_, ?_, ?_, ?_⟩
  · simp [SolveCCD, h]
  · simp [SolveFABRIK, hF]
  · simp [SolveJacobianTranspose, h]
  · simp [SolveJacobianPinv, h]

/-- With the tip as root the walk ends at once with the one-bone chain, and a
bone other than the sentinel passes the test that follows it: all four solvers
run their solving code on the chain `[b]`. -/
theorem solvers_of_tip_eq_root (M : FMath K) (mesh : UPoseableMeshComponent K S)
    (Uninitialized : Nat → Nat → K) (inverse : MatrixXf K → MatrixXf K) (fuel : Nat)
    (b : FName) (hb : b ≠ "None") (TargetLocation : FVector K) (Precision : K)
    (MaxIterations : Int) (s : S) :
    SolveCCD M mesh (fuel + 1) b b TargetLocation Precision MaxIterations s
      = some (Outcome.Solved
          (SolveCCD.Solve M mesh [b] b TargetLocation Precision MaxIterations s)) ∧
    SolveFABRIK M mesh (fuel + 1) b b TargetLocation Precision MaxIterations s
      = some (SolveFABRIK.Solve M mesh [b] [mesh.GetBoneLocationByName s b] b b
          TargetLocation Precision MaxIterations s) ∧
    SolveJacobianTranspose M mesh Uninitialized (fuel + 1) b b TargetLocation Precision s
      = some (Outcome.Solved
          (SolveJacobianTranspose.Solve M mesh Uninitialized [b] b TargetLocation
            Precision s)) ∧
    SolveJacobianPinv M mesh Uninitialized inverse (fuel + 1) b b TargetLocation Precision s
      = some (Outcome.Solved
          (SolveJacobianPinv.Solve M mesh Uninitialized inverse [b] b TargetLocation
            Precision s)) := by
  refine ⟨?_, ?_, ?_, ?_⟩
  · simp [SolveCCD, ChainWalk, hb]
  · simp [SolveFABRIK, ChainWalkFABRIK, hb]
  · simp [SolveJacobianTranspose, ChainWalk, hb]
  · simp [SolveJacobianPinv, ChainWalk, hb]

/-- The solving code of `SolveFABRIK` never reports an invalid chain. -/
theorem SolveFABRIK_Solve_ne_ChainInvalid (M : FMath K) (mesh : UPoseableMeshComponent K S)
    (BoneNames : List FName) (OriginalLocation : List (FVector K)) (Tip Root : FName)
    (TargetLocation : FVector K) (Precision : K) (MaxIterations : Int) (s t : S) :
    SolveFABRIK.Solve M mesh BoneNames OriginalLocation Tip Root TargetLocation Precision
      MaxIterations s ≠ Outcome.ChainInvalid t := by
  unfold SolveFABRIK.Solve
  split <;> intro h <;> cases h

/-- C2 (defect of the code). The root upperarm_r is no ancestor of hand_l in the
left arm; the walk reaches the sentinel after three steps and the parent of the
sentinel is the sentinel, yet the walk does not stop there: for every fuel it
is still running, so none of the four solvers gets to its test of the sentinel,
reports the chain as invalid or returns. -/
theorem chain_invalid_walk_never_stops (M : FMath ℝ) (Uninitialized : Nat → Nat → ℝ)
    (inverse : MatrixXf ℝ → MatrixXf ℝ) (fuel : Nat) (TargetLocation : FVector ℝ)
    (Precision : ℝ) (MaxIterations : Int) (s : FlatPose ℝ) :
    ArmParent^[3] "hand_l" = "None" ∧ ArmParent "None" = "None" ∧
    ChainWalk (ArmMesh : UPoseableMeshComponent ℝ (FlatPose ℝ)) "upperarm_r" fuel
      "hand_l" ["hand_l"] = none ∧
    SolveCCD M ArmMesh fuel "hand_l" "upperarm_r" TargetLocation Precision MaxIterations s
      = none ∧
    SolveFABRIK M ArmMesh fuel "hand_l" "upperarm_r" TargetLocation Precision MaxIterations s
      = none ∧
    SolveJacobianTranspose M ArmMesh Uninitialized fuel "hand_l" "upperarm_r" TargetLocation
      Precision s = none ∧
    SolveJacobianPinv M ArmMesh Uninitialized inverse fuel "hand_l" "upperarm_r"
      TargetLocation Precision s = none := by
  have hw : ChainWalk (ArmMesh : UPoseableMeshComponent ℝ (FlatPose ℝ)) "upperarm_r" fuel
      "hand_l" ["hand_l"] = none :=
    ChainWalk_none ArmMesh "upperarm_r" fuel "hand_l" ["hand_l"] ArmParent_not_ancestor
  exact ⟨by decide, by decide, hw,
    solvers_none_of_walk_none M ArmMesh Uninitialized inverse fuel "hand_l" "upperarm_r"
      TargetLocation Precision MaxIterations s hw⟩

/-- C9, as the claim states it, fails: with tip = root = hand_l none of the four
solvers reports an invalid chain. -/
theorem degenerate_chain_not_rejected :
    SolveCCD (FMath.mk Real.sqrt Real.arccos Real.sin Real.cos (1 / 100000000))
        ArmMesh 1 "hand_l" "hand_l" ⟨0, 0, 260⟩ 1 10 RestPose
      ≠ some (Outcome.ChainInvalid RestPose) ∧
    SolveFABRIK (FMath.mk Real.sqrt Real.arccos Real.sin Real.cos (1 / 100000000))
        ArmMesh 1 "hand_l" "hand_l" ⟨0, 0, 260⟩ 1 10 RestPose
      ≠ some (Outcome.ChainInvalid RestPose) ∧
    SolveJacobianTranspose (FMath.mk Real.sqrt Real.arccos Real.sin Real.cos (1 / 100000000))
        ArmMesh (fun _ _ => 0) 1 "hand_l" "hand_l" ⟨0, 0, 260⟩ 1 RestPose
      ≠ some (Outcome.ChainInvalid RestPose) ∧
    SolveJacobianPinv (FMath.mk Real.sqrt Real.arccos Real.sin Real.cos (1 / 100000000))
        ArmMesh (fun _ _ => 0) (fun A => A) 1 "hand_l" "hand_l" ⟨0, 0, 260⟩ 1 RestPose
      ≠ some (Outcome.ChainInvalid RestPose) := by
  have h := solvers_of_tip_eq_root
    (FMath.mk Real.sqrt Real.arccos Real.sin Real.cos (1 / 100000000))
    ArmMesh (fun _ _ => 0) (fun A => A) 0 "hand_l" (by decide) ⟨0, 0, 260⟩ 1 10 RestPose
  obtain ⟨h1, h2, h3, h4⟩ := h
  refine ⟨?_, ?_, ?_, ?_⟩
  · rw [h1]; intro h; cases h
  · rw [h2]; intro h
    exact SolveFABRIK_Solve_ne_ChainInvalid _ _ _ _ _ _ _ _ _ _ _ (Option.some.inj h)
  · rw [h3]; intro h; cases h
  · rw [h4]; intro h; cases h

/-- C9, amended. For every bone `b` other than the sentinel, a solve call with
tip = root = `b` is not rejected: the walk ends at once with the chain `[b]`,
the test of the sentinel passes, and each of the four solvers runs its solving
code on this chain of length 1; none of them reports an invalid chain. -/
theorem degenerate_chain_accepted (M : FMath K) (mesh : UPoseableMeshComponent K S)
    (Uninitialized : Nat → Nat → K) (inverse : MatrixXf K → MatrixXf K) (fuel : Nat)
    (b : FName) (hb : b ≠ "None") (TargetLocation : FVector K) (Precision : K)
    (MaxIterations : Int) (s : S) :
    ChainWalk mesh b (fuel + 1) b [b] = some (b, [b]) ∧
    SolveCCD M mesh (fuel + 1) b b TargetLocation Precision MaxIterations s
      = some (Outcome.Solved
          (SolveCCD.Solve M mesh [b] b TargetLocation Precision MaxIterations s)) ∧
    SolveFABRIK M mesh (fuel + 1) b b TargetLocation Precision MaxIterations s
      = some (SolveFABRIK.Solve M mesh [b] [mesh.GetBoneLocationByName s b] b b
          TargetLocation Precision MaxIterations s) ∧
    (∀ t, SolveFABRIK M mesh (fuel + 1) b b TargetLocation Precision MaxIterations s
      ≠ some (Outcome.ChainInvalid t)) ∧
    SolveJacobianTranspose M mesh Uninitialized (fuel + 1) b b TargetLocation Precision s
      = some (Outcome.Solved
          (SolveJacobianTranspose.Solve M mesh Uninitialized [b] b TargetLocation
            Precision s)) ∧
    SolveJacobianPinv M mesh Uninitialized inverse (fuel + 1) b b TargetLocation Precision s
      = some (Outcome.Solved
          (SolveJacobianPinv.Solve M mesh Uninitialized inverse [b] b TargetLocation
            Precision s)) := by
  obtain ⟨h1, h2, h3, h4⟩ := solvers_of_tip_eq_root M mesh Uninitialized inverse fuel b hb
    TargetLocation Precision MaxIterations s
  refine ⟨by simp [ChainWalk], h1, h2, ?_, h3, h4⟩
  intro t h
  rw [h2] at h
  exact SolveFABRIK_Solve_ne_ChainInvalid _ _ _ _ _ _ _ _ _ _ _ (Option.some.inj h)

/-- Witness of C9 (amended): the bone hand_l of the left arm. -/
theorem degenerate_chain_accepted_witness :
    ("hand_l" : FName) ≠ "None" ∧
    ChainWalk (ArmMesh : UPoseableMeshComponent ℝ (FlatPose ℝ)) "hand_l" 1 "hand_l" ["hand_l"]
      = some ("hand_l", ["hand_l"]) :=
  ⟨by decide,
   (degenerate_chain_accepted
      (FMath.mk Real.sqrt Real.arccos Real.sin Real.cos (1 / 100000000))
      (ArmMesh : UPoseableMeshComponent ℝ (FlatPose ℝ)) (fun _ _ => 0) (fun A => A) 0
      "hand_l" (by decide) ⟨0, 0, 260⟩ 1 10 RestPose).1⟩

end ChainCheck

section Loops

variable {K : Type} [LinearOrderedField K] {S : Type}

/-- The loop of `SolveCCD` runs its body at most `MaxIterations - IterationCount`
times. -/
theorem SolveCCD_Loop_count (M : FMath K) (mesh : UPoseableMeshComponent K S)
    (BoneNames : List FName) (Tip : FName) (TargetLocation : FVector K) (Precision : K)
    (MaxIterations : Int) :
    ∀ (n : Nat) (IterationCount : Int) (Distance : K) (s : S),
      (MaxIterations - IterationCount).toNat = n →
      (SolveCCD.Loop M mesh BoneNames Tip TargetLocation Precision MaxIterations
        IterationCount Distance s).2 ≤ n := by
  intro n
  induction n with
  | zero =>
    intro c D s hn
    unfold SolveCCD.Loop
    have : ¬ c < MaxIterations := by omega
    simp [this]
  | succ n ih =>
    intro c D s hn
    unfold SolveCCD.Loop
    split
    · have := ih (c + 1) (FVector.Dist M (mesh.GetBoneLocation
        (SolveCCD.Iteration M mesh BoneNames Tip TargetLocation s) Tip) TargetLocation)
        (SolveCCD.Iteration M mesh BoneNames Tip TargetLocation s) (by omega)
      simpa using this
    · simp

/-- The loop of `SolveCCD` does nothing when its condition fails at entry. -/
theorem SolveCCD_Loop_exit (M : FMath K) (mesh : UPoseableMeshComponent K S)
    (BoneNames : List FName) (Tip : FName) (TargetLocation : FVector K) (Precision : K)
    (MaxIterations IterationCount : Int) (Distance : K) (s : S)
    (h : ¬ (Precision < Distance ∧ IterationCount < MaxIterations)) :
    SolveCCD.Loop M mesh BoneNames Tip TargetLocation Precision MaxIterations
      IterationCount Distance s = (s, 0) := by
  unfold SolveCCD.Loop
  simp only [h, if_false]

/-- The reachable loop of `SolveFABRIK` runs its body at most
`MaxIterations - IterationCount` times. -/
theorem SolveFABRIK_Loop_count (M : FMath K) (mesh : UPoseableMeshComponent K S)
    (BoneNames : List FName) (BoneLengths : List K) (Tip Root : FName)
    (TargetLocation RootLocation : FVector K) (Precision : K) (MaxIterations : Int) :
    ∀ (n : Nat) (IterationCount : Int) (Distance : K) (s : S),
      (MaxIterations - IterationCount).toNat = n →
      (SolveFABRIK.Loop M mesh BoneNames BoneLengths Tip Root TargetLocation RootLocation
        Precision MaxIterations IterationCount Distance s).2 ≤ n := by
  intro n
  induction n with
  | zero =>
    intro c D s hn
    unfold SolveFABRIK.Loop
    have : ¬ c < MaxIterations := by omega
    simp [this]
  | succ n ih =>
    intro c D s hn
    unfold SolveFABRIK.Loop
    split
    · split
      · simp
      · rename_i s1 _
        have := ih (c + 1) (FVector.Dist M (mesh.GetBoneLocation s1 Tip) TargetLocation)
          s1 (by omega)
        simpa using this
    · simp

/-- The reachable loop of `SolveFABRIK` does nothing when its condition fails
at entry. -/
theorem SolveFABRIK_Loop_exit (M : FMath K) (mesh : UPoseableMeshComponent K S)
    (BoneNames : List FName) (BoneLengths : List K) (Tip Root : FName)
    (TargetLocation RootLocation : FVector K) (Precision : K)
    (MaxIterations IterationCount : Int) (Distance : K) (s : S)
    (h : ¬ (Precision < Distance ∧ IterationCount < MaxIterations)) :
    SolveFABRIK.Loop M mesh BoneNames BoneLengths Tip Root TargetLocation RootLocation
      Precision MaxIterations IterationCount Distance s = (some s, 0) := by
  unfold SolveFABRIK.Loop
  simp only [h, if_false]

/-- C8. Iteration cap: for every chain, target, precision and `MaxIterations`,
the loop of `SolveCCD` and the reachable loop of `SolveFABRIK`, entered with
`IterationCount = 0`, execute their body at most `max(MaxIterations, 0)` times
and end (both are total functions of the pose); with `MaxIterations <= 0` the
body never runs and the pose is the one at entry. A solve call returns as soon
as its chain walk has. -/
theorem iteration_cap (M : FMath K) (mesh : UPoseableMeshComponent K S)
    (BoneNames : List FName) (BoneLengths : List K) (Tip Root : FName)
    (TargetLocation RootLocation : FVector K) (Precision : K) (MaxIterations : Int)
    (Distance : K) (s : S) (fuel : Nat) :
    (SolveCCD.Loop M mesh BoneNames Tip TargetLocation Precision MaxIterations 0
        Distance s).2 ≤ (max MaxIterations 0).toNat ∧
    (SolveFABRIK.Loop M mesh BoneNames BoneLengths Tip Root TargetLocation RootLocation
        Precision MaxIterations 0 Distance s).2 ≤ (max MaxIterations 0).toNat ∧
    (MaxIterations ≤ 0 →
      SolveCCD.Loop M mesh BoneNames Tip TargetLocation Precision MaxIterations 0
        Distance s = (s, 0) ∧
      SolveFABRIK.Loop M mesh BoneNames BoneLengths Tip Root TargetLocation RootLocation
        Precision MaxIterations 0 Distance s = (some s, 0)) ∧
    (SolveCCD M mesh fuel Tip Root TargetLocation Precision MaxIterations s).isSome
      = (ChainWalk mesh Root fuel Tip [Tip]).isSome ∧
    (SolveFABRIK M mesh fuel Tip Root TargetLocation Precision MaxIterations s).isSome
      = (ChainWalk mesh Root fuel Tip [Tip]).isSome := by
  have hmax : (max MaxIterations 0).toNat = (MaxIterations - 0).toNat := by
    rcases le_total MaxIterations 0 with h | h
    · rw [max_eq_right h]; simp [Int.toNat_of_nonpos h]
    · rw [max_eq_left h]; simp
  refine ⟨?_, ?_, ?_, ?_, ?_⟩
  · rw [hmax]
    exact SolveCCD_Loop_count M mesh BoneNames Tip TargetLocation Precision MaxIterations
      _ 0 Distance s rfl
  · rw [hmax]
    exact SolveFABRIK_Loop_count M mesh BoneNames BoneLengths Tip Root TargetLocation
      RootLocation Precision MaxIterations _ 0 Distance s rfl
  · intro h
    have hc : ¬ (Precision < Distance ∧ (0 : Int) < MaxIterations) := by
      intro hh; omega
    exact ⟨SolveCCD_Loop_exit M mesh BoneNames Tip TargetLocation Precision MaxIterations 0
        Distance s hc,
      SolveFABRIK_Loop_exit M mesh BoneNames BoneLengths Tip Root TargetLocation
        RootLocation Precision MaxIterations 0 Distance s hc⟩
  · unfold SolveCCD
    cases ChainWalk mesh Root fuel Tip [Tip] with
    | none => rfl
    | some r => simp only []; split <;> rfl
  · unfold SolveFABRIK
    have hF := ChainWalkFABRIK_eq mesh s Root fuel Tip [Tip]
    simp only [List.map_cons, List.map_nil] at hF
    rw [hF]
    cases ChainWalk mesh Root fuel Tip [Tip] with
    | none => rfl
    | some r => simp only [Option.map_some']; split <;> rfl

end Loops

section NoMutation

variable {K : Type} [LinearOrderedField K] {S : Type}

/-- A fold whose step leaves the state `s` as it is returns `s`. -/
theorem foldl_fixed {ι : Type} (step : S → ι → S) (s : S) :
    ∀ (l : List ι), (∀ i ∈ l, step s i = s) → l.foldl step s = s := by
  intro l
  induction l with
  | nil => intro _; rfl
  | cons a l ih =>
    intro h
    rw [List.foldl_cons, h a (List.mem_cons_self a l)]
    exact ih (fun i hi => h i (List.mem_cons_of_mem a hi))

/-- The cross product of a vector with itself has length zero. -/
theorem FVector.CrossProduct_self (V : FVector K) :
    (FVector.CrossProduct V V).SizeSquared = 0 := by
  simp only [FVector.CrossProduct, FVector.SizeSquared]
  ring

/-- The orientation adjustment writes nothing while the bones are where the
walk recorded them. -/
theorem OrientationAdjustment_same (M : FMath K) (mesh : UPoseableMeshComponent K S)
    (BoneNames : List FName) (s : S) :
    SolveFABRIK.OrientationAdjustment M mesh BoneNames
      (BoneNames.map (mesh.GetBoneLocationByName s)) s = s := by
  unfold SolveFABRIK.OrientationAdjustment
  apply foldl_fixed
  intro i hi
  rw [List.mem_range] at hi
  unfold SolveFABRIK.OrientationStep
  rw [getD_map_location mesh s BoneNames (i + 1) (by omega),
    getD_map_location mesh s BoneNames i (by omega)]
  simp only [FVector.CrossProduct_self, lt_self_iff_false, if_false]

/-- C6. No-op below precision: for every valid chain (the walk ended on a bone
other than the sentinel), target and precision, if the distance from the tip
to the target read at entry is at most the precision, then
`SolveJacobianTranspose`, `SolveJacobianPinv` and `SolveCCD` return the pose
store they were given: no orientation and no position is written. The
Jacobian solvers read the tip through `GetBoneLocationByName`, `SolveCCD`
through `GetBoneLocation`. The pose store is arbitrary, so this holds as well
for a store that records every write. -/
theorem noop_below_precision (M : FMath K) (mesh : UPoseableMeshComponent K S)
    (Uninitialized : Nat → Nat → K) (inverse : MatrixXf K → MatrixXf K) (fuel : Nat)
    (Tip Root BoneName : FName) (BoneNames : List FName) (TargetLocation : FVector K)
    (Precision : K) (MaxIterations : Int) (s : S)
    (hwalk : ChainWalk mesh Root fuel Tip [Tip] = some (BoneName, BoneNames))
    (hvalid : BoneName ≠ "None") :
    (FVector.Dist M (mesh.GetBoneLocationByName s Tip) TargetLocation ≤ Precision →
      SolveJacobianTranspose M mesh Uninitialized fuel Tip Root TargetLocation Precision s
        = some (Outcome.Solved s) ∧
      SolveJacobianPinv M mesh Uninitialized inverse fuel Tip Root TargetLocation Precision s
        = some (Outcome.Solved s)) ∧
    (FVector.Dist M (mesh.GetBoneLocation s Tip) TargetLocation ≤ Precision →
      SolveCCD M mesh fuel Tip Root TargetLocation Precision MaxIterations s
        = some (Outcome.Solved s)) := by
  refine ⟨fun hd => ⟨?_, ?_⟩, fun hd => ?_⟩
  · simp [SolveJacobianTranspose, hwalk, hvalid, SolveJacobianTranspose.Solve, not_lt.mpr hd]
  · simp [SolveJacobianPinv, hwalk, hvalid, SolveJacobianPinv.Solve, not_lt.mpr hd]
  · have hc : ¬ (Precision < FVector.Dist M (mesh.GetBoneLocation s Tip) TargetLocation ∧
        (0 : Int) < MaxIterations) := fun hh => absurd hh.1 (not_lt.mpr hd)
    simp [SolveCCD, hwalk, hvalid, SolveCCD.Solve,
      SolveCCD_Loop_exit M mesh BoneNames Tip TargetLocation Precision MaxIterations 0 _ s hc]

/-- C5, amended. For every valid chain, target and precision such that the
target is within reach (the distance from root to target does not exceed the
sum of the segment lengths) and the distance from the tip to the target read
at entry is at most the precision, `SolveFABRIK` returns the pose store it was
given: no position and no orientation is written. -/
theorem fabrik_noop_when_converged_in_reach (M : FMath K)
    (mesh : UPoseableMeshComponent K S) (fuel : Nat)
    (Tip Root BoneName : FName) (BoneNames : List FName) (TargetLocation : FVector K)
    (Precision : K) (MaxIterations : Int) (s : S)
    (hwalk : ChainWalk mesh Root fuel Tip [Tip] = some (BoneName, BoneNames))
    (hvalid : BoneName ≠ "None")
    (hreach : FVector.Dist M (mesh.GetBoneLocationByName s Root) TargetLocation
      ≤ SolveFABRIK.BoneLengthSum (SolveFABRIK.BoneLengths M mesh BoneNames s))
    (hdist : FVector.Dist M (mesh.GetBoneLocation s Tip) TargetLocation ≤ Precision) :
    SolveFABRIK M mesh fuel Tip Root TargetLocation Precision MaxIterations s
      = some (Outcome.Solved s) := by
  have hc : ¬ (Precision < FVector.Dist M (mesh.GetBoneLocation s Tip) TargetLocation ∧
      (0 : Int) < MaxIterations) := fun hh => absurd hh.1 (not_lt.mpr hdist)
  have hrep : SolveFABRIK.Reposition M mesh BoneNames Tip Root TargetLocation Precision
      MaxIterations s = some s := by
    unfold SolveFABRIK.Reposition
    simp only [not_lt.mpr hreach, if_false]
    rw [SolveFABRIK_Loop_exit M mesh BoneNames _ Tip Root TargetLocation _ Precision
      MaxIterations 0 _ s hc]
  unfold SolveFABRIK
  rw [ChainWalkFABRIK_of_ChainWalk mesh s fuel Tip Root BoneName BoneNames hwalk]
  simp only [hvalid, if_false]
  unfold SolveFABRIK.Solve
  rw [hrep]
  simp only [OrientationAdjustment_same]

end NoMutation

section VectorAlgebra

variable {K : Type} [LinearOrderedField K]

@[simp] theorem FVector.sub_mk (a b c d e f : K) :
    (FVector.mk a b c - FVector.mk d e f) = FVector.mk (a - d) (b - e) (c - f) := rfl

@[simp] theorem FVector.add_mk (a b c d e f : K) :
    (FVector.mk a b c + FVector.mk d e f) = FVector.mk (a + d) (b + e) (c + f) := rfl

@[simp] theorem FVector.smul_mk (t a b c : K) :
    (t * FVector.mk a b c : FVector K) = FVector.mk (t * a) (t * b) (t * c) := rfl

@[simp] theorem FVector.sub_X (A B : FVector K) : (A - B).X = A.X - B.X := rfl

@[simp] theorem FVector.sub_Y (A B : FVector K) : (A - B).Y = A.Y - B.Y := rfl

@[simp] theorem FVector.sub_Z (A B : FVector K) : (A - B).Z = A.Z - B.Z := rfl

@[simp] theorem FVector.add_X (A B : FVector K) : (A + B).X = A.X + B.X := rfl

@[simp] theorem FVector.add_Y (A B : FVector K) : (A + B).Y = A.Y + B.Y := rfl

@[simp] theorem FVector.add_Z (A B : FVector K) : (A + B).Z = A.Z + B.Z := rfl

@[simp] theorem FVector.smul_X (t : K) (A : FVector K) : (t * A : FVector K).X = t * A.X := rfl

@[simp] theorem FVector.smul_Y (t : K) (A : FVector K) : (t * A : FVector K).Y = t * A.Y := rfl

@[simp] theorem FVector.smul_Z (t : K) (A : FVector K) : (t * A : FVector K).Z = t * A.Z := rfl

end VectorAlgebra

section RealArithmetic

/-- The reals with their square root, sine and cosine are exact arithmetic. -/
theorem RealMath_Exact (c : ℝ) :
    FMath.Exact (FMath.mk Real.sqrt Real.arccos Real.sin Real.cos c) where
  Sqrt_nonneg := Real.sqrt_nonneg
  Sqrt_mul_self := fun x hx => Real.mul_self_sqrt hx
  Sin_sq_add_Cos_sq := fun x => by
    have := Real.sin_sq_add_cos_sq x
    simpa [sq] using this

/-- The square root of a square. -/
theorem Real_sqrt_eq (x y : ℝ) (hy : 0 ≤ y) (h : y * y = x) : Real.sqrt x = y := by
  rw [← h]
  exact Real.sqrt_mul_self hy

end RealArithmetic

section FlatStore

variable {K : Type} [LinearOrderedField K]

/-- The per-bone table satisfies the laws of a store of rigid segments. -/
theorem FlatMesh_SegmentStore (Parent : FName → FName) :
    SegmentStore (FlatMesh Parent : UPoseableMeshComponent K (FlatPose K)) where
  get_set_same := fun s b v => by simp [FlatMesh]
  set_location_above := fun s b v n h => by
    have h1 : Parent^[n] b ≠ b := h
    simp [FlatMesh, h1]
  set_rotation_segment := fun s b q c => rfl

end FlatStore

section FabrikConvergence

variable {K : Type} [LinearOrderedField K] {S : Type}

/-- The orientation adjustment moves no bone of a store whose orientation
writes move none (a per-bone table). -/
theorem OrientationAdjustment_location (M : FMath K) (mesh : UPoseableMeshComponent K S)
    (hrot : ∀ s b c q, mesh.GetBoneLocationByName (mesh.SetBoneRotationByName s b q) c
      = mesh.GetBoneLocationByName s c) (BoneNames : List FName)
    (OriginalLocation : List (FVector K)) (s : S) (b : FName) :
    mesh.GetBoneLocationByName
        (SolveFABRIK.OrientationAdjustment M mesh BoneNames OriginalLocation s) b
      = mesh.GetBoneLocationByName s b := by
  unfold SolveFABRIK.OrientationAdjustment
  generalize List.range (BoneNames.length - 1) = l
  induction l generalizing s with
  | nil => rfl
  | cons i l ih =>
    rw [List.foldl_cons, ih]
    unfold SolveFABRIK.OrientationStep
    simp only []
    split
    · exact hrot _ _ _ _
    · rfl

/-- The walk of the forearm chain hand_l -> lowerarm_l. -/
theorem ArmMesh_forearm_walk :
    ChainWalk (ArmMesh : UPoseableMeshComponent ℝ (FlatPose ℝ)) "lowerarm_l" 2
      "hand_l" ["hand_l"] = some ("lowerarm_l", ["lowerarm_l", "hand_l"]) := by
  simp [ChainWalk, ArmMesh, FlatMesh, ArmParent]

/-- C5, as the claim states it, fails. Forearm bent: lowerarm_l at the origin,
hand_l at (0, 3, 0), target (4, 0, 0), precision 5. The tip is within the
precision of the target (distance 5), the target is beyond the reach 3 of the
chain (distance 4), and `SolveFABRIK` moves hand_l to (3, 0, 0). -/
theorem fabrik_converged_beyond_reach_moves :
    FVector.Dist (FMath.mk Real.sqrt Real.arccos Real.sin Real.cos (1 / 100000000))
        ((BentPose : FlatPose ℝ).Location "hand_l") ⟨4, 0, 0⟩ ≤ 5 ∧
    (BentPose : FlatPose ℝ).Location "hand_l" = ⟨0, 3, 0⟩ ∧
    ∃ t : FlatPose ℝ,
      SolveFABRIK (FMath.mk Real.sqrt Real.arccos Real.sin Real.cos (1 / 100000000))
        ArmMesh 2 "hand_l" "lowerarm_l" ⟨4, 0, 0⟩ 5 10 BentPose = some (Outcome.Solved t) ∧
      t.Location "hand_l" = ⟨3, 0, 0⟩ := by
  have h9 : Real.sqrt 9 = 3 := Real_sqrt_eq 9 3 (by norm_num) (by norm_num)
  have h16 : Real.sqrt 16 = 4 := Real_sqrt_eq 16 4 (by norm_num) (by norm_num)
  have h25 : Real.sqrt 25 = 5 := Real_sqrt_eq 25 5 (by norm_num) (by norm_num)
  have hrep : SolveFABRIK.Reposition
      (FMath.mk Real.sqrt Real.arccos Real.sin Real.cos (1 / 100000000))
      ArmMesh ["lowerarm_l", "hand_l"] "hand_l" "lowerarm_l" ⟨4, 0, 0⟩ 5 10 BentPose
      = some (ArmMesh.SetBoneLocationByName BentPose "hand_l" ⟨3, 0, 0⟩) := by
    simp [SolveFABRIK.Reposition, SolveFABRIK.BoneLengths, SolveFABRIK.BoneLengthSum,
      SolveFABRIK.Stretch, SolveFABRIK.StretchStep, ArmMesh, FlatMesh, BentPose,
      FVector.Dist, FVector.SizeSquared, List.range_succ]
    norm_num [h9, h16]
  refine ⟨?_, by simp [BentPose], ?_⟩
  · simp [BentPose, FVector.Dist, FVector.SizeSquared]
    norm_num [h25]
  · refine ⟨SolveFABRIK.OrientationAdjustment
        (FMath.mk Real.sqrt Real.arccos Real.sin Real.cos (1 / 100000000))
        ArmMesh ["lowerarm_l", "hand_l"]
        (["lowerarm_l", "hand_l"].map
          ((ArmMesh : UPoseableMeshComponent ℝ (FlatPose ℝ)).GetBoneLocationByName BentPose))
        (ArmMesh.SetBoneLocationByName BentPose "hand_l" ⟨3, 0, 0⟩), ?_, ?_⟩
    · unfold SolveFABRIK
      rw [ChainWalkFABRIK_of_ChainWalk ArmMesh BentPose 2 "hand_l" "lowerarm_l" "lowerarm_l"
        ["lowerarm_l", "hand_l"] ArmMesh_forearm_walk]
      simp only [show ("lowerarm_l" : FName) ≠ "None" by decide, if_false]
      unfold SolveFABRIK.Solve
      rw [hrep]
    · have := OrientationAdjustment_location
        (FMath.mk Real.sqrt Real.arccos Real.sin Real.cos (1 / 100000000))
        (ArmMesh : UPoseableMeshComponent ℝ (FlatPose ℝ)) (fun _ _ _ _ => rfl)
        ["lowerarm_l", "hand_l"]
        (["lowerarm_l", "hand_l"].map
          ((ArmMesh : UPoseableMeshComponent ℝ (FlatPose ℝ)).GetBoneLocationByName BentPose))
        (ArmMesh.SetBoneLocationByName BentPose "hand_l" ⟨3, 0, 0⟩) "hand_l"
      exact this.trans (by simp [ArmMesh, FlatMesh])

/-- Witness of C5 (amended): the bent forearm with the target on the hand. -/
theorem fabrik_noop_when_converged_in_reach_witness :
    SolveFABRIK (FMath.mk Real.sqrt Real.arccos Real.sin Real.cos (1 / 100000000))
      ArmMesh 2 "hand_l" "lowerarm_l" ⟨0, 3, 0⟩ 1 10 (BentPose : FlatPose ℝ)
      = some (Outcome.Solved BentPose) := by
  have h9 : Real.sqrt 9 = 3 := Real_sqrt_eq 9 3 (by norm_num) (by norm_num)
  apply fabrik_noop_when_converged_in_reach _ _ 2 "hand_l" "lowerarm_l" "lowerarm_l"
    ["lowerarm_l", "hand_l"] _ _ _ _ ArmMesh_forearm_walk (by decide)
  · simp [SolveFABRIK.BoneLengths, SolveFABRIK.BoneLengthSum, ArmMesh, FlatMesh, BentPose,
      FVector.Dist, FVector.SizeSquared, List.range_succ]
  · simp [ArmMesh, FlatMesh, BentPose, FVector.Dist, FVector.SizeSquared]

/-- Witness of C6: the bent forearm with the target on the hand. -/
theorem noop_below_precision_witness :
    SolveJacobianTranspose (FMath.mk Real.sqrt Real.arccos Real.sin Real.cos (1 / 100000000))
      ArmMesh (fun _ _ => 0) 2 "hand_l" "lowerarm_l" ⟨0, 3, 0⟩ 1 (BentPose : FlatPose ℝ)
      = some (Outcome.Solved BentPose) ∧
    SolveJacobianPinv (FMath.mk Real.sqrt Real.arccos Real.sin Real.cos (1 / 100000000))
      ArmMesh (fun _ _ => 0) (fun A => A) 2 "hand_l" "lowerarm_l" ⟨0, 3, 0⟩ 1
      (BentPose : FlatPose ℝ) = some (Outcome.Solved BentPose) ∧
    SolveCCD (FMath.mk Real.sqrt Real.arccos Real.sin Real.cos (1 / 100000000))
      ArmMesh 2 "hand_l" "lowerarm_l" ⟨0, 3, 0⟩ 1 10 (BentPose : FlatPose ℝ)
      = some (Outcome.Solved BentPose) := by
  have h := noop_below_precision
    (FMath.mk Real.sqrt Real.arccos Real.sin Real.cos (1 / 100000000))
    (ArmMesh : UPoseableMeshComponent ℝ (FlatPose ℝ)) (fun _ _ => 0) (fun A => A) 2
    "hand_l" "lowerarm_l" "lowerarm_l" ["lowerarm_l", "hand_l"] ⟨0, 3, 0⟩ 1 10 BentPose
    ArmMesh_forearm_walk (by decide)
  have hd : FVector.Dist (FMath.mk Real.sqrt Real.arccos Real.sin Real.cos (1 / 100000000))
      ((BentPose : FlatPose ℝ).Location "hand_l") ⟨0, 3, 0⟩ ≤ 1 := by
    simp [BentPose, FVector.Dist, FVector.SizeSquared]
  exact ⟨(h.1 hd).1, (h.1 hd).2, h.2 hd⟩

end FabrikConvergence

section Distances

variable {K : Type} [LinearOrderedField K] {S : Type}

/-- Under exact arithmetic the square root of `y * y` is `y` for `y >= 0`. -/
theorem FMath.Exact.Sqrt_eq {M : FMath K} (hM : M.Exact) (x y : K) (hy : 0 ≤ y)
    (h : y * y = x) : M.Sqrt x = y := by
  have hx : 0 ≤ x := by rw [← h]; exact mul_self_nonneg y
  exact (mul_self_inj_of_nonneg (hM.Sqrt_nonneg x) hy).1
    ((hM.Sqrt_mul_self x hx).trans h.symm)

theorem FVector.SizeSquared_nonneg (V : FVector K) : 0 ≤ V.SizeSquared := by
  unfold FVector.SizeSquared
  nlinarith [mul_self_nonneg V.X, mul_self_nonneg V.Y, mul_self_nonneg V.Z]

theorem FVector.Dist_nonneg {M : FMath K} (hM : M.Exact) (A B : FVector K) :
    0 ≤ FVector.Dist M A B :=
  hM.Sqrt_nonneg _

/-- The distance of two points whose difference is `c` times the difference of
two others, `c >= 0`. -/
theorem FVector.Dist_of_sub_eq {M : FMath K} (hM : M.Exact) (A B C D : FVector K) (c : K)
    (hc : 0 ≤ c) (h : D - C = c * (B - A)) :
    FVector.Dist M C D = c * FVector.Dist M A B := by
  unfold FVector.Dist
  rw [h]
  apply hM.Sqrt_eq
  · exact mul_nonneg hc (hM.Sqrt_nonneg _)
  · have := hM.Sqrt_mul_self _ (FVector.SizeSquared_nonneg (B - A))
    calc c * M.Sqrt (B - A).SizeSquared * (c * M.Sqrt (B - A).SizeSquared)
        = c * c * (M.Sqrt (B - A).SizeSquared * M.Sqrt (B - A).SizeSquared) := by ring
      _ = c * c * (B - A).SizeSquared := by rw [this]
      _ = (c * (B - A)).SizeSquared := by
        simp only [FVector.SizeSquared, FVector.smul_X, FVector.smul_Y, FVector.smul_Z]
        ring

/-- Two bones at different indices of a chain of distinct bones differ. -/
theorem getD_ne_of_nodup (BoneNames : List FName) (h : BoneNames.Nodup) (i j : Nat)
    (hi : i < BoneNames.length) (hj : j < BoneNames.length) (hij : i ≠ j) :
    BoneNames.getD i "None" ≠ BoneNames.getD j "None" := by
  rw [List.getD_eq_getElem _ _ hi, List.getD_eq_getElem _ _ hj]
  intro e
  exact hij ((h.getElem_inj_iff).1 e)

/-- A fold over the indices `0 .. n - 1` whose steps succeed and carry an
invariant from one index to the next succeeds and establishes it at `n`. -/
theorem foldlM_range_exists (step : S → Nat → Option S) (Inv : Nat → S → Prop) :
    ∀ (n : Nat) (s0 : S), Inv 0 s0 →
      (∀ j st, j < n → Inv j st → ∃ st1, step st j = some st1 ∧ Inv (j + 1) st1) →
      ∃ st1, (List.range n).foldlM step s0 = some st1 ∧ Inv n st1 := by
  intro n
  induction n with
  | zero => intro s0 h0 _; exact ⟨s0, rfl, h0⟩
  | succ n ih =>
    intro s0 h0 hstep
    obtain ⟨st, hst, hinv⟩ := ih s0 h0 (fun j st hj => hstep j st (by omega))
    obtain ⟨st1, hst1, hinv1⟩ := hstep n st (by omega) hinv
    refine ⟨st1, ?_, hinv1⟩
    rw [List.range_succ, List.foldlM_append, hst]
    simp [hst1]

/-- A fold over the indices `0 .. n - 1` whose steps carry an invariant from one
index to the next establishes it at `n` when it succeeds. -/
theorem foldlM_range_inv (step : S → Nat → Option S) (Inv : Nat → S → Prop) :
    ∀ (n : Nat) (s0 : S), Inv 0 s0 →
      (∀ j st st1, j < n → Inv j st → step st j = some st1 → Inv (j + 1) st1) →
      ∀ st1, (List.range n).foldlM step s0 = some st1 → Inv n st1 := by
  intro n
  induction n with
  | zero =>
    intro s0 h0 _ st1 h
    simp at h
    rw [← h]; exact h0
  | succ n ih =>
    intro s0 h0 hstep st1 h
    rw [List.range_succ, List.foldlM_append] at h
    cases hst : (List.range n).foldlM step s0 with
    | none => rw [hst] at h; simp at h
    | some st =>
      rw [hst] at h
      simp at h
      exact hstep n st st1 (by omega)
        (ih s0 h0 (fun j st st1 hj => hstep j st st1 (by omega)) st hst) h

/-- The lengths recorded by the loop "bone length". -/
theorem BoneLengths_length (M : FMath K) (mesh : UPoseableMeshComponent K S)
    (BoneNames : List FName) (s : S) :
    (SolveFABRIK.BoneLengths M mesh BoneNames s).length = BoneNames.length - 1 := by
  simp [SolveFABRIK.BoneLengths]

theorem BoneLengths_getD (M : FMath K) (mesh : UPoseableMeshComponent K S)
    (BoneNames : List FName) (s : S) (k : Nat) (hk : k + 1 < BoneNames.length) :
    (SolveFABRIK.BoneLengths M mesh BoneNames s).getD k 0
      = FVector.Dist M (mesh.GetBoneLocationByName s (BoneNames.getD k "None"))
          (mesh.GetBoneLocationByName s (BoneNames.getD (k + 1) "None")) := by
  have hk1 : k < (SolveFABRIK.BoneLengths M mesh BoneNames s).length := by
    rw [BoneLengths_length]; omega
  rw [List.getD_eq_getElem _ _ hk1]
  simp [SolveFABRIK.BoneLengths]

theorem BoneLengths_nonneg {M : FMath K} (hM : M.Exact) (mesh : UPoseableMeshComponent K S)
    (BoneNames : List FName) (s : S) :
    ∀ x ∈ SolveFABRIK.BoneLengths M mesh BoneNames s, 0 ≤ x := by
  intro x hx
  simp only [SolveFABRIK.BoneLengths, List.mem_map] at hx
  obtain ⟨i, _, rfl⟩ := hx
  exact hM.Sqrt_nonneg _

theorem BoneLengthSum_eq_sum (BoneLengths : List K) :
    SolveFABRIK.BoneLengthSum BoneLengths = BoneLengths.sum := by
  unfold SolveFABRIK.BoneLengthSum
  exact List.sum_eq_foldl.symm

theorem sum_take_nonneg (L : List K) (h : ∀ x ∈ L, 0 ≤ x) (k : Nat) : 0 ≤ (L.take k).sum :=
  List.sum_nonneg (fun x hx => h x (List.mem_of_mem_take hx))

theorem sum_take_le_sum (L : List K) (h : ∀ x ∈ L, 0 ≤ x) (k : Nat) :
    (L.take k).sum ≤ L.sum := by
  have h1 := List.sum_take_add_sum_drop L k
  have h2 : 0 ≤ (L.drop k).sum := List.sum_nonneg (fun x hx => h x (List.mem_of_mem_drop hx))
  linarith

theorem sum_take_succ_getD (L : List K) (k : Nat) (hk : k < L.length) :
    (L.take (k + 1)).sum = (L.take k).sum + L.getD k 0 := by
  rw [List.sum_take_succ L k hk, List.getD_eq_getElem _ _ hk]

/-- A position write to a bone of the chain moves no bone before it in the
chain. -/
theorem set_location_chain (mesh : UPoseableMeshComponent K S) (hstore : SegmentStore mesh)
    (BoneNames : List FName) (hdistinct : BoneNames.Nodup)
    (hparent : ∀ i, i + 1 < BoneNames.length →
      mesh.GetParentBone (BoneNames.getD (i + 1) "None") = BoneNames.getD i "None")
    (s : S) (v : FVector K) (k j : Nat) (hkj : k < j) (hj : j < BoneNames.length) :
    mesh.GetBoneLocationByName (mesh.SetBoneLocationByName s (BoneNames.getD j "None") v)
        (BoneNames.getD k "None")
      = mesh.GetBoneLocationByName s (BoneNames.getD k "None") := by
  have hit : mesh.GetParentBone^[j - k] (BoneNames.getD j "None")
      = BoneNames.getD k "None" := by
    have := chain_iterate_getD mesh.GetParentBone BoneNames hparent (j - k) k (by omega)
    rwa [show k + (j - k) = j by omega] at this
  have hne : mesh.GetParentBone^[j - k] (BoneNames.getD j "None")
      ≠ BoneNames.getD j "None" := by
    rw [hit]
    exact getD_ne_of_nodup BoneNames hdistinct k j (by omega) hj (by omega)
  have := hstore.set_location_above s (BoneNames.getD j "None") v (j - k) hne
  rwa [hit] at this

/-- The orientation adjustment keeps the length of every segment. -/
theorem OrientationAdjustment_segment (M : FMath K) (mesh : UPoseableMeshComponent K S)
    (hstore : SegmentStore mesh) (BoneNames : List FName)
    (OriginalLocation : List (FVector K)) (s : S) (c : FName) :
    (mesh.GetBoneLocationByName
          (SolveFABRIK.OrientationAdjustment M mesh BoneNames OriginalLocation s) c
        - mesh.GetBoneLocationByName
          (SolveFABRIK.OrientationAdjustment M mesh BoneNames OriginalLocation s)
          (mesh.GetParentBone c)).SizeSquared
      = (mesh.GetBoneLocationByName s c
          - mesh.GetBoneLocationByName s (mesh.GetParentBone c)).SizeSquared := by
  unfold SolveFABRIK.OrientationAdjustment
  generalize List.range (BoneNames.length - 1) = l
  induction l generalizing s with
  | nil => rfl
  | cons i l ih =>
    rw [List.foldl_cons, ih]
    unfold SolveFABRIK.OrientationStep
    simp only []
    split
    · exact hstore.set_rotation_segment _ _ _ _
    · rfl

end Distances

section Stretch

variable {K : Type} [LinearOrderedField K] {S : Type}

/-- The unreachable branch places the bone of index `k` on the segment from
the root position `A` to the target, at the fraction `(L_0 + ... + L_(k-1)) / R`
of the way, `R` the distance from `A` to the target. -/
theorem Stretch_spec {M : FMath K} (hM : M.Exact) (mesh : UPoseableMeshComponent K S)
    (hstore : SegmentStore mesh) (BoneNames : List FName) (hdistinct : BoneNames.Nodup)
    (hparent : ∀ i, i + 1 < BoneNames.length →
      mesh.GetParentBone (BoneNames.getD (i + 1) "None") = BoneNames.getD i "None")
    (BoneLengths : List K) (hlen : BoneLengths.length = BoneNames.length - 1)
    (hnn : ∀ x ∈ BoneLengths, 0 ≤ x) (TargetLocation A : FVector K) (s : S)
    (hA : mesh.GetBoneLocationByName s (BoneNames.getD 0 "None") = A)
    (hfar : BoneLengths.sum < FVector.Dist M A TargetLocation) :
    ∃ t, SolveFABRIK.Stretch M mesh BoneNames BoneLengths TargetLocation s = some t ∧
      ∀ k, k < BoneNames.length →
        mesh.GetBoneLocationByName t (BoneNames.getD k "None")
          = (1 - (BoneLengths.take k).sum / FVector.Dist M A TargetLocation) * A
            + ((BoneLengths.take k).sum / FVector.Dist M A TargetLocation) * TargetLocation := by
  set R := FVector.Dist M A TargetLocation with hR
  have hsum0 : 0 ≤ BoneLengths.sum := List.sum_nonneg hnn
  have hRpos : 0 < R := lt_of_le_of_lt hsum0 hfar
  have hRne : R ≠ 0 := ne_of_gt hRpos
  obtain ⟨t, ht, hinv⟩ := foldlM_range_exists
    (SolveFABRIK.StretchStep M mesh BoneNames BoneLengths TargetLocation)
    (fun j st => ∀ k, k ≤ j → k < BoneNames.length →
      mesh.GetBoneLocationByName st (BoneNames.getD k "None")
        = (1 - (BoneLengths.take k).sum / R) * A
          + ((BoneLengths.take k).sum / R) * TargetLocation)
    (BoneNames.length - 1) s
    (by
      intro k hk _
      have hk0 : k = 0 := by omega
      subst hk0
      rw [hA]
      ext <;> simp)
    (by
      intro j st hj hinv
      have hSj := sum_take_le_sum BoneLengths hnn j
      have hSj0 := sum_take_nonneg BoneLengths hnn j
      have hloc := hinv j (le_refl j) (by omega)
      have hc : 0 ≤ 1 - (BoneLengths.take j).sum / R := by
        rw [sub_nonneg, div_le_one hRpos]
        linarith
      have hD : FVector.Dist M
          (mesh.GetBoneLocationByName st (BoneNames.getD j "None")) TargetLocation
          = R - (BoneLengths.take j).sum := by
        rw [FVector.Dist_of_sub_eq hM A TargetLocation _ TargetLocation
          (1 - (BoneLengths.take j).sum / R) hc (by rw [hloc]; ext <;> simp <;> ring)]
        rw [← hR]
        field_simp
      have hDne : R - (BoneLengths.take j).sum ≠ 0 := by
        have : 0 < R - (BoneLengths.take j).sum := by linarith
        exact ne_of_gt this
      refine ⟨mesh.SetBoneLocationByName st (BoneNames.getD (j + 1) "None")
        ((1 - BoneLengths.getD j 0 / (R - (BoneLengths.take j).sum))
            * mesh.GetBoneLocationByName st (BoneNames.getD j "None")
          + (BoneLengths.getD j 0 / (R - (BoneLengths.take j).sum)) * TargetLocation), ?_, ?_⟩
      · unfold SolveFABRIK.StretchStep
        simp only [hD, hDne, if_false]
      · intro k hk hkn
        rcases Nat.lt_or_ge k (j + 1) with hlt | hge
        · rw [set_location_chain mesh hstore BoneNames hdistinct hparent _ _ k (j + 1)
            (by omega) (by omega)]
          exact hinv k (by omega) hkn
        · have hk1 : k = j + 1 := by omega
          subst hk1
          rw [hstore.get_set_same, hloc, sum_take_succ_getD BoneLengths j (by omega)]
          ext <;> simp <;> field_simp <;> ring)
  exact ⟨t, ht, fun k hk => hinv k (by omega) hk⟩

/-- The walk of the arm chain hand_l -> lowerarm_l -> upperarm_l. -/
theorem ArmMesh_arm_walk :
    ChainWalk (ArmMesh : UPoseableMeshComponent ℝ (FlatPose ℝ)) "upperarm_l" 3
      "hand_l" ["hand_l"] = some ("upperarm_l", ["upperarm_l", "lowerarm_l", "hand_l"]) := by
  simp [ChainWalk, ArmMesh, FlatMesh, ArmParent]

end Stretch

section Reachable

variable {K : Type} [LinearOrderedField K] {S : Type}

/-- After a backward pass that met no zero `JointDistance`, every segment of a
chain of distinct bones has its recorded length. -/
theorem BackwardReaching_lengths {M : FMath K} (hM : M.Exact)
    (mesh : UPoseableMeshComponent K S) (hstore : SegmentStore mesh)
    (BoneNames : List FName) (hdistinct : BoneNames.Nodup)
    (hparent : ∀ i, i + 1 < BoneNames.length →
      mesh.GetParentBone (BoneNames.getD (i + 1) "None") = BoneNames.getD i "None")
    (BoneLengths : List K)
    (hnn : ∀ k, 0 ≤ BoneLengths.getD k 0) (Root : FName) (RootLocation : FVector K)
    (u t : S)
    (h : SolveFABRIK.BackwardReaching M mesh BoneNames BoneLengths Root RootLocation u
      = some t) :
    ∀ k, k + 1 < BoneNames.length →
      FVector.Dist M (mesh.GetBoneLocationByName t (BoneNames.getD k "None"))
        (mesh.GetBoneLocationByName t (BoneNames.getD (k + 1) "None"))
        = BoneLengths.getD k 0 := by
  have hinv := foldlM_range_inv (SolveFABRIK.BackwardStep M mesh BoneNames BoneLengths)
    (fun j st => ∀ k, k < j → k + 1 < BoneNames.length →
      FVector.Dist M (mesh.GetBoneLocationByName st (BoneNames.getD k "None"))
        (mesh.GetBoneLocationByName st (BoneNames.getD (k + 1) "None"))
        = BoneLengths.getD k 0)
    (BoneNames.length - 1) (mesh.SetBoneLocationByName u Root RootLocation)
    (by intro k hk; omega)
    (by
      intro j st st1 hj hinv hstep
      unfold SolveFABRIK.BackwardStep at hstep
      simp only [] at hstep
      split at hstep
      · cases hstep
      · rename_i hd
        simp only [Option.some.injEq] at hstep
        subst hstep
        intro k hk hkn
        rw [set_location_chain mesh hstore BoneNames hdistinct hparent _ _ k (j + 1)
          (by omega) (by omega)]
        rcases Nat.lt_or_ge k j with hlt | hge
        · rw [set_location_chain mesh hstore BoneNames hdistinct hparent _ _ (k + 1) (j + 1)
            (by omega) (by omega)]
          exact hinv k hlt hkn
        · have hkj : k = j := by omega
          subst hkj
          rw [hstore.get_set_same]
          have hdpos : 0 < FVector.Dist M
              (mesh.GetBoneLocationByName st (BoneNames.getD k "None"))
              (mesh.GetBoneLocationByName st (BoneNames.getD (k + 1) "None")) :=
            lt_of_le_of_ne (FVector.Dist_nonneg hM _ _) (Ne.symm hd)
          rw [FVector.Dist_of_sub_eq hM
            (mesh.GetBoneLocationByName st (BoneNames.getD k "None"))
            (mesh.GetBoneLocationByName st (BoneNames.getD (k + 1) "None")) _ _
            (BoneLengths.getD k 0 / FVector.Dist M
              (mesh.GetBoneLocationByName st (BoneNames.getD k "None"))
              (mesh.GetBoneLocationByName st (BoneNames.getD (k + 1) "None")))
            (div_nonneg (hnn k) (le_of_lt hdpos)) (by ext <;> simp <;> ring)]
          exact div_mul_cancel₀ _ (ne_of_gt hdpos))
  intro k hk
  exact hinv t h k (by omega) hk

/-- The pose left by the reachable loop is the pose at entry or the result of a
backward pass. -/
theorem SolveFABRIK_Loop_result (M : FMath K) (mesh : UPoseableMeshComponent K S)
    (BoneNames : List FName) (BoneLengths : List K) (Tip Root : FName)
    (TargetLocation RootLocation : FVector K) (Precision : K) (MaxIterations : Int) :
    ∀ (n : Nat) (IterationCount : Int) (Distance : K) (s t : S),
      (MaxIterations - IterationCount).toNat = n →
      (SolveFABRIK.Loop M mesh BoneNames BoneLengths Tip Root TargetLocation RootLocation
        Precision MaxIterations IterationCount Distance s).1 = some t →
      t = s ∨ ∃ u, SolveFABRIK.BackwardReaching M mesh BoneNames BoneLengths Root
        RootLocation u = some t := by
  intro n
  induction n with
  | zero =>
    intro c D s t hn h
    have hc : ¬ (Precision < D ∧ c < MaxIterations) := fun hh => by omega
    rw [SolveFABRIK_Loop_exit M mesh BoneNames BoneLengths Tip Root TargetLocation
      RootLocation Precision MaxIterations c D s hc] at h
    left
    exact (Option.some.inj h).symm
  | succ n ih =>
    intro c D s t hn h
    unfold SolveFABRIK.Loop at h
    split at h
    · split at h
      · cases h
      · rename_i s1 hit
        simp only [] at h
        rcases ih (c + 1) _ s1 t (by omega) h with e | ⟨u, hu⟩
        · right
          unfold SolveFABRIK.Iteration at hit
          cases hf : SolveFABRIK.ForwardReaching M mesh BoneNames BoneLengths Tip
              TargetLocation s with
          | none => rw [hf] at hit; cases hit
          | some u =>
            rw [hf] at hit
            exact ⟨u, by rw [e]; exact hit⟩
        · right
          exact ⟨u, hu⟩
    · left
      exact (Option.some.inj h).symm

/-- C3. FABRIK length preservation: for a valid chain of distinct bones over a
pose store of rigid segments (a write to a bone may carry the bones below it),
a target within reach (the reachable branch), any precision and any
`MaxIterations`, whenever the call completes without a pass meeting a zero
`JointDistance` (it returns a solved pose), the distance between every pair of
consecutive joints after the call, the orientation adjustment included,
equals the distance recorded as `BoneLengths[k]` before it. -/
theorem fabrik_length_preservation {M : FMath K} (hM : M.Exact)
    (mesh : UPoseableMeshComponent K S) (hstore : SegmentStore mesh) (fuel : Nat)
    (Tip Root BoneName : FName) (BoneNames : List FName) (TargetLocation : FVector K)
    (Precision : K) (MaxIterations : Int) (s t : S)
    (hwalk : ChainWalk mesh Root fuel Tip [Tip] = some (BoneName, BoneNames))
    (hvalid : BoneName ≠ "None") (hdistinct : BoneNames.Nodup)
    (hreach : FVector.Dist M (mesh.GetBoneLocationByName s Root) TargetLocation
      ≤ SolveFABRIK.BoneLengthSum (SolveFABRIK.BoneLengths M mesh BoneNames s))
    (hsolved : SolveFABRIK M mesh fuel Tip Root TargetLocation Precision MaxIterations s
      = some (Outcome.Solved t)) :
    ∀ k, k + 1 < BoneNames.length →
      FVector.Dist M (mesh.GetBoneLocationByName t (BoneNames.getD k "None"))
          (mesh.GetBoneLocationByName t (BoneNames.getD (k + 1) "None"))
        = (SolveFABRIK.BoneLengths M mesh BoneNames s).getD k 0 ∧
      (SolveFABRIK.BoneLengths M mesh BoneNames s).getD k 0
        = FVector.Dist M (mesh.GetBoneLocationByName s (BoneNames.getD k "None"))
          (mesh.GetBoneLocationByName s (BoneNames.getD (k + 1) "None")) := by
  intro k hk
  refine ⟨?_, BoneLengths_getD M mesh BoneNames s k hk⟩
  unfold SolveFABRIK at hsolved
  rw [ChainWalkFABRIK_of_ChainWalk mesh s fuel Tip Root BoneName BoneNames hwalk] at hsolved
  simp only [hvalid, if_false, Option.some.injEq] at hsolved
  unfold SolveFABRIK.Solve at hsolved
  cases hrep : SolveFABRIK.Reposition M mesh BoneNames Tip Root TargetLocation Precision
      MaxIterations s with
  | none => rw [hrep] at hsolved; cases hsolved
  | some t1 =>
    rw [hrep] at hsolved
    simp only [Outcome.Solved.injEq] at hsolved
    subst hsolved
    have hparent := ChainWalk_parent mesh Root Tip BoneName fuel BoneNames hwalk
    have hseg : FVector.Dist M
        (mesh.GetBoneLocationByName
          (SolveFABRIK.OrientationAdjustment M mesh BoneNames
            (BoneNames.map (mesh.GetBoneLocationByName s)) t1) (BoneNames.getD k "None"))
        (mesh.GetBoneLocationByName
          (SolveFABRIK.OrientationAdjustment M mesh BoneNames
            (BoneNames.map (mesh.GetBoneLocationByName s)) t1)
          (BoneNames.getD (k + 1) "None"))
        = FVector.Dist M (mesh.GetBoneLocationByName t1 (BoneNames.getD k "None"))
          (mesh.GetBoneLocationByName t1 (BoneNames.getD (k + 1) "None")) := by
      unfold FVector.Dist
      rw [← hparent k hk, OrientationAdjustment_segment M mesh hstore]
    rw [hseg]
    unfold SolveFABRIK.Reposition at hrep
    simp only [not_lt.mpr hreach, if_false] at hrep
    rcases SolveFABRIK_Loop_result M mesh BoneNames _ Tip Root TargetLocation _ Precision
      MaxIterations _ 0 _ s t1 rfl hrep with e | ⟨u, hu⟩
    · rw [e]
      exact (BoneLengths_getD M mesh BoneNames s k hk).symm
    · refine BackwardReaching_lengths hM mesh hstore BoneNames hdistinct hparent _ ?_ Root _
        u t1 hu k hk
      intro i
      rcases Nat.lt_or_ge i (SolveFABRIK.BoneLengths M mesh BoneNames s).length with hi | hi
      · rw [List.getD_eq_getElem _ _ hi]
        exact BoneLengths_nonneg hM mesh BoneNames s _ (List.getElem_mem _)
      · rw [List.getD_eq_default _ _ hi]

end Reachable

section UnitQuaternions

variable {K : Type} [LinearOrderedField K] {S : Type}

/-- The norm of a product of quaternions is the product of the norms. -/
theorem FQuat.mul_SizeSquared (A B : FQuat K) :
    (A * B).SizeSquared = A.SizeSquared * B.SizeSquared := by
  show (FQuat.mul A B).SizeSquared = _
  simp only [FQuat.mul, FQuat.SizeSquared]
  ring

/-- A normalized vector of non-zero length has length 1. -/
theorem FVector.Normalize_unit_length {M : FMath K} (hM : M.Exact) (V : FVector K)
    (h : 0 < V.SizeSquared) : (FVector.Normalize M V).SizeSquared = 1 := by
  have hs := hM.Sqrt_mul_self V.SizeSquared (le_of_lt h)
  have hne : M.Sqrt V.SizeSquared ≠ 0 := by
    intro h0
    rw [h0, mul_zero] at hs
    exact absurd hs.symm (ne_of_gt h)
  unfold FVector.Normalize
  simp only [h, if_true]
  have : (FVector.mk (V.X * (1 / M.Sqrt V.SizeSquared)) (V.Y * (1 / M.Sqrt V.SizeSquared))
      (V.Z * (1 / M.Sqrt V.SizeSquared))).SizeSquared
      = V.SizeSquared / (M.Sqrt V.SizeSquared * M.Sqrt V.SizeSquared) := by
    simp only [FVector.SizeSquared]
    field_simp
  rw [this, hs]
  exact div_self (ne_of_gt h)

/-- Normalizing a vector of length 1 changes nothing. -/
theorem FVector.Normalize_of_unit {M : FMath K} (hM : M.Exact) (V : FVector K)
    (h : V.SizeSquared = 1) : FVector.Normalize M V = V := by
  have h1 : M.Sqrt 1 = 1 := hM.Sqrt_eq 1 1 zero_le_one (one_mul 1)
  unfold FVector.Normalize
  simp [h, h1]

/-- A normalized quaternion has norm 1. -/
theorem FQuat.Normalize_SizeSquared {M : FMath K} (hM : M.Exact) (Q : FQuat K) :
    (FQuat.Normalize M Q).SizeSquared = 1 := by
  unfold FQuat.Normalize
  by_cases h : 0 < Q.SizeSquared
  · have hs := hM.Sqrt_mul_self Q.SizeSquared (le_of_lt h)
    have hne : M.Sqrt Q.SizeSquared ≠ 0 := by
      intro h0
      rw [h0, mul_zero] at hs
      exact absurd hs.symm (ne_of_gt h)
    simp only [h, if_true]
    have : (FQuat.mk (Q.X * (1 / M.Sqrt Q.SizeSquared)) (Q.Y * (1 / M.Sqrt Q.SizeSquared))
        (Q.Z * (1 / M.Sqrt Q.SizeSquared)) (Q.W * (1 / M.Sqrt Q.SizeSquared))).SizeSquared
        = Q.SizeSquared / (M.Sqrt Q.SizeSquared * M.Sqrt Q.SizeSquared) := by
      simp only [FQuat.SizeSquared]
      field_simp
    rw [this, hs]
    exact div_self (ne_of_gt h)
  · simp only [h, if_false]
    simp [FQuat.Identity, FQuat.SizeSquared]

/-- The quaternion `FQuat(Axis, Angle)` of a unit axis has norm 1. -/
theorem FQuat.ofAxisAngle_SizeSquared {M : FMath K} (hM : M.Exact) (Axis : FVector K)
    (h : Axis.SizeSquared = 1) (AngleRad : K) :
    (FQuat.ofAxisAngle M Axis AngleRad).SizeSquared = 1 := by
  have hsc := hM.Sin_sq_add_Cos_sq (1 / 2 * AngleRad)
  simp only [FVector.SizeSquared] at h
  simp only [FQuat.ofAxisAngle, FQuat.SizeSquared]
  calc M.Sin (1 / 2 * AngleRad) * Axis.X * (M.Sin (1 / 2 * AngleRad) * Axis.X)
        + M.Sin (1 / 2 * AngleRad) * Axis.Y * (M.Sin (1 / 2 * AngleRad) * Axis.Y)
        + M.Sin (1 / 2 * AngleRad) * Axis.Z * (M.Sin (1 / 2 * AngleRad) * Axis.Z)
        + M.Cos (1 / 2 * AngleRad) * M.Cos (1 / 2 * AngleRad)
      = M.Sin (1 / 2 * AngleRad) * M.Sin (1 / 2 * AngleRad)
          * (Axis.X * Axis.X + Axis.Y * Axis.Y + Axis.Z * Axis.Z)
        + M.Cos (1 / 2 * AngleRad) * M.Cos (1 / 2 * AngleRad) := by ring
    _ = 1 := by rw [h, mul_one, hsc]

/-- One test of the apply step: a unit quaternion stays one when a unit
rotation is multiplied onto it or when it is left as it is. -/
theorem axis_rotation_step (c : Prop) [Decidable c] (D Q : FQuat K)
    (hQ : Q.SizeSquared = 1) (hD : c → D.SizeSquared = 1) :
    (if c then D * Q else Q).SizeSquared = 1 := by
  split
  · rename_i hc
    rw [FQuat.mul_SizeSquared, hD hc, hQ, one_mul]
  · exact hQ

/-- The composition of the three axis rotations onto a unit quaternion is a
unit quaternion. -/
theorem ComposeAxisRotations_SizeSquared {M : FMath K} (hM : M.Exact)
    (mesh : UPoseableMeshComponent K S) (DeltaRotation : MatrixXf K) (s : S) (b : FName)
    (h : (mesh.GetBoneQuaternion s b).SizeSquared = 1) :
    (ComposeAxisRotations M mesh DeltaRotation s b).SizeSquared = 1 := by
  unfold ComposeAxisRotations
  simp only []
  apply axis_rotation_step
  · apply axis_rotation_step
    · apply axis_rotation_step
      · exact h
      · intro hx
        exact FQuat.ofAxisAngle_SizeSquared hM _ (FVector.Normalize_unit_length hM _ hx) _
    · intro hy
      exact FQuat.ofAxisAngle_SizeSquared hM _ (FVector.Normalize_unit_length hM _ hy) _
  · intro hz
    exact FQuat.ofAxisAngle_SizeSquared hM _ (FVector.Normalize_unit_length hM _ hz) _

/-- Normalizing a quaternion of norm 1 changes nothing. -/
theorem FQuat.Normalize_of_unit_quaternion {M : FMath K} (hM : M.Exact) (Q : FQuat K)
    (h : Q.SizeSquared = 1) : FQuat.Normalize M Q = Q := by
  have h1 : M.Sqrt 1 = 1 := hM.Sqrt_eq 1 1 zero_le_one (one_mul 1)
  unfold FQuat.Normalize
  simp [h, h1]

/-- The identity is a left unit of the quaternion product. -/
theorem FQuat.Identity_mul (Q : FQuat K) : FQuat.Identity * Q = Q := by
  show FQuat.mul FQuat.Identity Q = Q
  ext <;> simp [FQuat.mul, FQuat.Identity]

/-- With the angles 0, 0, 0 the three axis rotations leave the quaternion of the
bone as it is. -/
theorem ComposeAxisRotations_zero_angles (M : FMath K) (hS : M.Sin 0 = 0) (hC : M.Cos 0 = 1)
    (mesh : UPoseableMeshComponent K S) (DeltaRotation : MatrixXf K) (s : S) (b : FName)
    (h0 : DeltaRotation.coeff 0 0 = 0) (h1 : DeltaRotation.coeff 1 0 = 0)
    (h2 : DeltaRotation.coeff 2 0 = 0) :
    ComposeAxisRotations M mesh DeltaRotation s b = mesh.GetBoneQuaternion s b := by
  have key : ∀ Axis : FVector K, FQuat.ofAxisAngle M Axis 0 = FQuat.Identity := by
    intro Axis
    simp [FQuat.ofAxisAngle, hS, hC, FQuat.Identity]
  unfold ComposeAxisRotations
  simp only [h0, h1, h2, key, FQuat.Identity_mul, ite_self]

/-- The solving code of `SolveJacobianTranspose` in terms of its `AlphaBottom`
and `DeltaRotation`. -/
theorem SolveJacobianTranspose_Solve_eq (M : FMath K) (mesh : UPoseableMeshComponent K S)
    (Uninitialized : Nat → Nat → K) (BoneNames : List FName) (Tip : FName)
    (TargetLocation : FVector K) (Precision : K) (s : S) :
    SolveJacobianTranspose.Solve M mesh Uninitialized BoneNames Tip TargetLocation Precision s
      = if Precision < FVector.Dist M (mesh.GetBoneLocationByName s Tip) TargetLocation then
          if ¬ M.IsNearlyZero (SolveJacobianTranspose.AlphaBottom M mesh Uninitialized
              BoneNames Tip TargetLocation s) then
            (List.range (BoneNames.length - 1)).foldl
              (SolveJacobianTranspose.ApplyStep M mesh BoneNames
                (SolveJacobianTranspose.DeltaRotation M mesh Uninitialized BoneNames Tip
                  TargetLocation s)) s
          else s
        else s := rfl

/-- A fold keeps what each of its steps keeps. -/
theorem foldl_preserves {ι : Type} (P : S → Prop) (step : S → ι → S)
    (h : ∀ st i, P st → P (step st i)) : ∀ (l : List ι) (s : S), P s → P (l.foldl step s) := by
  intro l
  induction l with
  | nil => intro s hs; exact hs
  | cons a l ih => intro s hs; exact ih _ (h s a hs)

/-- A fold of fallible steps keeps what each of its steps keeps. -/
theorem foldlM_preserves {ι : Type} (P : S → Prop) (step : S → ι → Option S)
    (h : ∀ st i st1, P st → step st i = some st1 → P st1) :
    ∀ (l : List ι) (s t : S), P s → l.foldlM step s = some t → P t := by
  intro l
  induction l with
  | nil =>
    intro s t hs ht
    simp at ht
    rw [← ht]; exact hs
  | cons a l ih =>
    intro s t hs ht
    rw [List.foldlM_cons] at ht
    cases hst : step s a with
    | none => rw [hst] at ht; simp at ht
    | some s1 =>
      rw [hst] at ht
      exact ih s1 t (h s a s1 hs hst) ht

theorem UnitWrites_set_rotation (mesh : UPoseableMeshComponent K S)
    (st : S × List (FName × FQuat K)) (b : FName) (q : FQuat K) (hq : q.SizeSquared = 1)
    (h : UnitWrites st.2) :
    UnitWrites ((WithWriteLog mesh).SetBoneRotationByName st b q).2 := by
  intro w hw
  change w ∈ (b, q) :: st.2 at hw
  rcases List.mem_cons.1 hw with e | e
  · rw [e]; exact hq
  · exact h w e

/-- The joint step of `SolveCCD` writes a unit quaternion or nothing. -/
theorem SolveCCD_JointStep_writes {M : FMath K} (hM : M.Exact)
    (mesh : UPoseableMeshComponent K S) (Tip : FName) (TargetLocation : FVector K)
    (st : S × List (FName × FQuat K)) (b : FName) (h : UnitWrites st.2) :
    UnitWrites (SolveCCD.JointStep M (WithWriteLog mesh) Tip TargetLocation st b).2 := by
  unfold SolveCCD.JointStep
  simp only []
  split
  · exact UnitWrites_set_rotation mesh st b _ (FQuat.Normalize_SizeSquared hM _) h
  · exact h

theorem SolveCCD_Loop_writes {M : FMath K} (hM : M.Exact)
    (mesh : UPoseableMeshComponent K S) (BoneNames : List FName) (Tip : FName)
    (TargetLocation : FVector K) (Precision : K) (MaxIterations : Int) :
    ∀ (n : Nat) (IterationCount : Int) (Distance : K) (st : S × List (FName × FQuat K)),
      (MaxIterations - IterationCount).toNat = n → UnitWrites st.2 →
      UnitWrites (SolveCCD.Loop M (WithWriteLog mesh) BoneNames Tip TargetLocation Precision
        MaxIterations IterationCount Distance st).1.2 := by
  intro n
  induction n with
  | zero =>
    intro c D st hn h
    have hc : ¬ (Precision < D ∧ c < MaxIterations) := fun hh => by omega
    rw [SolveCCD_Loop_exit M _ BoneNames Tip TargetLocation Precision MaxIterations c D st hc]
    exact h
  | succ n ih =>
    intro c D st hn h
    unfold SolveCCD.Loop
    split
    · simp only []
      apply ih (c + 1) _ _ (by omega)
      unfold SolveCCD.Iteration
      exact foldl_preserves (fun st => UnitWrites st.2) _
        (fun st i hst => SolveCCD_JointStep_writes hM mesh Tip TargetLocation st _ hst) _ st h
    · exact h

/-- The orientation step of `SolveFABRIK` writes a unit quaternion or nothing. -/
theorem SolveFABRIK_OrientationStep_writes {M : FMath K} (hM : M.Exact)
    (mesh : UPoseableMeshComponent K S) (BoneNames : List FName)
    (OriginalLocation : List (FVector K)) (st : S × List (FName × FQuat K)) (i : Nat)
    (h : UnitWrites st.2) :
    UnitWrites (SolveFABRIK.OrientationStep M (WithWriteLog mesh) BoneNames OriginalLocation
      st i).2 := by
  unfold SolveFABRIK.OrientationStep
  simp only []
  split
  · exact UnitWrites_set_rotation mesh st _ _ (FQuat.Normalize_SizeSquared hM _) h
  · exact h

/-- The position passes of `SolveFABRIK` write no orientation. -/
theorem SolveFABRIK_Reposition_writes (M : FMath K) (mesh : UPoseableMeshComponent K S)
    (BoneNames : List FName) (Tip Root : FName) (TargetLocation : FVector K)
    (Precision : K) (MaxIterations : Int) (st t : S × List (FName × FQuat K))
    (h : SolveFABRIK.Reposition M (WithWriteLog mesh) BoneNames Tip Root TargetLocation
      Precision MaxIterations st = some t) : t.2 = st.2 := by
  have hstretch : ∀ L (u v : S × List (FName × FQuat K)) (i : Nat),
      u.2 = st.2 → SolveFABRIK.StretchStep M (WithWriteLog mesh) BoneNames L TargetLocation
        u i = some v → v.2 = st.2 := by
    intro L u v i hu hv
    unfold SolveFABRIK.StretchStep at hv
    simp only [] at hv
    split at hv
    · cases hv
    · cases hv; exact hu
  have hfwd : ∀ L (u v : S × List (FName × FQuat K)) (i : Nat),
      u.2 = st.2 → SolveFABRIK.ForwardStep M (WithWriteLog mesh) BoneNames L u i = some v →
        v.2 = st.2 := by
    intro L u v i hu hv
    unfold SolveFABRIK.ForwardStep at hv
    simp only [] at hv
    split at hv
    · cases hv
    · cases hv; exact hu
  have hbwd : ∀ L (u v : S × List (FName × FQuat K)) (i : Nat),
      u.2 = st.2 → SolveFABRIK.BackwardStep M (WithWriteLog mesh) BoneNames L u i = some v →
        v.2 = st.2 := by
    intro L u v i hu hv
    unfold SolveFABRIK.BackwardStep at hv
    simp only [] at hv
    split at hv
    · cases hv
    · cases hv; exact hu
  have hiter : ∀ L RootLocation (u v : S × List (FName × FQuat K)),
      u.2 = st.2 → SolveFABRIK.Iteration M (WithWriteLog mesh) BoneNames L Tip Root
        TargetLocation RootLocation u = some v → v.2 = st.2 := by
    intro L RootLocation u v hu hv
    unfold SolveFABRIK.Iteration at hv
    cases hf : SolveFABRIK.ForwardReaching M (WithWriteLog mesh) BoneNames L Tip
        TargetLocation u with
    | none => rw [hf] at hv; cases hv
    | some u1 =>
      rw [hf] at hv
      have h1 : u1.2 = st.2 :=
        foldlM_preserves (fun x => x.2 = st.2) _ (fun a i b ha hb => hfwd L a b i ha hb)
          _ _ u1 hu hf
      exact foldlM_preserves (fun x => x.2 = st.2) _ (fun a i b ha hb => hbwd L a b i ha hb)
        _ _ v h1 hv
  have hloop : ∀ L RootLocation (n : Nat) (c : Int) (D : K)
      (u v : S × List (FName × FQuat K)), (MaxIterations - c).toNat = n → u.2 = st.2 →
      (SolveFABRIK.Loop M (WithWriteLog mesh) BoneNames L Tip Root TargetLocation
        RootLocation Precision MaxIterations c D u).1 = some v → v.2 = st.2 := by
    intro L RootLocation n
    induction n with
    | zero =>
      intro c D u v hn hu hv
      have hc : ¬ (Precision < D ∧ c < MaxIterations) := fun hh => by omega
      rw [SolveFABRIK_Loop_exit M _ BoneNames L Tip Root TargetLocation RootLocation
        Precision MaxIterations c D u hc] at hv
      cases hv; exact hu
    | succ n ih =>
      intro c D u v hn hu hv
      unfold SolveFABRIK.Loop at hv
      split at hv
      · split at hv
        · cases hv
        · rename_i u1 hit
          exact ih (c + 1) _ u1 v (by omega) (hiter L RootLocation u u1 hu hit) hv
      · cases hv; exact hu
  unfold SolveFABRIK.Reposition at h
  simp only [] at h
  split at h
  · exact foldlM_preserves (fun x => x.2 = st.2) _
      (fun a i b ha hb => hstretch _ a b i ha hb) _ _ t rfl h
  · exact hloop _ _ _ 0 _ st t rfl rfl h

/-- The apply step of `SolveJacobianTranspose` writes a unit quaternion while
the stored orientations are unit quaternions, and keeps them so. -/
theorem SolveJacobianTranspose_ApplyStep_writes {M : FMath K} (hM : M.Exact)
    (mesh : UPoseableMeshComponent K S) (hstore : OrientationStore mesh)
    (BoneNames : List FName) (DeltaRotation : MatrixXf K)
    (st : S × List (FName × FQuat K)) (i : Nat)
    (h : (∀ c, (mesh.GetBoneQuaternion st.1 c).SizeSquared = 1) ∧ UnitWrites st.2) :
    (∀ c, (mesh.GetBoneQuaternion
        (SolveJacobianTranspose.ApplyStep M (WithWriteLog mesh) BoneNames DeltaRotation
          st i).1 c).SizeSquared = 1) ∧
    UnitWrites (SolveJacobianTranspose.ApplyStep M (WithWriteLog mesh) BoneNames
      DeltaRotation st i).2 := by
  have hq : (ComposeAxisRotations M (WithWriteLog mesh) DeltaRotation st
      (BoneNames.getD i "None")).SizeSquared = 1 :=
    ComposeAxisRotations_SizeSquared hM (WithWriteLog mesh) DeltaRotation st _ (h.1 _)
  unfold SolveJacobianTranspose.ApplyStep
  exact ⟨hstore.set_rotation st.1 _ _ h.1 hq, UnitWrites_set_rotation mesh st _ _ hq h.2⟩

/-- The apply step of `SolveJacobianPinv` writes a unit quaternion. -/
theorem SolveJacobianPinv_ApplyStep_writes {M : FMath K} (hM : M.Exact)
    (mesh : UPoseableMeshComponent K S) (BoneNames : List FName) (DeltaRotation : MatrixXf K)
    (st : S × List (FName × FQuat K)) (i : Nat) (h : UnitWrites st.2) :
    UnitWrites (SolveJacobianPinv.ApplyStep M (WithWriteLog mesh) BoneNames DeltaRotation
      st i).2 := by
  unfold SolveJacobianPinv.ApplyStep
  exact UnitWrites_set_rotation mesh st _ _ (FQuat.Normalize_SizeSquared hM _) h

/-- The in-memory skeleton keeps unit orientations. -/
theorem FlatMesh_OrientationStore (Parent : FName → FName) :
    OrientationStore (FlatMesh Parent : UPoseableMeshComponent K (FlatPose K)) where
  set_location := fun s b v h c => h c
  set_rotation := fun s b q h hq c => by
    show (if c = b then q else s.Rotation c).SizeSquared = 1
    split
    · exact hq
    · exact h c

/-- C7. Orientation validity: under exact arithmetic, with
`FQuat(axis, angle) = (sin(angle/2) * axis, cos(angle/2))`, for a pose store
whose orientations are all unit quaternions at entry, every orientation that
`SolveCCD`, `SolveFABRIK`, `SolveJacobianTranspose` and `SolveJacobianPinv`
pass to `SetBoneRotationByName` is a unit quaternion. The writes are
those recorded by the logging pose store, started with an empty log. -/
theorem orientation_validity {M : FMath K} (hM : M.Exact)
    (mesh : UPoseableMeshComponent K S) (hstore : OrientationStore mesh)
    (Uninitialized : Nat → Nat → K) (inverse : MatrixXf K → MatrixXf K) (fuel : Nat)
    (Tip Root : FName) (TargetLocation : FVector K) (Precision : K) (MaxIterations : Int)
    (s : S) (hs : ∀ b, (mesh.GetBoneQuaternion s b).SizeSquared = 1) :
    (∀ o t, SolveCCD M (WithWriteLog mesh) fuel Tip Root TargetLocation Precision
        MaxIterations (s, []) = some o → o.pose = some t → UnitWrites t.2) ∧
    (∀ o t, SolveFABRIK M (WithWriteLog mesh) fuel Tip Root TargetLocation Precision
        MaxIterations (s, []) = some o → o.pose = some t → UnitWrites t.2) ∧
    (∀ o t, SolveJacobianTranspose M (WithWriteLog mesh) Uninitialized fuel Tip Root
        TargetLocation Precision (s, []) = some o → o.pose = some t → UnitWrites t.2) ∧
    (∀ o t, SolveJacobianPinv M (WithWriteLog mesh) Uninitialized inverse fuel Tip Root
        TargetLocation Precision (s, []) = some o → o.pose = some t → UnitWrites t.2) := by
  have h0 : UnitWrites (([] : List (FName × FQuat K))) := fun w hw => absurd hw (List.not_mem_nil w)
  refine ⟨?_, ?_, ?_, ?_⟩
  · intro o t ho ht
    unfold SolveCCD at ho
    split at ho
    · cases ho
    · split at ho
      · cases ho; cases ht; exact h0
      · cases ho; cases ht
        exact SolveCCD_Loop_writes hM mesh _ Tip TargetLocation Precision MaxIterations _ 0 _
          (s, []) rfl h0
  · intro o t ho ht
    unfold SolveFABRIK at ho
    split at ho
    · cases ho
    · split at ho
      · cases ho; cases ht; exact h0
      · cases ho
        unfold SolveFABRIK.Solve at ht
        split at ht
        · cases ht
        · rename_i t1 hrep
          cases ht
          have h1 : t1.2 = [] := SolveFABRIK_Reposition_writes M mesh _ Tip Root TargetLocation
            Precision MaxIterations (s, []) t1 hrep
          unfold SolveFABRIK.OrientationAdjustment
          exact foldl_preserves (fun st => UnitWrites st.2) _
            (fun st i hst => SolveFABRIK_OrientationStep_writes hM mesh _ _ st i hst) _ t1
            (by show UnitWrites t1.2; rw [h1]; exact h0)
  · intro o t ho ht
    unfold SolveJacobianTranspose at ho
    split at ho
    · cases ho
    · split at ho
      · cases ho; cases ht; exact h0
      · cases ho; cases ht
        unfold SolveJacobianTranspose.Solve
        simp only []
        split
        · split
          · exact (foldl_preserves
              (fun st : S × List (FName × FQuat K) =>
                (∀ c, (mesh.GetBoneQuaternion st.1 c).SizeSquared = 1) ∧ UnitWrites st.2) _
              (fun st i hst =>
                SolveJacobianTranspose_ApplyStep_writes hM mesh hstore _ _ st i hst) _
              (s, []) ⟨hs, h0⟩).2
          · exact h0
        · exact h0
  · intro o t ho ht
    unfold SolveJacobianPinv at ho
    split at ho
    · cases ho
    · split at ho
      · cases ho; cases ht; exact h0
      · cases ho; cases ht
        unfold SolveJacobianPinv.Solve
        simp only []
        split
        · exact foldl_preserves (fun st => UnitWrites st.2) _
            (fun st i hst => SolveJacobianPinv_ApplyStep_writes hM mesh _ _ st i hst) _
            (s, []) h0
        · exact h0

/-- Witness of C7: one CCD iteration on the bent forearm with the target at
(3, 0, 0) writes one orientation, a unit quaternion. -/
theorem orientation_validity_witness :
    ∃ t : FlatPose ℝ × List (FName × FQuat ℝ),
      SolveCCD (FMath.mk Real.sqrt Real.arccos Real.sin Real.cos (1 / 100000000))
        (WithWriteLog ArmMesh) 2 "hand_l" "lowerarm_l" ⟨3, 0, 0⟩ 1 1 (BentPose, [])
        = some (Outcome.Solved t) ∧
      t.2.length = 1 ∧ UnitWrites t.2 := by
  have h9 : Real.sqrt 9 = 3 := Real_sqrt_eq 9 3 (by norm_num) (by norm_num)
  have h18 : (1 : ℝ) < Real.sqrt (3 * 3 + 3 * 3) := by
    rw [Real.lt_sqrt (by norm_num)]; norm_num
  have hwalk : ChainWalk (WithWriteLog (ArmMesh : UPoseableMeshComponent ℝ (FlatPose ℝ)))
      "lowerarm_l" 2 "hand_l" ["hand_l"] = some ("lowerarm_l", ["lowerarm_l", "hand_l"]) := by
    simp [ChainWalk, WithWriteLog, ArmMesh, FlatMesh, ArmParent]
  have hsolve : SolveCCD (FMath.mk Real.sqrt Real.arccos Real.sin Real.cos (1 / 100000000))
      (WithWriteLog ArmMesh) 2 "hand_l" "lowerarm_l" ⟨3, 0, 0⟩ 1 1
      ((BentPose : FlatPose ℝ), [])
      = some (Outcome.Solved (SolveCCD.Solve
          (FMath.mk Real.sqrt Real.arccos Real.sin Real.cos (1 / 100000000))
          (WithWriteLog ArmMesh) ["lowerarm_l", "hand_l"] "hand_l" ⟨3, 0, 0⟩ 1 1
          (BentPose, []))) := by
    unfold SolveCCD
    rw [hwalk]
    simp
  refine ⟨_, hsolve, ?_, ?_⟩
  · unfold SolveCCD.Solve
    simp only []
    rw [SolveCCD.Loop]
    simp [WithWriteLog, ArmMesh, FlatMesh, BentPose, FVector.Dist, FVector.SizeSquared, h18]
    rw [SolveCCD_Loop_exit _ _ _ _ _ _ _ _ _ _ (by norm_num)]
    simp [SolveCCD.Iteration, SolveCCD.JointStep, List.range_succ, FVector.Normalize,
      FVector.SizeSquared, FVector.CrossProduct, h9]
  · exact (orientation_validity (RealMath_Exact (1 / 100000000))
      (ArmMesh : UPoseableMeshComponent ℝ (FlatPose ℝ)) (FlatMesh_OrientationStore ArmParent)
      (fun _ _ => 0) (fun A => A) 2 "hand_l" "lowerarm_l" ⟨3, 0, 0⟩ 1 1 BentPose
      (by intro b; simp [ArmMesh, FlatMesh, BentPose, FQuat.Identity, FQuat.SizeSquared])).1
      _ _ hsolve rfl

end UnitQuaternions

section Jacobian

/-- C10 (defect of the code). Forearm along X: joint lowerarm_l at the origin
with the identity orientation, tip hand_l at (2, 0, 0), storage of the resized
matrix filled with 7. For the axis Y the claim gives the column
`cross(n, tip - joint) = (0, 0, -2)`; the code normalizes `DeltaY` and stores
(0, 0, -1). For the axis X the cross product is zero and the column is not
the zero vector: it is not assigned and keeps what the storage held. For the
axis Z the column is `cross(n, tip - joint) = (0, 2, 0)`, as claimed. -/
theorem jacobian_column_Y_normalized :
    (FVector.CrossProduct
        (FVector.Normalize (FMath.mk Real.sqrt Real.arccos Real.sin Real.cos (1 / 100000000))
          (RotAxis (ArmMesh : UPoseableMeshComponent ℝ (FlatPose ℝ)) StraightPose
            "lowerarm_l" EAxis.Y))
        ((⟨2, 0, 0⟩ : FVector ℝ)
          - (ArmMesh : UPoseableMeshComponent ℝ (FlatPose ℝ)).GetBoneLocationByName
              StraightPose "lowerarm_l")
      = ⟨0, 0, -2⟩) ∧
    ((BuildJacobian (FMath.mk Real.sqrt Real.arccos Real.sin Real.cos (1 / 100000000))
        ArmMesh (fun _ _ => 7) ["lowerarm_l", "hand_l"] ⟨2, 0, 0⟩ StraightPose).coeff 0 1 = 0 ∧
     (BuildJacobian (FMath.mk Real.sqrt Real.arccos Real.sin Real.cos (1 / 100000000))
        ArmMesh (fun _ _ => 7) ["lowerarm_l", "hand_l"] ⟨2, 0, 0⟩ StraightPose).coeff 1 1 = 0 ∧
     (BuildJacobian (FMath.mk Real.sqrt Real.arccos Real.sin Real.cos (1 / 100000000))
        ArmMesh (fun _ _ => 7) ["lowerarm_l", "hand_l"] ⟨2, 0, 0⟩ StraightPose).coeff 2 1
        = -1) ∧
    (FVector.CrossProduct
        (FVector.Normalize (FMath.mk Real.sqrt Real.arccos Real.sin Real.cos (1 / 100000000))
          (RotAxis (ArmMesh : UPoseableMeshComponent ℝ (FlatPose ℝ)) StraightPose
            "lowerarm_l" EAxis.X))
        ((⟨2, 0, 0⟩ : FVector ℝ)
          - (ArmMesh : UPoseableMeshComponent ℝ (FlatPose ℝ)).GetBoneLocationByName
              StraightPose "lowerarm_l")
      = ⟨0, 0, 0⟩) ∧
    ((BuildJacobian (FMath.mk Real.sqrt Real.arccos Real.sin Real.cos (1 / 100000000))
        ArmMesh (fun _ _ => 7) ["lowerarm_l", "hand_l"] ⟨2, 0, 0⟩ StraightPose).coeff 0 0 = 7 ∧
     (BuildJacobian (FMath.mk Real.sqrt Real.arccos Real.sin Real.cos (1 / 100000000))
        ArmMesh (fun _ _ => 7) ["lowerarm_l", "hand_l"] ⟨2, 0, 0⟩ StraightPose).coeff 1 0 = 7 ∧
     (BuildJacobian (FMath.mk Real.sqrt Real.arccos Real.sin Real.cos (1 / 100000000))
        ArmMesh (fun _ _ => 7) ["lowerarm_l", "hand_l"] ⟨2, 0, 0⟩ StraightPose).coeff 2 0
        = 7) ∧
    ((BuildJacobian (FMath.mk Real.sqrt Real.arccos Real.sin Real.cos (1 / 100000000))
        ArmMesh (fun _ _ => 7) ["lowerarm_l", "hand_l"] ⟨2, 0, 0⟩ StraightPose).coeff 0 2 = 0 ∧
     (BuildJacobian (FMath.mk Real.sqrt Real.arccos Real.sin Real.cos (1 / 100000000))
        ArmMesh (fun _ _ => 7) ["lowerarm_l", "hand_l"] ⟨2, 0, 0⟩ StraightPose).coeff 1 2 = 2 ∧
     (BuildJacobian (FMath.mk Real.sqrt Real.arccos Real.sin Real.cos (1 / 100000000))
        ArmMesh (fun _ _ => 7) ["lowerarm_l", "hand_l"] ⟨2, 0, 0⟩ StraightPose).coeff 2 2
        = 0) := by
  have h4 : Real.sqrt 4 = 2 := Real_sqrt_eq 4 2 (by norm_num) (by norm_num)
  have hX : RotAxis (ArmMesh : UPoseableMeshComponent ℝ (FlatPose ℝ)) StraightPose
      "lowerarm_l" EAxis.X = ⟨1, 0, 0⟩ := by
    simp [RotAxis, ArmMesh, FlatMesh, StraightPose, FQuat.RotateVector, FQuat.Identity,
      EAxis.UnitVector, FVector.CrossProduct]
  have hY : RotAxis (ArmMesh : UPoseableMeshComponent ℝ (FlatPose ℝ)) StraightPose
      "lowerarm_l" EAxis.Y = ⟨0, 1, 0⟩ := by
    simp [RotAxis, ArmMesh, FlatMesh, StraightPose, FQuat.RotateVector, FQuat.Identity,
      EAxis.UnitVector, FVector.CrossProduct]
  have hZ : RotAxis (ArmMesh : UPoseableMeshComponent ℝ (FlatPose ℝ)) StraightPose
      "lowerarm_l" EAxis.Z = ⟨0, 0, 1⟩ := by
    simp [RotAxis, ArmMesh, FlatMesh, StraightPose, FQuat.RotateVector, FQuat.Identity,
      EAxis.UnitVector, FVector.CrossProduct]
  have hloc : (ArmMesh : UPoseableMeshComponent ℝ (FlatPose ℝ)).GetBoneLocationByName
      StraightPose "lowerarm_l" = ⟨0, 0, 0⟩ := by
    simp [ArmMesh, FlatMesh, StraightPose]
  have hJ : BuildJacobian (FMath.mk Real.sqrt Real.arccos Real.sin Real.cos (1 / 100000000))
      (ArmMesh : UPoseableMeshComponent ℝ (FlatPose ℝ)) (fun _ _ => 7)
      ["lowerarm_l", "hand_l"] ⟨2, 0, 0⟩ StraightPose
      = ((MatrixXf.mk 3 3 (fun _ _ => 7)).setColumn 1 ⟨0, 0, -1⟩).setColumn 2 ⟨0, 2, 0⟩ := by
    simp [BuildJacobian, JacobianColumns, List.range_succ, hX, hY, hZ, hloc,
      FVector.Normalize, FVector.SizeSquared, FVector.CrossProduct, h4]
  rw [hJ, hX, hY, hloc]
  refine ⟨?_, ⟨?_, ?_, ?_⟩, ?_, ⟨?_, ?_, ?_⟩, ⟨?_, ?_, ?_⟩⟩ <;>
    simp [MatrixXf.setColumn, FVector.Component, FVector.Normalize, FVector.SizeSquared,
      FVector.CrossProduct]

end Jacobian

section MatrixAlgebra

variable {K : Type} [LinearOrderedField K]

@[simp] theorem MatrixXf.mul_coeff (A B : MatrixXf K) (i j : Nat) :
    (A * B).coeff i j = Finset.sum (Finset.range A.cols) fun k => A.coeff i k * B.coeff k j :=
  rfl

@[simp] theorem MatrixXf.mul_rows (A B : MatrixXf K) : (A * B).rows = A.rows := rfl

@[simp] theorem MatrixXf.mul_cols (A B : MatrixXf K) : (A * B).cols = B.cols := rfl

@[simp] theorem MatrixXf.smul_coeff (c : K) (A : MatrixXf K) (i j : Nat) :
    (c * A : MatrixXf K).coeff i j = c * A.coeff i j := rfl

@[simp] theorem MatrixXf.smul_rows (c : K) (A : MatrixXf K) : (c * A : MatrixXf K).rows = A.rows :=
  rfl

@[simp] theorem MatrixXf.smul_cols (c : K) (A : MatrixXf K) : (c * A : MatrixXf K).cols = A.cols :=
  rfl

@[simp] theorem MatrixXf.sub_coeff (A B : MatrixXf K) (i j : Nat) :
    (A - B).coeff i j = A.coeff i j - B.coeff i j := rfl

@[simp] theorem MatrixXf.sub_rows (A B : MatrixXf K) : (A - B).rows = A.rows := rfl

@[simp] theorem MatrixXf.sub_cols (A B : MatrixXf K) : (A - B).cols = A.cols := rfl

end MatrixAlgebra

section MatrixShape

variable {K : Type}

@[simp] theorem MatrixXf.transpose_coeff (A : MatrixXf K) (i j : Nat) :
    A.transpose.coeff i j = A.coeff j i := rfl

@[simp] theorem MatrixXf.transpose_rows (A : MatrixXf K) : A.transpose.rows = A.cols := rfl

@[simp] theorem MatrixXf.transpose_cols (A : MatrixXf K) : A.transpose.cols = A.rows := rfl

@[simp] theorem MatrixXf.setColumn_rows (A : MatrixXf K) (c : Nat) (V : FVector K) :
    (A.setColumn c V).rows = A.rows := rfl

@[simp] theorem MatrixXf.setColumn_cols (A : MatrixXf K) (c : Nat) (V : FVector K) :
    (A.setColumn c V).cols = A.cols := rfl

end MatrixShape

section PerJointStep

/-- The Jacobian of the two-link pose with the tip at (0, 1, 0) and cleared
storage: the columns of the axes X and Z of both joints; the cross products of
both Y axes are zero and their columns are not assigned. -/
theorem TwoLinkPose_Jacobian :
    BuildJacobian (FMath.mk Real.sqrt Real.arccos Real.sin Real.cos (1 / 100000000))
      (ArmMesh : UPoseableMeshComponent ℝ (FlatPose ℝ)) (fun _ _ => 0)
      ["upperarm_l", "lowerarm_l", "hand_l"] ⟨0, 1, 0⟩ TwoLinkPose
      = ((((MatrixXf.mk 3 6 (fun _ _ => 0)).setColumn 0 ⟨0, 0, 1⟩).setColumn 2
          ⟨-1, 0, 0⟩).setColumn 3 ⟨2 / 3, 2 / 3, -1 / 3⟩).setColumn 5
          ⟨1 / 3, -2 / 3, -2 / 3⟩ := by
  have hX0 : RotAxis (ArmMesh : UPoseableMeshComponent ℝ (FlatPose ℝ)) TwoLinkPose
      "upperarm_l" EAxis.X = ⟨1, 0, 0⟩ := by
    simp [RotAxis, ArmMesh, FlatMesh, TwoLinkPose, FQuat.RotateVector, FQuat.Identity,
      EAxis.UnitVector, FVector.CrossProduct]
  have hY0 : RotAxis (ArmMesh : UPoseableMeshComponent ℝ (FlatPose ℝ)) TwoLinkPose
      "upperarm_l" EAxis.Y = ⟨0, 1, 0⟩ := by
    simp [RotAxis, ArmMesh, FlatMesh, TwoLinkPose, FQuat.RotateVector, FQuat.Identity,
      EAxis.UnitVector, FVector.CrossProduct]
  have hZ0 : RotAxis (ArmMesh : UPoseableMeshComponent ℝ (FlatPose ℝ)) TwoLinkPose
      "upperarm_l" EAxis.Z = ⟨0, 0, 1⟩ := by
    simp [RotAxis, ArmMesh, FlatMesh, TwoLinkPose, FQuat.RotateVector, FQuat.Identity,
      EAxis.UnitVector, FVector.CrossProduct]
  have hX1 : RotAxis (ArmMesh : UPoseableMeshComponent ℝ (FlatPose ℝ)) TwoLinkPose
      "lowerarm_l" EAxis.X = ⟨1 / 3, -2 / 3, -2 / 3⟩ := by
    simp [RotAxis, ArmMesh, FlatMesh, TwoLinkPose, FQuat.RotateVector, FQuat.Identity,
      EAxis.UnitVector, FVector.CrossProduct]
    norm_num
  have hY1 : RotAxis (ArmMesh : UPoseableMeshComponent ℝ (FlatPose ℝ)) TwoLinkPose
      "lowerarm_l" EAxis.Y = ⟨-2 / 3, 1 / 3, -2 / 3⟩ := by
    simp [RotAxis, ArmMesh, FlatMesh, TwoLinkPose, FQuat.RotateVector, FQuat.Identity,
      EAxis.UnitVector, FVector.CrossProduct]
    norm_num
  have hZ1 : RotAxis (ArmMesh : UPoseableMeshComponent ℝ (FlatPose ℝ)) TwoLinkPose
      "lowerarm_l" EAxis.Z = ⟨-2 / 3, -2 / 3, 1 / 3⟩ := by
    simp [RotAxis, ArmMesh, FlatMesh, TwoLinkPose, FQuat.RotateVector, FQuat.Identity,
      EAxis.UnitVector, FVector.CrossProduct]
    norm_num
  have hl0 : (ArmMesh : UPoseableMeshComponent ℝ (FlatPose ℝ)).GetBoneLocationByName
      TwoLinkPose "upperarm_l" = ⟨0, 0, 0⟩ := by
    simp [ArmMesh, FlatMesh, TwoLinkPose]
  have hl1 : (ArmMesh : UPoseableMeshComponent ℝ (FlatPose ℝ)).GetBoneLocationByName
      TwoLinkPose "lowerarm_l" = ⟨2 / 3, 2 / 3, 2 / 3⟩ := by
    simp [ArmMesh, FlatMesh, TwoLinkPose]
  have hE := RealMath_Exact (1 / 100000000)
  have hnX0 := FVector.Normalize_of_unit hE (⟨1, 0, 0⟩ : FVector ℝ)
    (by norm_num [FVector.SizeSquared])
  have hnY0 := FVector.Normalize_of_unit hE (⟨0, 1, 0⟩ : FVector ℝ)
    (by norm_num [FVector.SizeSquared])
  have hnZ0 := FVector.Normalize_of_unit hE (⟨0, 0, 1⟩ : FVector ℝ)
    (by norm_num [FVector.SizeSquared])
  have hnX1 := FVector.Normalize_of_unit hE (⟨1 / 3, -2 / 3, -2 / 3⟩ : FVector ℝ)
    (by norm_num [FVector.SizeSquared])
  have hnY1 := FVector.Normalize_of_unit hE (⟨-2 / 3, 1 / 3, -2 / 3⟩ : FVector ℝ)
    (by norm_num [FVector.SizeSquared])
  have hnZ1 := FVector.Normalize_of_unit hE (⟨-2 / 3, -2 / 3, 1 / 3⟩ : FVector ℝ)
    (by norm_num [FVector.SizeSquared])
  simp only [BuildJacobian, JacobianColumns, List.range_succ, List.range_zero, List.nil_append,
    List.length_cons, List.length_nil, List.foldl_cons, List.foldl_nil, List.cons_append,
    List.getD_cons_zero, List.getD_cons_succ,
    hX0, hY0, hZ0, hX1, hY1, hZ1, hl0, hl1, hnX0, hnY0, hnZ0, hnX1, hnY1, hnZ1]
  norm_num [FVector.CrossProduct, FVector.SizeSquared]

/-- The vector `DeltaRotation` of `SolveJacobianTranspose` on the two-link pose
with the target at (0, 2, 0): (0, 0, 0, 2/3, 0, -2/3). -/
theorem TwoLinkPose_DeltaRotation (c : Nat) :
    (SolveJacobianTranspose.DeltaRotation
      (FMath.mk Real.sqrt Real.arccos Real.sin Real.cos (1 / 100000000))
      (ArmMesh : UPoseableMeshComponent ℝ (FlatPose ℝ)) (fun _ _ => 0)
      ["upperarm_l", "lowerarm_l", "hand_l"] "hand_l" ⟨0, 2, 0⟩ TwoLinkPose).coeff c 0
      = if c = 3 then 2 / 3 else if c = 5 then -2 / 3 else 0 := by
  have hJ := TwoLinkPose_Jacobian
  have htip : (ArmMesh : UPoseableMeshComponent ℝ (FlatPose ℝ)).GetBoneLocationByName
      TwoLinkPose "hand_l" = ⟨0, 1, 0⟩ := by
    simp [ArmMesh, FlatMesh, TwoLinkPose]
  unfold SolveJacobianTranspose.DeltaRotation
  simp only [htip, hJ]
  simp [Finset.sum_range_succ, MatrixXf.dot, MatrixXf.setColumn, MatrixXf.ofFVector,
    FVector.Component]
  split_ifs <;> first | omega | norm_num

/-- C11 (defect of the code). Two links: upperarm_l at the origin, lowerarm_l at
(2/3, 2/3, 2/3), hand_l at (0, 1, 0), identity orientations, target (0, 2, 0),
precision 1/2, cleared matrix storage. `SolveJacobianTranspose` computes
`DeltaRotation = (0, 0, 0, 2/3, 0, -2/3)`; by the claim joint 1 (lowerarm_l) is
rotated by its own block (2/3, 0, -2/3). The apply step reads the components
0, 1, 2 for every joint: both joints are written with the identity they had,
and the rotation of joint 1 about its X axis by 2/3, which is not the
identity, is not applied. The apply step of `SolveJacobianPinv` does the same
with this `DeltaRotation`. -/
theorem per_joint_step_reads_first_block :
    ((SolveJacobianTranspose.DeltaRotation
        (FMath.mk Real.sqrt Real.arccos Real.sin Real.cos (1 / 100000000))
        (ArmMesh : UPoseableMeshComponent ℝ (FlatPose ℝ)) (fun _ _ => 0)
        ["upperarm_l", "lowerarm_l", "hand_l"] "hand_l" ⟨0, 2, 0⟩ TwoLinkPose).coeff 0 0 = 0 ∧
     (SolveJacobianTranspose.DeltaRotation
        (FMath.mk Real.sqrt Real.arccos Real.sin Real.cos (1 / 100000000))
        (ArmMesh : UPoseableMeshComponent ℝ (FlatPose ℝ)) (fun _ _ => 0)
        ["upperarm_l", "lowerarm_l", "hand_l"] "hand_l" ⟨0, 2, 0⟩ TwoLinkPose).coeff 1 0 = 0 ∧
     (SolveJacobianTranspose.DeltaRotation
        (FMath.mk Real.sqrt Real.arccos Real.sin Real.cos (1 / 100000000))
        (ArmMesh : UPoseableMeshComponent ℝ (FlatPose ℝ)) (fun _ _ => 0)
        ["upperarm_l", "lowerarm_l", "hand_l"] "hand_l" ⟨0, 2, 0⟩ TwoLinkPose).coeff 2 0 = 0 ∧
     (SolveJacobianTranspose.DeltaRotation
        (FMath.mk Real.sqrt Real.arccos Real.sin Real.cos (1 / 100000000))
        (ArmMesh : UPoseableMeshComponent ℝ (FlatPose ℝ)) (fun _ _ => 0)
        ["upperarm_l", "lowerarm_l", "hand_l"] "hand_l" ⟨0, 2, 0⟩ TwoLinkPose).coeff 3 0
        = 2 / 3 ∧
     (SolveJacobianTranspose.DeltaRotation
        (FMath.mk Real.sqrt Real.arccos Real.sin Real.cos (1 / 100000000))
        (ArmMesh : UPoseableMeshComponent ℝ (FlatPose ℝ)) (fun _ _ => 0)
        ["upperarm_l", "lowerarm_l", "hand_l"] "hand_l" ⟨0, 2, 0⟩ TwoLinkPose).coeff 4 0 = 0 ∧
     (SolveJacobianTranspose.DeltaRotation
        (FMath.mk Real.sqrt Real.arccos Real.sin Real.cos (1 / 100000000))
        (ArmMesh : UPoseableMeshComponent ℝ (FlatPose ℝ)) (fun _ _ => 0)
        ["upperarm_l", "lowerarm_l", "hand_l"] "hand_l" ⟨0, 2, 0⟩ TwoLinkPose).coeff 5 0
        = -2 / 3) ∧
    (∃ t : FlatPose ℝ × List (FName × FQuat ℝ),
      SolveJacobianTranspose (FMath.mk Real.sqrt Real.arccos Real.sin Real.cos (1 / 100000000))
        (WithWriteLog ArmMesh) (fun _ _ => 0) 3 "hand_l" "upperarm_l" ⟨0, 2, 0⟩ (1 / 2)
        (TwoLinkPose, []) = some (Outcome.Solved t) ∧
      t.2 = [("lowerarm_l", FQuat.Identity), ("upperarm_l", FQuat.Identity)]) ∧
    (SolveJacobianPinv.ApplyStep
        (FMath.mk Real.sqrt Real.arccos Real.sin Real.cos (1 / 100000000))
        (WithWriteLog (ArmMesh : UPoseableMeshComponent ℝ (FlatPose ℝ)))
        ["upperarm_l", "lowerarm_l", "hand_l"]
        (SolveJacobianTranspose.DeltaRotation
          (FMath.mk Real.sqrt Real.arccos Real.sin Real.cos (1 / 100000000))
          (ArmMesh : UPoseableMeshComponent ℝ (FlatPose ℝ)) (fun _ _ => 0)
          ["upperarm_l", "lowerarm_l", "hand_l"] "hand_l" ⟨0, 2, 0⟩ TwoLinkPose)
        (TwoLinkPose, []) 1).2 = [("lowerarm_l", FQuat.Identity)] ∧
    FQuat.ofAxisAngle (FMath.mk Real.sqrt Real.arccos Real.sin Real.cos (1 / 100000000))
        (FVector.Normalize (FMath.mk Real.sqrt Real.arccos Real.sin Real.cos (1 / 100000000))
          (RotAxis (ArmMesh : UPoseableMeshComponent ℝ (FlatPose ℝ)) TwoLinkPose
            "lowerarm_l" EAxis.X))
        (2 / 3) ≠ FQuat.Identity := by
  have hE := RealMath_Exact (1 / 100000000)
  have hD := TwoLinkPose_DeltaRotation
  have hD0 := hD 0
  have hD1 := hD 1
  have hD2 := hD 2
  norm_num at hD0 hD1 hD2
  have hwalk : ChainWalk (WithWriteLog (ArmMesh : UPoseableMeshComponent ℝ (FlatPose ℝ)))
      "upperarm_l" 3 "hand_l" ["hand_l"]
      = some ("upperarm_l", ["upperarm_l", "lowerarm_l", "hand_l"]) := by
    simp [ChainWalk, WithWriteLog, ArmMesh, FlatMesh, ArmParent]
  have hD0log : (SolveJacobianTranspose.DeltaRotation
      (FMath.mk Real.sqrt Real.arccos Real.sin Real.cos (1 / 100000000))
      (WithWriteLog (ArmMesh : UPoseableMeshComponent ℝ (FlatPose ℝ))) (fun _ _ => 0)
      ["upperarm_l", "lowerarm_l", "hand_l"] "hand_l" ⟨0, 2, 0⟩
      ((TwoLinkPose : FlatPose ℝ), ([] : List (FName × FQuat ℝ)))).coeff 0 0 = 0 := hD0
  have hD1log : (SolveJacobianTranspose.DeltaRotation
      (FMath.mk Real.sqrt Real.arccos Real.sin Real.cos (1 / 100000000))
      (WithWriteLog (ArmMesh : UPoseableMeshComponent ℝ (FlatPose ℝ))) (fun _ _ => 0)
      ["upperarm_l", "lowerarm_l", "hand_l"] "hand_l" ⟨0, 2, 0⟩
      ((TwoLinkPose : FlatPose ℝ), ([] : List (FName × FQuat ℝ)))).coeff 1 0 = 0 := hD1
  have hD2log : (SolveJacobianTranspose.DeltaRotation
      (FMath.mk Real.sqrt Real.arccos Real.sin Real.cos (1 / 100000000))
      (WithWriteLog (ArmMesh : UPoseableMeshComponent ℝ (FlatPose ℝ))) (fun _ _ => 0)
      ["upperarm_l", "lowerarm_l", "hand_l"] "hand_l" ⟨0, 2, 0⟩
      ((TwoLinkPose : FlatPose ℝ), ([] : List (FName × FQuat ℝ)))).coeff 2 0 = 0 := hD2
  have hAB : SolveJacobianTranspose.AlphaBottom
      (FMath.mk Real.sqrt Real.arccos Real.sin Real.cos (1 / 100000000))
      (WithWriteLog (ArmMesh : UPoseableMeshComponent ℝ (FlatPose ℝ))) (fun _ _ => 0)
      ["upperarm_l", "lowerarm_l", "hand_l"] "hand_l" ⟨0, 2, 0⟩
      ((TwoLinkPose : FlatPose ℝ), ([] : List (FName × FQuat ℝ))) = 8 / 9 := by
    have hJ := TwoLinkPose_Jacobian
    have htip : (ArmMesh : UPoseableMeshComponent ℝ (FlatPose ℝ)).GetBoneLocationByName
        TwoLinkPose "hand_l" = ⟨0, 1, 0⟩ := by
      simp [ArmMesh, FlatMesh, TwoLinkPose]
    show SolveJacobianTranspose.AlphaBottom
      (FMath.mk Real.sqrt Real.arccos Real.sin Real.cos (1 / 100000000))
      (ArmMesh : UPoseableMeshComponent ℝ (FlatPose ℝ)) (fun _ _ => 0)
      ["upperarm_l", "lowerarm_l", "hand_l"] "hand_l" ⟨0, 2, 0⟩ TwoLinkPose = 8 / 9
    unfold SolveJacobianTranspose.AlphaBottom
    simp only [htip, hJ]
    simp [Finset.sum_range_succ, MatrixXf.dot, MatrixXf.setColumn, MatrixXf.ofFVector,
      FVector.Component]
    norm_num
  have hdist : (1 / 2 : ℝ) < FVector.Dist
      (FMath.mk Real.sqrt Real.arccos Real.sin Real.cos (1 / 100000000))
      ((WithWriteLog (ArmMesh : UPoseableMeshComponent ℝ (FlatPose ℝ))).GetBoneLocationByName
        ((TwoLinkPose : FlatPose ℝ), ([] : List (FName × FQuat ℝ))) "hand_l") ⟨0, 2, 0⟩ := by
    simp [WithWriteLog, ArmMesh, FlatMesh, TwoLinkPose, FVector.Dist, FVector.SizeSquared]
    norm_num
  have hnz : ¬ FMath.IsNearlyZero
      (FMath.mk Real.sqrt Real.arccos Real.sin Real.cos (1 / 100000000)) (8 / 9 : ℝ) := by
    unfold FMath.IsNearlyZero
    norm_num [abs_of_pos]
  refine ⟨⟨hD0, hD1, hD2, by rw [hD]; norm_num, by rw [hD]; norm_num,
    by rw [hD]; norm_num⟩, ?_, ?_, ?_⟩
  · refine ⟨SolveJacobianTranspose.Solve
      (FMath.mk Real.sqrt Real.arccos Real.sin Real.cos (1 / 100000000))
      (WithWriteLog ArmMesh) (fun _ _ => 0) ["upperarm_l", "lowerarm_l", "hand_l"] "hand_l"
      ⟨0, 2, 0⟩ (1 / 2) (TwoLinkPose, []), ?_, ?_⟩
    · unfold SolveJacobianTranspose
      rw [hwalk]
      simp
    · rw [SolveJacobianTranspose_Solve_eq, if_pos hdist, hAB, if_pos hnz]
      have hcomp := fun (st : FlatPose ℝ × List (FName × FQuat ℝ)) (b : FName) =>
        ComposeAxisRotations_zero_angles
          (FMath.mk Real.sqrt Real.arccos Real.sin Real.cos (1 / 100000000))
          Real.sin_zero Real.cos_zero
          (WithWriteLog (ArmMesh : UPoseableMeshComponent ℝ (FlatPose ℝ))) _ st b
          hD0log hD1log hD2log
      simp only [List.length_cons, List.length_nil, List.range_succ, List.range_zero,
        List.nil_append, List.cons_append, List.foldl_cons, List.foldl_nil,
        SolveJacobianTranspose.ApplyStep, hcomp]
      simp [WithWriteLog, ArmMesh, FlatMesh, TwoLinkPose]
  · have hcomp := fun (st : FlatPose ℝ × List (FName × FQuat ℝ)) (b : FName) =>
      ComposeAxisRotations_zero_angles
        (FMath.mk Real.sqrt Real.arccos Real.sin Real.cos (1 / 100000000))
        Real.sin_zero Real.cos_zero
        (WithWriteLog (ArmMesh : UPoseableMeshComponent ℝ (FlatPose ℝ))) _ st b hD0 hD1 hD2
    simp only [SolveJacobianPinv.ApplyStep, hcomp]
    have hid : (WithWriteLog (ArmMesh : UPoseableMeshComponent ℝ (FlatPose ℝ))).GetBoneQuaternion
        ((TwoLinkPose : FlatPose ℝ), ([] : List (FName × FQuat ℝ)))
        (["upperarm_l", "lowerarm_l", "hand_l"].getD 1 "None") = FQuat.Identity := rfl
    rw [hid, FQuat.Normalize_of_unit_quaternion hE _ (by simp [FQuat.Identity, FQuat.SizeSquared])]
    rfl
  · have hX1 : RotAxis (ArmMesh : UPoseableMeshComponent ℝ (FlatPose ℝ)) TwoLinkPose
        "lowerarm_l" EAxis.X = ⟨1 / 3, -2 / 3, -2 / 3⟩ := by
      simp [RotAxis, ArmMesh, FlatMesh, TwoLinkPose, FQuat.RotateVector, FQuat.Identity,
        EAxis.UnitVector, FVector.CrossProduct]
      norm_num
    rw [hX1, FVector.Normalize_of_unit hE _ (by norm_num [FVector.SizeSquared])]
    intro h
    have hx := congrArg FQuat.X h
    simp only [FQuat.ofAxisAngle, FQuat.Identity] at hx
    have hpos : 0 < Real.sin (1 / 2 * (2 / 3)) :=
      Real.sin_pos_of_pos_of_lt_pi (by norm_num) (by linarith [Real.pi_gt_three])
    have : Real.sin (1 / 2 * (2 / 3)) * (1 / 3) ≠ 0 := by positivity
    exact this hx

end PerJointStep

section DeltaQuaternion

/-- Sine and cosine of half the angle whose cosine is 3/5. -/
theorem half_arccos_three_fifths :
    Real.sin (1 / 2 * Real.arccos (3 / 5)) * Real.sin (1 / 2 * Real.arccos (3 / 5)) = 1 / 5 ∧
    Real.cos (1 / 2 * Real.arccos (3 / 5)) * Real.cos (1 / 2 * Real.arccos (3 / 5)) = 4 / 5 ∧
    Real.sin (1 / 2 * Real.arccos (3 / 5)) * Real.cos (1 / 2 * Real.arccos (3 / 5)) = 2 / 5 := by
  have hcos : Real.cos (Real.arccos (3 / 5)) = 3 / 5 :=
    Real.cos_arccos (by norm_num) (by norm_num)
  have hsin : Real.sin (Real.arccos (3 / 5)) = 4 / 5 := by
    rw [Real.sin_arccos]
    exact Real_sqrt_eq _ _ (by norm_num) (by norm_num)
  have h2 : 2 * (1 / 2 * Real.arccos (3 / 5)) = Real.arccos (3 / 5) := by ring
  have hc := Real.cos_two_mul (1 / 2 * Real.arccos (3 / 5))
  have hs := Real.sin_two_mul (1 / 2 * Real.arccos (3 / 5))
  have hsc := Real.sin_sq_add_cos_sq (1 / 2 * Real.arccos (3 / 5))
  rw [h2, hcos] at hc
  rw [h2, hsin] at hs
  refine ⟨?_, ?_, ?_⟩ <;> nlinarith

/-- The identity is a right unit of the quaternion product. -/
theorem FQuat.mul_Identity (Q : FQuat ℝ) : Q * FQuat.Identity = Q := by
  show FQuat.mul Q FQuat.Identity = Q
  ext <;> simp [FQuat.mul, FQuat.Identity]

/-- Rotating the X axis by a quaternion about Z. -/
theorem RotateVector_about_Z (z w : ℝ) :
    (FQuat.mk 0 0 z w).RotateVector ⟨1, 0, 0⟩ = ⟨1 - 2 * (z * z), 2 * (w * z), 0⟩ := by
  simp only [FQuat.RotateVector, FVector.CrossProduct]
  ext <;> simp <;> ring

/-- The quaternion that the CCD joint step and the FABRIK orientation step build
for the directions (1, 0, 0) and (3/5, 4/5, 0) and write after `Normalize`: it
turns the first direction to (21/29, 20/29, 0). -/
theorem written_delta_rotation :
    (FQuat.Normalize (FMath.mk Real.sqrt Real.arccos Real.sin Real.cos (1 / 100000000))
      (FQuat.ofAxisAngle (FMath.mk Real.sqrt Real.arccos Real.sin Real.cos (1 / 100000000))
          (FVector.CrossProduct ⟨1, 0, 0⟩ ⟨3 / 5, 4 / 5, 0⟩)
          (Real.arccos (FVector.DotProduct ⟨1, 0, 0⟩ ⟨3 / 5, 4 / 5, 0⟩))
        * FQuat.Identity)).RotateVector ⟨1, 0, 0⟩ = ⟨21 / 29, 20 / 29, 0⟩ ∧
    (FQuat.ofAxisAngle (FMath.mk Real.sqrt Real.arccos Real.sin Real.cos (1 / 100000000))
      (FVector.CrossProduct ⟨1, 0, 0⟩ ⟨3 / 5, 4 / 5, 0⟩)
      (Real.arccos (FVector.DotProduct ⟨1, 0, 0⟩ ⟨3 / 5, 4 / 5, 0⟩))).SizeSquared
      = 116 / 125 := by
  obtain ⟨hs, hc, hsc⟩ := half_arccos_three_fifths
  have hcross : FVector.CrossProduct (⟨1, 0, 0⟩ : FVector ℝ) ⟨3 / 5, 4 / 5, 0⟩
      = ⟨0, 0, 4 / 5⟩ := by
    simp [FVector.CrossProduct]
  have hdot : FVector.DotProduct (⟨1, 0, 0⟩ : FVector ℝ) ⟨3 / 5, 4 / 5, 0⟩ = 3 / 5 := by
    simp [FVector.DotProduct]
  have hsize : (FQuat.ofAxisAngle
      (FMath.mk Real.sqrt Real.arccos Real.sin Real.cos (1 / 100000000))
      (⟨0, 0, 4 / 5⟩ : FVector ℝ) (Real.arccos (3 / 5))).SizeSquared = 116 / 125 := by
    simp only [FQuat.ofAxisAngle, FQuat.SizeSquared]
    nlinarith
  rw [hcross, hdot, FQuat.mul_Identity]
  refine ⟨?_, hsize⟩
  have hN := Real.mul_self_sqrt (show (0 : ℝ) ≤ 116 / 125 by norm_num)
  have hNpos : 0 < Real.sqrt (116 / 125) := Real.sqrt_pos.2 (by norm_num)
  unfold FQuat.Normalize
  simp only [hsize, show (0 : ℝ) < 116 / 125 by norm_num, if_true]
  simp only [FQuat.ofAxisAngle, mul_zero, zero_mul]
  rw [RotateVector_about_Z]
  have hr : (1 / Real.sqrt (116 / 125)) * (1 / Real.sqrt (116 / 125)) = 125 / 116 := by
    rw [one_div, ← mul_inv, hN]
    norm_num
  have hssrr : Real.sin (1 / 2 * Real.arccos (3 / 5)) * Real.sin (1 / 2 * Real.arccos (3 / 5))
      * ((1 / Real.sqrt (116 / 125)) * (1 / Real.sqrt (116 / 125))) = 25 / 116 := by
    rw [hs, hr]; norm_num
  have hscrr : Real.sin (1 / 2 * Real.arccos (3 / 5)) * Real.cos (1 / 2 * Real.arccos (3 / 5))
      * ((1 / Real.sqrt (116 / 125)) * (1 / Real.sqrt (116 / 125))) = 25 / 58 := by
    rw [hsc, hr]; norm_num
  ext
  · show 1 - 2 * (_ * _) = 21 / 29
    linear_combination (-(32 / 25 : ℝ)) * hssrr
  · show 2 * (_ * _) = 20 / 29
    linear_combination (8 / 5 : ℝ) * hscrr
  · rfl

/-- C12 (defect of the code). Joint lowerarm_l at the origin, tip hand_l at
(2, 0, 0), target (3, 4, 0), identity orientations: the normalized vectors are
toTip = (1, 0, 0) and toTarget = (3/5, 4/5, 0). The delta quaternion
`FQuat(cross(toTip, toTarget), arccos(dot(toTip, toTarget)))` takes the cross
product as it is, of length 4/5: its squared norm is 116/125, it is not a unit
quaternion. The orientation that the CCD joint step writes after `Normalize`
turns toTip to (21/29, 20/29, 0), not onto toTarget. The FABRIK orientation
step for the original direction (1, 0, 0) and the new direction (3/5, 4/5, 0)
writes the same quaternion. -/
theorem delta_quaternion_axis_not_normalized :
    FVector.Normalize (FMath.mk Real.sqrt Real.arccos Real.sin Real.cos (1 / 100000000))
        ((ArmMesh : UPoseableMeshComponent ℝ (FlatPose ℝ)).GetBoneLocationByName
            StraightPose "hand_l"
          - (ArmMesh : UPoseableMeshComponent ℝ (FlatPose ℝ)).GetBoneLocationByName
            StraightPose "lowerarm_l") = ⟨1, 0, 0⟩ ∧
    FVector.Normalize (FMath.mk Real.sqrt Real.arccos Real.sin Real.cos (1 / 100000000))
        ((⟨3, 4, 0⟩ : FVector ℝ)
          - (ArmMesh : UPoseableMeshComponent ℝ (FlatPose ℝ)).GetBoneLocationByName
            StraightPose "lowerarm_l") = ⟨3 / 5, 4 / 5, 0⟩ ∧
    (FQuat.ofAxisAngle (FMath.mk Real.sqrt Real.arccos Real.sin Real.cos (1 / 100000000))
      (FVector.CrossProduct ⟨1, 0, 0⟩ ⟨3 / 5, 4 / 5, 0⟩)
      (Real.arccos (FVector.DotProduct ⟨1, 0, 0⟩ ⟨3 / 5, 4 / 5, 0⟩))).SizeSquared
      = 116 / 125 ∧
    (∃ Q : FQuat ℝ,
      (SolveCCD.JointStep (FMath.mk Real.sqrt Real.arccos Real.sin Real.cos (1 / 100000000))
        (WithWriteLog (ArmMesh : UPoseableMeshComponent ℝ (FlatPose ℝ))) "hand_l" ⟨3, 4, 0⟩
        (StraightPose, []) "lowerarm_l").2 = [("lowerarm_l", Q)] ∧
      (SolveFABRIK.OrientationStep
        (FMath.mk Real.sqrt Real.arccos Real.sin Real.cos (1 / 100000000))
        (WithWriteLog (ArmMesh : UPoseableMeshComponent ℝ (FlatPose ℝ)))
        ["lowerarm_l", "hand_l"] [⟨0, 0, 0⟩, ⟨2, 0, 0⟩] (ReachedPose, []) 0).2
        = [("lowerarm_l", Q)] ∧
      Q.RotateVector ⟨1, 0, 0⟩ = ⟨21 / 29, 20 / 29, 0⟩ ∧
      Q.RotateVector ⟨1, 0, 0⟩ ≠ ⟨3 / 5, 4 / 5, 0⟩) := by
  have h4 : Real.sqrt 4 = 2 := Real_sqrt_eq 4 2 (by norm_num) (by norm_num)
  have h25 : Real.sqrt 25 = 5 := Real_sqrt_eq 25 5 (by norm_num) (by norm_num)
  have hN1 : FVector.Normalize
      (FMath.mk Real.sqrt Real.arccos Real.sin Real.cos (1 / 100000000))
      (⟨2, 0, 0⟩ : FVector ℝ) = ⟨1, 0, 0⟩ := by
    simp [FVector.Normalize, FVector.SizeSquared, h4]
  have hN2 : FVector.Normalize
      (FMath.mk Real.sqrt Real.arccos Real.sin Real.cos (1 / 100000000))
      (⟨3, 4, 0⟩ : FVector ℝ) = ⟨3 / 5, 4 / 5, 0⟩ := by
    have : (3 : ℝ) * 3 + 4 * 4 = 25 := by norm_num
    simp [FVector.Normalize, FVector.SizeSquared, this, h25]
    norm_num
  have hl0 : (ArmMesh : UPoseableMeshComponent ℝ (FlatPose ℝ)).GetBoneLocationByName
      StraightPose "lowerarm_l" = ⟨0, 0, 0⟩ := by
    simp [ArmMesh, FlatMesh, StraightPose]
  have hl1 : (ArmMesh : UPoseableMeshComponent ℝ (FlatPose ℝ)).GetBoneLocationByName
      StraightPose "hand_l" = ⟨2, 0, 0⟩ := by
    simp [ArmMesh, FlatMesh, StraightPose]
  have hr0 : (ArmMesh : UPoseableMeshComponent ℝ (FlatPose ℝ)).GetBoneLocationByName
      ReachedPose "lowerarm_l" = ⟨0, 0, 0⟩ := by
    simp [ArmMesh, FlatMesh, ReachedPose]
  have hr1 : (ArmMesh : UPoseableMeshComponent ℝ (FlatPose ℝ)).GetBoneLocationByName
      ReachedPose "hand_l" = ⟨3, 4, 0⟩ := by
    simp [ArmMesh, FlatMesh, ReachedPose]
  have hzero2 : (⟨2, 0, 0⟩ : FVector ℝ) - ⟨0, 0, 0⟩ = ⟨2, 0, 0⟩ := by simp
  have hzero3 : (⟨3, 4, 0⟩ : FVector ℝ) - ⟨0, 0, 0⟩ = ⟨3, 4, 0⟩ := by simp
  obtain ⟨hrot, hsize⟩ := written_delta_rotation
  have hpos : (0 : ℝ) < (FVector.CrossProduct (⟨1, 0, 0⟩ : FVector ℝ)
      ⟨3 / 5, 4 / 5, 0⟩).SizeSquared := by
    simp [FVector.CrossProduct, FVector.SizeSquared]
  refine ⟨by rw [hl1, hl0, hzero2, hN1], by rw [hl0, hzero3, hN2], hsize, _, ?_, ?_, hrot, ?_⟩
  · unfold SolveCCD.JointStep
    simp only []
    have e1 : (WithWriteLog (ArmMesh : UPoseableMeshComponent ℝ (FlatPose ℝ))).GetBoneLocationByName
        ((StraightPose : FlatPose ℝ), ([] : List (FName × FQuat ℝ))) "hand_l" = ⟨2, 0, 0⟩ := hl1
    have e0 : (WithWriteLog (ArmMesh : UPoseableMeshComponent ℝ (FlatPose ℝ))).GetBoneLocationByName
        ((StraightPose : FlatPose ℝ), ([] : List (FName × FQuat ℝ))) "lowerarm_l"
        = ⟨0, 0, 0⟩ := hl0
    rw [e1, e0, hzero2, hzero3, hN1, hN2, if_pos hpos]
    rfl
  · unfold SolveFABRIK.OrientationStep
    simp only [List.getD_cons_zero, List.getD_cons_succ, zero_add]
    have e1 : (WithWriteLog (ArmMesh : UPoseableMeshComponent ℝ (FlatPose ℝ))).GetBoneLocationByName
        ((ReachedPose : FlatPose ℝ), ([] : List (FName × FQuat ℝ))) "hand_l" = ⟨3, 4, 0⟩ := hr1
    have e0 : (WithWriteLog (ArmMesh : UPoseableMeshComponent ℝ (FlatPose ℝ))).GetBoneLocationByName
        ((ReachedPose : FlatPose ℝ), ([] : List (FName × FQuat ℝ))) "lowerarm_l"
        = ⟨0, 0, 0⟩ := hr0
    rw [e1, e0, hzero2, hzero3, hN1, hN2, if_pos hpos]
    rfl
  · rw [hrot]
    intro h
    have hx := congrArg FVector.X h
    norm_num at hx

end DeltaQuaternion

section Singular

variable {K : Type} [LinearOrderedField K] {S : Type}

/-- The determinant of `transpose(J) * J` as a determinant of a product of
matrices over finite index types. -/
theorem MatrixXf.det_gram (r m : Nat) (f : Nat → Nat → K) :
    MatrixXf.det ((MatrixXf.mk r m f).transpose * MatrixXf.mk r m f)
      = Matrix.det ((Matrix.of fun (i : Fin m) (k : Fin r) => f k i)
          * (Matrix.of fun (k : Fin r) (j : Fin m) => f k j)) := by
  show Matrix.det (Matrix.of fun (i j : Fin m) =>
      ((MatrixXf.mk r m f).transpose * MatrixXf.mk r m f).coeff i j) = _
  congr 1
  ext i j
  simp [Matrix.mul_apply, Finset.sum_range]

/-- The product of an `m` by `r` and an `r` by `m` matrix is singular for
`r < m`. -/
theorem det_mul_eq_zero_of_lt (r m : Nat) (h : r < m) (A : Matrix (Fin m) (Fin r) K)
    (B : Matrix (Fin r) (Fin m) K) : Matrix.det (A * B) = 0 := by
  by_contra hdet
  have hunit : IsUnit (A * B) := by
    rw [Matrix.isUnit_iff_isUnit_det]
    exact isUnit_iff_ne_zero.2 hdet
  have h1 := Matrix.rank_of_isUnit (A * B) hunit
  have h2 := Matrix.rank_mul_le_left A B
  have h3 := Matrix.rank_le_width A
  simp at h1
  omega

/-- A cross product with `d` is orthogonal to `d`. -/
theorem DotProduct_CrossProduct (a d : FVector K) :
    FVector.DotProduct d (FVector.CrossProduct a d) = 0 := by
  simp only [FVector.DotProduct, FVector.CrossProduct]
  ring

/-- Normalizing keeps a vector orthogonal to `d`. -/
theorem DotProduct_Normalize (M : FMath K) (d V : FVector K)
    (h : FVector.DotProduct d V = 0) : FVector.DotProduct d (FVector.Normalize M V) = 0 := by
  simp only [FVector.DotProduct] at h
  unfold FVector.Normalize
  simp only []
  split
  · simp only [FVector.DotProduct]
    linear_combination (1 / M.Sqrt V.SizeSquared) * h
  · exact h

/-- Assigning a column orthogonal to `d` keeps the columns orthogonal to `d`. -/
theorem ColumnsOrthogonalTo_step (J : MatrixXf K) (d V : FVector K) (c : Nat)
    (p q : Prop) [Decidable p] [Decidable q] (hJ : J.ColumnsOrthogonalTo d)
    (hV : FVector.DotProduct d V = 0) :
    (if p then (if q then J.setColumn c V else J) else J).ColumnsOrthogonalTo d := by
  split
  · split
    · intro c1
      simp only [FVector.DotProduct] at hV
      by_cases hc : c1 = c
      · simp [MatrixXf.setColumn, FVector.Component, hc, hV]
      · simpa [MatrixXf.setColumn, hc] using hJ c1
    · exact hJ
  · exact hJ

/-- The columns that `JacobianColumns` assigns for a joint are orthogonal to the
vector from the joint to the tip. -/
theorem JacobianColumns_orthogonal (M : FMath K) (mesh : UPoseableMeshComponent K S)
    (BoneNames : List FName) (TipLocation : FVector K) (s : S) (J : MatrixXf K) (i : Nat)
    (hJ : J.ColumnsOrthogonalTo
      (TipLocation - mesh.GetBoneLocationByName s (BoneNames.getD i "None"))) :
    (JacobianColumns M mesh BoneNames TipLocation s J i).ColumnsOrthogonalTo
      (TipLocation - mesh.GetBoneLocationByName s (BoneNames.getD i "None")) := by
  unfold JacobianColumns
  simp only []
  apply ColumnsOrthogonalTo_step
  · apply ColumnsOrthogonalTo_step
    · apply ColumnsOrthogonalTo_step
      · exact hJ
      · exact DotProduct_CrossProduct _ _
    · exact DotProduct_Normalize M _ _ (DotProduct_CrossProduct _ _)
  · exact DotProduct_CrossProduct _ _

/-- The loop body keeps the size of the matrix. -/
theorem JacobianColumns_shape (M : FMath K) (mesh : UPoseableMeshComponent K S)
    (BoneNames : List FName) (TipLocation : FVector K) (s : S) (J : MatrixXf K) (i : Nat) :
    (JacobianColumns M mesh BoneNames TipLocation s J i).rows = J.rows ∧
    (JacobianColumns M mesh BoneNames TipLocation s J i).cols = J.cols := by
  unfold JacobianColumns
  simp only []
  split_ifs <;> exact ⟨rfl, rfl⟩

/-- The Jacobian has 3 rows and `NumOfLinks * 3` columns. -/
theorem BuildJacobian_shape (M : FMath K) (mesh : UPoseableMeshComponent K S)
    (Uninitialized : Nat → Nat → K) (BoneNames : List FName) (TipLocation : FVector K)
    (s : S) :
    (BuildJacobian M mesh Uninitialized BoneNames TipLocation s).rows = 3 ∧
    (BuildJacobian M mesh Uninitialized BoneNames TipLocation s).cols
      = (BoneNames.length - 1) * 3 := by
  unfold BuildJacobian
  simp only []
  exact foldl_preserves
    (fun J : MatrixXf K => J.rows = 3 ∧ J.cols = (BoneNames.length - 1) * 3) _
    (fun J i hJ => by
      obtain ⟨h1, h2⟩ := JacobianColumns_shape M mesh BoneNames TipLocation s J i
      exact ⟨h1.trans hJ.1, h2.trans hJ.2⟩) _ _ ⟨rfl, rfl⟩

/-- With the tip on the joint every cross product vanishes and the loop body
assigns nothing. -/
theorem JacobianColumns_tip_on_joint (M : FMath K) (mesh : UPoseableMeshComponent K S)
    (BoneNames : List FName) (TipLocation : FVector K) (s : S) (J : MatrixXf K) (i : Nat)
    (hd : TipLocation - mesh.GetBoneLocationByName s (BoneNames.getD i "None") = ⟨0, 0, 0⟩) :
    JacobianColumns M mesh BoneNames TipLocation s J i = J := by
  have hc : ∀ a : FVector K, (FVector.CrossProduct a
      (TipLocation - mesh.GetBoneLocationByName s (BoneNames.getD i "None"))).SizeSquared
        = 0 := by
    intro a
    rw [hd]
    simp [FVector.CrossProduct, FVector.SizeSquared]
  unfold JacobianColumns
  simp only [hc, lt_irrefl, if_false, ite_self]

/-- A 3 x 3 matrix whose columns are orthogonal to a nonzero vector has a Gram
matrix of determinant 0. -/
theorem MatrixXf.det_gram_three (f : Nat → Nat → K) (d : FVector K)
    (hd : ¬ (d.X = 0 ∧ d.Y = 0 ∧ d.Z = 0))
    (h : (MatrixXf.mk 3 3 f).ColumnsOrthogonalTo d) :
    MatrixXf.det ((MatrixXf.mk 3 3 f).transpose * MatrixXf.mk 3 3 f) = 0 := by
  rw [MatrixXf.det_gram, Matrix.det_mul]
  have hB : Matrix.det (Matrix.of fun (k : Fin 3) (j : Fin 3) => f k j) = 0 := by
    rw [← Matrix.exists_vecMul_eq_zero_iff]
    refine ⟨![d.X, d.Y, d.Z], ?_, ?_⟩
    · intro h0
      apply hd
      have h1 := congrFun h0 0
      have h2 := congrFun h0 1
      have h3 := congrFun h0 2
      simp at h1 h2 h3
      exact ⟨h1, h2, h3⟩
    · funext j
      have hj := h j
      simp only [MatrixXf.ColumnsOrthogonalTo] at hj
      simp [Matrix.vecMul, Matrix.dotProduct, Fin.sum_univ_three]
      linear_combination hj
  rw [hB, mul_zero]

/-- The Gram matrix of the zero matrix has determinant 0. -/
theorem MatrixXf.det_gram_zero :
    MatrixXf.det ((MatrixXf.mk 3 3 (fun _ _ => (0 : K))).transpose
      * MatrixXf.mk 3 3 (fun _ _ => (0 : K))) = 0 := by
  rw [MatrixXf.det_gram, Matrix.det_mul]
  have hB : Matrix.det (Matrix.of fun (_ : Fin 3) (_ : Fin 3) => (0 : K)) = 0 := by
    simp [Matrix.det_fin_three]
  rw [hB, mul_zero]

/-- A square matrix of determinant 0 has no left inverse and no right inverse. -/
theorem MatrixXf.not_inverse_of_det_zero (A B : MatrixXf K) (hdet : A.det = 0)
    (hA : A.cols = A.rows) (hB : B.cols = A.rows) :
    (¬ ∀ i j, i < A.rows → j < A.rows → (B * A).coeff i j = if i = j then 1 else 0) ∧
    (¬ ∀ i j, i < A.rows → j < A.rows → (A * B).coeff i j = if i = j then 1 else 0) := by
  unfold MatrixXf.det at hdet
  constructor
  · intro h
    have hmul : (Matrix.of fun (i k : Fin A.rows) => B.coeff i k)
        * (Matrix.of fun (k j : Fin A.rows) => A.coeff k j) = 1 := by
      ext i j
      have hij := h i j i.2 j.2
      rw [MatrixXf.mul_coeff, hB, Finset.sum_range] at hij
      simp only [Matrix.mul_apply, Matrix.of_apply, Matrix.one_apply, Fin.ext_iff]
      exact hij
    have hd := congrArg Matrix.det hmul
    rw [Matrix.det_mul, hdet, mul_zero, Matrix.det_one] at hd
    exact zero_ne_one hd
  · intro h
    have hmul : (Matrix.of fun (k j : Fin A.rows) => A.coeff k j)
        * (Matrix.of fun (i k : Fin A.rows) => B.coeff i k) = 1 := by
      ext i j
      have hij := h i j i.2 j.2
      rw [MatrixXf.mul_coeff, hA, Finset.sum_range] at hij
      simp only [Matrix.mul_apply, Matrix.of_apply, Matrix.one_apply, Fin.ext_iff]
      exact hij
    have hd := congrArg Matrix.det hmul
    rw [Matrix.det_mul, hdet, zero_mul, Matrix.det_one] at hd
    exact zero_ne_one hd

/-- The solving code of `SolveJacobianPinv` in terms of its `JacobianSquare`. -/
theorem SolveJacobianPinv_Solve_eq (M : FMath K) (mesh : UPoseableMeshComponent K S)
    (Uninitialized : Nat → Nat → K) (inverse : MatrixXf K → MatrixXf K)
    (BoneNames : List FName) (Tip : FName) (TargetLocation : FVector K) (Precision : K)
    (s : S) :
    SolveJacobianPinv.Solve M mesh Uninitialized inverse BoneNames Tip TargetLocation
        Precision s
      = if Precision < FVector.Dist M (mesh.GetBoneLocationByName s Tip) TargetLocation then
          (List.range (BoneNames.length - 1)).foldl
            (SolveJacobianPinv.ApplyStep M mesh BoneNames
              ((inverse (SolveJacobianPinv.JacobianSquare M mesh Uninitialized BoneNames
                    Tip s)
                  * (BuildJacobian M mesh Uninitialized BoneNames
                      (mesh.GetBoneLocationByName s Tip) s).transpose)
                * (MatrixXf.ofFVector TargetLocation
                    - MatrixXf.ofFVector (mesh.GetBoneLocationByName s Tip)))) s
        else s := rfl

/-- The Gram matrix of the Jacobian of a chain with at least one link, built
over cleared storage, has determinant 0. -/
theorem BuildJacobian_gram_det (M : FMath K) (mesh : UPoseableMeshComponent K S)
    (BoneNames : List FName) (TipLocation : FVector K) (s : S)
    (hlen : 2 ≤ BoneNames.length) :
    MatrixXf.det
      ((BuildJacobian M mesh (fun _ _ => 0) BoneNames TipLocation s).transpose
        * BuildJacobian M mesh (fun _ _ => 0) BoneNames TipLocation s) = 0 := by
  rcases Nat.lt_or_ge 2 BoneNames.length with h3 | h2
  · have hshape := BuildJacobian_shape M mesh (fun _ _ => 0) BoneNames TipLocation s
    generalize BuildJacobian M mesh (fun _ _ => 0) BoneNames TipLocation s = J at hshape
    obtain ⟨r, c, f⟩ := J
    simp only at hshape
    obtain ⟨rfl, rfl⟩ := hshape
    rw [MatrixXf.det_gram]
    exact det_mul_eq_zero_of_lt 3 _ (by omega) _ _
  · have hlen2 : BoneNames.length = 2 := by omega
    have hJ : BuildJacobian M mesh (fun _ _ => 0) BoneNames TipLocation s
        = JacobianColumns M mesh BoneNames TipLocation s ⟨3, 3, fun _ _ => 0⟩ 0 := by
      unfold BuildJacobian
      simp only [hlen2]
      rfl
    rw [hJ]
    by_cases hd : (TipLocation - mesh.GetBoneLocationByName s (BoneNames.getD 0 "None")).X = 0
        ∧ (TipLocation - mesh.GetBoneLocationByName s (BoneNames.getD 0 "None")).Y = 0
        ∧ (TipLocation - mesh.GetBoneLocationByName s (BoneNames.getD 0 "None")).Z = 0
    · have hd0 : TipLocation - mesh.GetBoneLocationByName s (BoneNames.getD 0 "None")
          = ⟨0, 0, 0⟩ := by
        obtain ⟨hx, hy, hz⟩ := hd
        generalize TipLocation - mesh.GetBoneLocationByName s (BoneNames.getD 0 "None") = d
          at hx hy hz
        obtain ⟨x, y, z⟩ := d
        simp only at hx hy hz
        rw [hx, hy, hz]
      rw [JacobianColumns_tip_on_joint M mesh BoneNames TipLocation s _ 0 hd0]
      exact MatrixXf.det_gram_zero
    · have horth := JacobianColumns_orthogonal M mesh BoneNames TipLocation s
        ⟨3, 3, fun _ _ => 0⟩ 0 (by intro c; simp)
      have hsh := JacobianColumns_shape M mesh BoneNames TipLocation s
        ⟨3, 3, fun _ _ => 0⟩ 0
      generalize JacobianColumns M mesh BoneNames TipLocation s ⟨3, 3, fun _ _ => 0⟩ 0 = J
        at horth hsh
      obtain ⟨r, c, f⟩ := J
      simp only at hsh
      obtain ⟨rfl, rfl⟩ := hsh
      exact MatrixXf.det_gram_three f _ hd horth

/-- C13. The matrix that `SolveJacobianPinv` inverts is singular: for every chain
with at least one link (two or more bone names), every pose and every tip bone,
with the Jacobian built over cleared storage (columns the loop does not assign
are zero), `JacobianSquare = JacobianMat.transpose() * JacobianMat` is a square
matrix of size `NumOfLinks * 3` with determinant 0, and whatever matrix of that
size `inverse()` returns is neither a left nor a right inverse of it. -/
theorem jacobian_square_singular (M : FMath K) (mesh : UPoseableMeshComponent K S)
    (BoneNames : List FName) (TipBoneName : FName) (s : S)
    (hlen : 2 ≤ BoneNames.length) :
    (SolveJacobianPinv.JacobianSquare M mesh (fun _ _ => 0) BoneNames TipBoneName s).rows
        = (BoneNames.length - 1) * 3 ∧
    (SolveJacobianPinv.JacobianSquare M mesh (fun _ _ => 0) BoneNames TipBoneName s).cols
        = (BoneNames.length - 1) * 3 ∧
    MatrixXf.det
      (SolveJacobianPinv.JacobianSquare M mesh (fun _ _ => 0) BoneNames TipBoneName s) = 0 ∧
    ∀ inverse : MatrixXf K → MatrixXf K,
      (inverse (SolveJacobianPinv.JacobianSquare M mesh (fun _ _ => 0) BoneNames
          TipBoneName s)).cols = (BoneNames.length - 1) * 3 →
      (¬ ∀ i j, i < (BoneNames.length - 1) * 3 → j < (BoneNames.length - 1) * 3 →
          (inverse (SolveJacobianPinv.JacobianSquare M mesh (fun _ _ => 0) BoneNames
              TipBoneName s)
            * SolveJacobianPinv.JacobianSquare M mesh (fun _ _ => 0) BoneNames
              TipBoneName s).coeff i j = if i = j then 1 else 0) ∧
      (¬ ∀ i j, i < (BoneNames.length - 1) * 3 → j < (BoneNames.length - 1) * 3 →
          (SolveJacobianPinv.JacobianSquare M mesh (fun _ _ => 0) BoneNames TipBoneName s
            * inverse (SolveJacobianPinv.JacobianSquare M mesh (fun _ _ => 0) BoneNames
              TipBoneName s)).coeff i j = if i = j then 1 else 0) := by
  have hshape := BuildJacobian_shape M mesh (fun _ _ => 0) BoneNames
    (mesh.GetBoneLocationByName s TipBoneName) s
  have hrows : (SolveJacobianPinv.JacobianSquare M mesh (fun _ _ => 0) BoneNames
      TipBoneName s).rows = (BoneNames.length - 1) * 3 := by
    simp only [SolveJacobianPinv.JacobianSquare, MatrixXf.mul_rows, MatrixXf.transpose_rows]
    exact hshape.2
  have hcols : (SolveJacobianPinv.JacobianSquare M mesh (fun _ _ => 0) BoneNames
      TipBoneName s).cols = (BoneNames.length - 1) * 3 := by
    simp only [SolveJacobianPinv.JacobianSquare, MatrixXf.mul_cols]
    exact hshape.2
  have hdet : MatrixXf.det (SolveJacobianPinv.JacobianSquare M mesh (fun _ _ => 0)
      BoneNames TipBoneName s) = 0 :=
    BuildJacobian_gram_det M mesh BoneNames (mesh.GetBoneLocationByName s TipBoneName) s hlen
  refine ⟨hrows, hcols, hdet, ?_⟩
  intro inverse hinv
  have key := MatrixXf.not_inverse_of_det_zero
    (SolveJacobianPinv.JacobianSquare M mesh (fun _ _ => 0) BoneNames TipBoneName s)
    (inverse (SolveJacobianPinv.JacobianSquare M mesh (fun _ _ => 0) BoneNames
      TipBoneName s)) hdet (hcols.trans hrows.symm) (hinv.trans hrows.symm)
  rw [hrows] at key
  exact key

/-- The singular matrix on a one-link chain: forearm at the origin, hand at
(2, 0, 0). -/
theorem jacobian_square_singular_witness :
    2 ≤ ["lowerarm_l", "hand_l"].length ∧
    MatrixXf.det
      (SolveJacobianPinv.JacobianSquare
        (FMath.mk Real.sqrt Real.arccos Real.sin Real.cos (1 / 100000000))
        (ArmMesh : UPoseableMeshComponent ℝ (FlatPose ℝ)) (fun _ _ => 0)
        ["lowerarm_l", "hand_l"] "hand_l" StraightPose) = 0 :=
  ⟨by decide, (jacobian_square_singular
    (FMath.mk Real.sqrt Real.arccos Real.sin Real.cos (1 / 100000000))
    (ArmMesh : UPoseableMeshComponent ℝ (FlatPose ℝ))
    ["lowerarm_l", "hand_l"] "hand_l" StraightPose (by decide)).2.2.1⟩

end Singular

section CarryStore

variable {K : Type} [LinearOrderedField K]

/-- The rotation that a quaternion stands for keeps lengths. -/
theorem FQuat.Rotation_SizeSquared (Q : FQuat K) (V : FVector K) :
    (Q.Rotation V).SizeSquared = V.SizeSquared := by
  have h : (2 / Q.SizeSquared) * Q.SizeSquared = 2 ∨ 2 / Q.SizeSquared = 0 := by
    by_cases hn : Q.SizeSquared = 0
    · right; rw [hn, div_zero]
    · left; exact div_mul_cancel₀ _ hn
  unfold FQuat.Rotation
  generalize 2 / Q.SizeSquared = a at h ⊢
  obtain ⟨x, y, z, w⟩ := Q
  obtain ⟨vx, vy, vz⟩ := V
  simp only [FQuat.SizeSquared, FVector.SizeSquared, FVector.CrossProduct, FVector.add_mk,
    FVector.smul_mk] at h ⊢
  rcases h with h | h
  · linear_combination
      (a * ((y * vz - z * vy) ^ 2 + (z * vx - x * vz) ^ 2 + (x * vy - y * vx) ^ 2)) * h
  · rw [h]; ring

/-- The rotation that a quaternion stands for is linear. -/
theorem FQuat.Rotation_sub (Q : FQuat K) (U V : FVector K) :
    Q.Rotation U - Q.Rotation V = Q.Rotation (U - V) := by
  unfold FQuat.Rotation
  generalize 2 / Q.SizeSquared = a
  obtain ⟨x, y, z, w⟩ := Q
  obtain ⟨ux, uy, uz⟩ := U
  obtain ⟨vx, vy, vz⟩ := V
  simp only [FVector.CrossProduct, FVector.add_mk, FVector.smul_mk, FVector.sub_mk]
  ext <;> simp only [] <;> ring

/-- No bone of the left arm has hand_l above it. -/
theorem ArmParent_iterate_hand (n : Nat) (b : FName) (h : ArmParent^[n] b = "hand_l") :
    b = "hand_l" := by
  induction n with
  | zero => exact h
  | succ n _ =>
    rw [Function.iterate_succ_apply'] at h
    unfold ArmParent at h
    split_ifs at h <;> exact absurd h (by decide)

/-- The only bone of the left arm with lowerarm_l above it is hand_l. -/
theorem ArmParent_iterate_lowerarm (n : Nat) (b : FName)
    (h : ArmParent^[n] b = "lowerarm_l") : b = "lowerarm_l" ∨ b = "hand_l" := by
  cases n with
  | zero => left; exact h
  | succ n =>
    rw [Function.iterate_succ_apply'] at h
    unfold ArmParent at h
    split_ifs at h with h1 h2
    · right; exact ArmParent_iterate_hand n b h1
    · exact absurd h (by decide)
    · exact absurd h (by decide)

/-- The bones below a bone of the left arm. -/
theorem IsBelow_ArmParent (c b : FName) :
    IsBelow ArmParent 2 c b = true ↔
      (c = "hand_l" ∧ (b = "lowerarm_l" ∨ b = "upperarm_l"))
        ∨ (c = "lowerarm_l" ∧ b = "upperarm_l") := by
  by_cases h1 : c = "hand_l"
  · subst h1
    by_cases h2 : b = "lowerarm_l"
    · subst h2; simp [IsBelow, ArmParent]
    · by_cases h3 : b = "upperarm_l"
      · subst h3; simp [IsBelow, ArmParent]
      · simp [IsBelow, ArmParent, h2, h3, Ne.symm h2, Ne.symm h3]
  · by_cases h4 : c = "lowerarm_l"
    · subst h4
      by_cases h3 : b = "upperarm_l"
      · subst h3; simp [IsBelow, ArmParent]
      · simp [IsBelow, ArmParent, h3, Ne.symm h3]
    · simp [IsBelow, ArmParent, h1, h4]

theorem FVector.add_sub_cancel_left (A V : FVector K) : A + V - A = V := by
  ext <;> simp

theorem FVector.add_sub_add_left (A U V : FVector K) : A + U - (A + V) = U - V := by
  ext <;> simp

/-- The left arm whose bones carry the bones below them is a store of rigid
segments. -/
theorem ArmRig_SegmentStore :
    SegmentStore (ArmRig : UPoseableMeshComponent K (FlatPose K)) where
  get_set_same := fun s b v => by simp [ArmRig, CarryMesh]
  set_location_above := fun s b v n h => by
    have h1 : ArmParent^[n] b ≠ b := h
    have hb : ¬ (IsBelow ArmParent 2 (ArmParent^[n] b) b = true) := by
      rw [IsBelow_ArmParent]
      rintro (⟨hc, _⟩ | ⟨hc, hb⟩)
      · exact h1 (hc.trans (ArmParent_iterate_hand n b hc).symm)
      · rcases ArmParent_iterate_lowerarm n b hc with e | e
        · exact h1 (hc.trans e.symm)
        · rw [e] at hb; exact absurd hb (by decide)
    show (if ArmParent^[n] b = b then v
      else if IsBelow ArmParent 2 (ArmParent^[n] b) b = true then
        s.Location (ArmParent^[n] b) + (v - s.Location b)
      else s.Location (ArmParent^[n] b)) = s.Location (ArmParent^[n] b)
    rw [if_neg h1, if_neg hb]
  set_rotation_segment := fun s b q c => by
    show ((if IsBelow ArmParent 2 c b = true then
          s.Location b + (q * (s.Rotation b).Inverse).Rotation (s.Location c - s.Location b)
        else s.Location c)
      - (if IsBelow ArmParent 2 (ArmParent c) b = true then
          s.Location b
            + (q * (s.Rotation b).Inverse).Rotation (s.Location (ArmParent c) - s.Location b)
        else s.Location (ArmParent c))).SizeSquared
      = (s.Location c - s.Location (ArmParent c)).SizeSquared
    by_cases hcb : IsBelow ArmParent 2 c b = true
    · rw [if_pos hcb]
      rcases (IsBelow_ArmParent c b).1 hcb with ⟨hc, hb | hb⟩ | ⟨hc, hb⟩
      · subst hc; subst hb
        have hp : ArmParent "hand_l" = "lowerarm_l" := by decide
        have hn : ¬ (IsBelow ArmParent 2 "lowerarm_l" "lowerarm_l" = true) := by
          rw [IsBelow_ArmParent]; decide
        rw [hp, if_neg hn, FVector.add_sub_cancel_left, FQuat.Rotation_SizeSquared]
      · subst hc; subst hb
        have hp : ArmParent "hand_l" = "lowerarm_l" := by decide
        have hn : IsBelow ArmParent 2 "lowerarm_l" "upperarm_l" = true := by
          rw [IsBelow_ArmParent]; decide
        rw [hp, if_pos hn, FVector.add_sub_add_left, FQuat.Rotation_sub,
          FQuat.Rotation_SizeSquared]
        congr 1
        ext <;> simp
      · subst hc; subst hb
        have hp : ArmParent "lowerarm_l" = "upperarm_l" := by decide
        have hn : ¬ (IsBelow ArmParent 2 "upperarm_l" "upperarm_l" = true) := by
          rw [IsBelow_ArmParent]; decide
        rw [hp, if_neg hn, FVector.add_sub_cancel_left, FQuat.Rotation_SizeSquared]
    · have hpb : ¬ (IsBelow ArmParent 2 (ArmParent c) b = true) := by
        rw [IsBelow_ArmParent]
        rintro (⟨hc, _⟩ | ⟨hc, hb⟩)
        · unfold ArmParent at hc
          split_ifs at hc <;> exact absurd hc (by decide)
        · apply hcb
          rw [IsBelow_ArmParent]
          left
          refine ⟨?_, Or.inr hb⟩
          unfold ArmParent at hc
          split_ifs at hc with h1 h2
          · exact h1
          · exact absurd hc (by decide)
          · exact absurd hc (by decide)
      rw [if_neg hcb, if_neg hpb]

end CarryStore

section CarryArm

/-- The walk of the arm chain over the carrying skeleton. -/
theorem ArmRig_arm_walk :
    ChainWalk (ArmRig : UPoseableMeshComponent ℝ (FlatPose ℝ)) "upperarm_l" 3
      "hand_l" ["hand_l"] = some ("upperarm_l", ["upperarm_l", "lowerarm_l", "hand_l"]) := by
  simp [ChainWalk, ArmRig, CarryMesh, ArmParent]

/-- The walk of the forearm chain over the carrying skeleton. -/
theorem ArmRig_forearm_walk :
    ChainWalk (ArmRig : UPoseableMeshComponent ℝ (FlatPose ℝ)) "lowerarm_l" 2
      "hand_l" ["hand_l"] = some ("lowerarm_l", ["lowerarm_l", "hand_l"]) := by
  simp [ChainWalk, ArmRig, CarryMesh, ArmParent]

/-- The unreachable branch on the upright arm with the target at (20, 0, 0):
lowerarm_l is written to (5, 0, 0), then hand_l to (10, 0, 0). -/
theorem UprightPose_Reposition :
    SolveFABRIK.Reposition (FMath.mk Real.sqrt Real.arccos Real.sin Real.cos (1 / 100000000))
        ArmRig ["upperarm_l", "lowerarm_l", "hand_l"] "hand_l" "upperarm_l" ⟨20, 0, 0⟩ 1 10
        (UprightPose : FlatPose ℝ)
      = some (ArmRig.SetBoneLocationByName
          (ArmRig.SetBoneLocationByName UprightPose "lowerarm_l" ⟨5, 0, 0⟩)
          "hand_l" ⟨10, 0, 0⟩) := by
  have h25 : Real.sqrt 25 = 5 := Real_sqrt_eq 25 5 (by norm_num) (by norm_num)
  have h400 : Real.sqrt 400 = 20 := Real_sqrt_eq 400 20 (by norm_num) (by norm_num)
  have h225 : Real.sqrt 225 = 15 := Real_sqrt_eq 225 15 (by norm_num) (by norm_num)
  simp [SolveFABRIK.Reposition, SolveFABRIK.BoneLengths, SolveFABRIK.BoneLengthSum,
    SolveFABRIK.Stretch, SolveFABRIK.StretchStep, ArmRig, CarryMesh, UprightPose,
    IsBelow, ArmParent, FVector.Dist, FVector.SizeSquared, List.range_succ]
  norm_num [h25, h400, h225]

/-- The orientation that the FABRIK orientation step writes to a bone with the
identity orientation for the original direction (0, 1, 0) and the new
direction (1, 0, 0): the quarter turn about -Z. The two directions are
perpendicular, the axis given to `FQuat` has length one. -/
theorem QuarterTurn_written :
    FQuat.Normalize (FMath.mk Real.sqrt Real.arccos Real.sin Real.cos (1 / 100000000))
      (FQuat.ofAxisAngle (FMath.mk Real.sqrt Real.arccos Real.sin Real.cos (1 / 100000000))
          (FVector.CrossProduct ⟨0, 1, 0⟩ ⟨1, 0, 0⟩)
          (Real.arccos (FVector.DotProduct ⟨0, 1, 0⟩ ⟨1, 0, 0⟩))
        * FQuat.Identity)
      = ⟨0, 0, -(Real.sqrt 2 / 2), Real.sqrt 2 / 2⟩ := by
  have hcross : FVector.CrossProduct (⟨0, 1, 0⟩ : FVector ℝ) ⟨1, 0, 0⟩ = ⟨0, 0, -1⟩ := by
    simp [FVector.CrossProduct]
  have hdot : FVector.DotProduct (⟨0, 1, 0⟩ : FVector ℝ) ⟨1, 0, 0⟩ = 0 := by
    simp [FVector.DotProduct]
  have hhalf : (1 / 2 : ℝ) * (Real.pi / 2) = Real.pi / 4 := by ring
  have h2 : Real.sqrt 2 * Real.sqrt 2 = 2 := Real.mul_self_sqrt (by norm_num)
  have h1 : Real.sqrt 1 = 1 := Real.sqrt_one
  rw [hcross, hdot, FQuat.mul_Identity, Real.arccos_zero]
  have hq : FQuat.ofAxisAngle
      (FMath.mk Real.sqrt Real.arccos Real.sin Real.cos (1 / 100000000))
      (⟨0, 0, -1⟩ : FVector ℝ) (Real.pi / 2)
      = ⟨0, 0, -(Real.sqrt 2 / 2), Real.sqrt 2 / 2⟩ := by
    simp only [FQuat.ofAxisAngle, hhalf, Real.sin_pi_div_four, Real.cos_pi_div_four]
    ext <;> simp
  rw [hq]
  have hsize : (⟨0, 0, -(Real.sqrt 2 / 2), Real.sqrt 2 / 2⟩ : FQuat ℝ).SizeSquared = 1 := by
    simp only [FQuat.SizeSquared]
    linear_combination (1 / 2 : ℝ) * h2
  unfold FQuat.Normalize
  simp only [hsize, zero_lt_one, if_true, h1]
  ext <;> simp

/-- The quarter turn about -Z, written to a bone with the identity orientation,
takes a point at (x, y, 0) from the bone to (y, -x, 0) from the bone. -/
theorem QuarterTurn_carry (x y : ℝ) :
    ((⟨0, 0, -(Real.sqrt 2 / 2), Real.sqrt 2 / 2⟩ : FQuat ℝ)
        * (FQuat.Identity : FQuat ℝ).Inverse).Rotation ⟨x, y, 0⟩ = ⟨y, -x, 0⟩ := by
  have h2 : Real.sqrt 2 * Real.sqrt 2 = 2 := Real.mul_self_sqrt (by norm_num)
  have hinv : (FQuat.Identity : FQuat ℝ).Inverse = FQuat.Identity := by
    simp [FQuat.Inverse, FQuat.Identity]
  have hsize : (⟨0, 0, -(Real.sqrt 2 / 2), Real.sqrt 2 / 2⟩ : FQuat ℝ).SizeSquared = 1 := by
    simp only [FQuat.SizeSquared]
    linear_combination (1 / 2 : ℝ) * h2
  rw [hinv, FQuat.mul_Identity]
  unfold FQuat.Rotation
  simp only [hsize, FVector.CrossProduct, FVector.smul_mk, FVector.add_mk]
  ext
  · show x + _ + _ = y
    linear_combination ((1 / 2 : ℝ) * y - (1 / 2 : ℝ) * x) * h2
  · show y + _ + _ = -x
    linear_combination (-(1 / 2 : ℝ) * x - (1 / 2 : ℝ) * y) * h2
  · show (0 : ℝ) + _ + _ = 0
    ring

/-- The orientation adjustment after the unreachable branch on the upright arm:
upperarm_l is written with the quarter turn about -Z, which carries lowerarm_l
and hand_l; the step of lowerarm_l then finds the original and the new
direction opposite and writes nothing. -/
theorem UprightPose_OrientationAdjustment :
    SolveFABRIK.OrientationAdjustment
        (FMath.mk Real.sqrt Real.arccos Real.sin Real.cos (1 / 100000000))
        ArmRig ["upperarm_l", "lowerarm_l", "hand_l"]
        [⟨0, 0, 0⟩, ⟨0, 5, 0⟩, ⟨0, 10, 0⟩]
        (ArmRig.SetBoneLocationByName
          (ArmRig.SetBoneLocationByName (UprightPose : FlatPose ℝ) "lowerarm_l" ⟨5, 0, 0⟩)
          "hand_l" ⟨10, 0, 0⟩)
      = ArmRig.SetBoneRotationByName
          (ArmRig.SetBoneLocationByName
            (ArmRig.SetBoneLocationByName (UprightPose : FlatPose ℝ) "lowerarm_l" ⟨5, 0, 0⟩)
            "hand_l" ⟨10, 0, 0⟩)
          "upperarm_l" ⟨0, 0, -(Real.sqrt 2 / 2), Real.sqrt 2 / 2⟩ := by
  have h25 : Real.sqrt 25 = 5 := Real_sqrt_eq 25 5 (by norm_num) (by norm_num)
  have hNy : FVector.Normalize
      (FMath.mk Real.sqrt Real.arccos Real.sin Real.cos (1 / 100000000))
      (⟨0, 5, 0⟩ : FVector ℝ) = ⟨0, 1, 0⟩ := by
    simp [FVector.Normalize, FVector.SizeSquared, h25]
  have hNx : FVector.Normalize
      (FMath.mk Real.sqrt Real.arccos Real.sin Real.cos (1 / 100000000))
      (⟨5, 0, 0⟩ : FVector ℝ) = ⟨1, 0, 0⟩ := by
    simp [FVector.Normalize, FVector.SizeSquared, h25]
  have hNm : FVector.Normalize
      (FMath.mk Real.sqrt Real.arccos Real.sin Real.cos (1 / 100000000))
      (⟨0, -5, 0⟩ : FVector ℝ) = ⟨0, -1, 0⟩ := by
    simp [FVector.Normalize, FVector.SizeSquared, h25]
  have hu : (ArmRig : UPoseableMeshComponent ℝ (FlatPose ℝ)).GetBoneLocationByName
      (ArmRig.SetBoneLocationByName
        (ArmRig.SetBoneLocationByName (UprightPose : FlatPose ℝ) "lowerarm_l" ⟨5, 0, 0⟩)
        "hand_l" ⟨10, 0, 0⟩) "upperarm_l" = ⟨0, 0, 0⟩ := by
    simp [ArmRig, CarryMesh, UprightPose, IsBelow, ArmParent]
  have hl : (ArmRig : UPoseableMeshComponent ℝ (FlatPose ℝ)).GetBoneLocationByName
      (ArmRig.SetBoneLocationByName
        (ArmRig.SetBoneLocationByName (UprightPose : FlatPose ℝ) "lowerarm_l" ⟨5, 0, 0⟩)
        "hand_l" ⟨10, 0, 0⟩) "lowerarm_l" = ⟨5, 0, 0⟩ := by
    simp [ArmRig, CarryMesh, UprightPose, IsBelow, ArmParent]
  have hq : (ArmRig : UPoseableMeshComponent ℝ (FlatPose ℝ)).GetBoneQuaternion
      (ArmRig.SetBoneLocationByName
        (ArmRig.SetBoneLocationByName (UprightPose : FlatPose ℝ) "lowerarm_l" ⟨5, 0, 0⟩)
        "hand_l" ⟨10, 0, 0⟩) "upperarm_l" = FQuat.Identity := by
    simp [ArmRig, CarryMesh, UprightPose]
  have hl2 : (ArmRig : UPoseableMeshComponent ℝ (FlatPose ℝ)).GetBoneLocationByName
      (ArmRig.SetBoneRotationByName
        (ArmRig.SetBoneLocationByName
          (ArmRig.SetBoneLocationByName (UprightPose : FlatPose ℝ) "lowerarm_l" ⟨5, 0, 0⟩)
          "hand_l" ⟨10, 0, 0⟩)
        "upperarm_l" ⟨0, 0, -(Real.sqrt 2 / 2), Real.sqrt 2 / 2⟩) "lowerarm_l"
      = ⟨0, -5, 0⟩ := by
    simp [ArmRig, CarryMesh, UprightPose, IsBelow, ArmParent]
    rw [QuarterTurn_carry 5 0]
    simp
  have hh2 : (ArmRig : UPoseableMeshComponent ℝ (FlatPose ℝ)).GetBoneLocationByName
      (ArmRig.SetBoneRotationByName
        (ArmRig.SetBoneLocationByName
          (ArmRig.SetBoneLocationByName (UprightPose : FlatPose ℝ) "lowerarm_l" ⟨5, 0, 0⟩)
          "hand_l" ⟨10, 0, 0⟩)
        "upperarm_l" ⟨0, 0, -(Real.sqrt 2 / 2), Real.sqrt 2 / 2⟩) "hand_l"
      = ⟨0, -10, 0⟩ := by
    simp [ArmRig, CarryMesh, UprightPose, IsBelow, ArmParent]
    rw [QuarterTurn_carry 10 0]
    simp
  have hpos : (0 : ℝ) < (FVector.CrossProduct (⟨0, 1, 0⟩ : FVector ℝ)
      ⟨1, 0, 0⟩).SizeSquared := by
    simp [FVector.CrossProduct, FVector.SizeSquared]
  have hzero : ¬ (0 : ℝ) < (FVector.CrossProduct (⟨0, 1, 0⟩ : FVector ℝ)
      ⟨0, -1, 0⟩).SizeSquared := by
    simp [FVector.CrossProduct, FVector.SizeSquared]
  have hstep0 : SolveFABRIK.OrientationStep
      (FMath.mk Real.sqrt Real.arccos Real.sin Real.cos (1 / 100000000))
      ArmRig ["upperarm_l", "lowerarm_l", "hand_l"] [⟨0, 0, 0⟩, ⟨0, 5, 0⟩, ⟨0, 10, 0⟩]
      (ArmRig.SetBoneLocationByName
        (ArmRig.SetBoneLocationByName (UprightPose : FlatPose ℝ) "lowerarm_l" ⟨5, 0, 0⟩)
        "hand_l" ⟨10, 0, 0⟩) 0
      = ArmRig.SetBoneRotationByName
          (ArmRig.SetBoneLocationByName
            (ArmRig.SetBoneLocationByName (UprightPose : FlatPose ℝ) "lowerarm_l" ⟨5, 0, 0⟩)
            "hand_l" ⟨10, 0, 0⟩)
          "upperarm_l" ⟨0, 0, -(Real.sqrt 2 / 2), Real.sqrt 2 / 2⟩ := by
    unfold SolveFABRIK.OrientationStep
    simp only [List.getD_cons_zero, List.getD_cons_succ, zero_add]
    have e1 : (⟨0, 5, 0⟩ : FVector ℝ) - ⟨0, 0, 0⟩ = ⟨0, 5, 0⟩ := by simp
    have e2 : (⟨5, 0, 0⟩ : FVector ℝ) - ⟨0, 0, 0⟩ = ⟨5, 0, 0⟩ := by simp
    rw [hu, hl, hq, e1, e2, hNy, hNx, if_pos hpos, QuarterTurn_written]
  have hstep1 : SolveFABRIK.OrientationStep
      (FMath.mk Real.sqrt Real.arccos Real.sin Real.cos (1 / 100000000))
      ArmRig ["upperarm_l", "lowerarm_l", "hand_l"] [⟨0, 0, 0⟩, ⟨0, 5, 0⟩, ⟨0, 10, 0⟩]
      (ArmRig.SetBoneRotationByName
        (ArmRig.SetBoneLocationByName
          (ArmRig.SetBoneLocationByName (UprightPose : FlatPose ℝ) "lowerarm_l" ⟨5, 0, 0⟩)
          "hand_l" ⟨10, 0, 0⟩)
        "upperarm_l" ⟨0, 0, -(Real.sqrt 2 / 2), Real.sqrt 2 / 2⟩) 1
      = ArmRig.SetBoneRotationByName
          (ArmRig.SetBoneLocationByName
            (ArmRig.SetBoneLocationByName (UprightPose : FlatPose ℝ) "lowerarm_l" ⟨5, 0, 0⟩)
            "hand_l" ⟨10, 0, 0⟩)
          "upperarm_l" ⟨0, 0, -(Real.sqrt 2 / 2), Real.sqrt 2 / 2⟩ := by
    have e1 : (⟨0, 10, 0⟩ : FVector ℝ) - ⟨0, 5, 0⟩ = ⟨0, 5, 0⟩ := by
      simp; norm_num
    have e2 : (⟨0, -10, 0⟩ : FVector ℝ) - ⟨0, -5, 0⟩ = ⟨0, -5, 0⟩ := by
      simp; norm_num
    generalize ArmRig.SetBoneRotationByName
      (ArmRig.SetBoneLocationByName
        (ArmRig.SetBoneLocationByName (UprightPose : FlatPose ℝ) "lowerarm_l" ⟨5, 0, 0⟩)
        "hand_l" ⟨10, 0, 0⟩)
      "upperarm_l" ⟨0, 0, -(Real.sqrt 2 / 2), Real.sqrt 2 / 2⟩ = t2 at hl2 hh2 ⊢
    have g1 : (["upperarm_l", "lowerarm_l", "hand_l"] : List FName).getD (1 + 1) "None"
        = "hand_l" := rfl
    have g2 : (["upperarm_l", "lowerarm_l", "hand_l"] : List FName).getD 1 "None"
        = "lowerarm_l" := rfl
    have o1 : ([⟨0, 0, 0⟩, ⟨0, 5, 0⟩, ⟨0, 10, 0⟩] : List (FVector ℝ)).getD (1 + 1) ⟨0, 0, 0⟩
        = ⟨0, 10, 0⟩ := rfl
    have o2 : ([⟨0, 0, 0⟩, ⟨0, 5, 0⟩, ⟨0, 10, 0⟩] : List (FVector ℝ)).getD 1 ⟨0, 0, 0⟩
        = ⟨0, 5, 0⟩ := rfl
    unfold SolveFABRIK.OrientationStep
    simp only [g1, g2, o1, o2]
    rw [hl2, hh2, e1, e2, hNy, hNm, if_neg hzero]
  have hr : List.range (["upperarm_l", "lowerarm_l", "hand_l"].length - 1) = [0, 1] := by
    decide
  unfold SolveFABRIK.OrientationAdjustment
  rw [hr, List.foldl_cons, List.foldl_cons, List.foldl_nil, hstep0, hstep1]

/-- The joints of the stretched arm after the quarter turn about -Z is written
to upperarm_l. -/
theorem UprightPose_turned :
    (ArmRig : UPoseableMeshComponent ℝ (FlatPose ℝ)).GetBoneLocationByName
      (ArmRig.SetBoneRotationByName
        (ArmRig.SetBoneLocationByName
          (ArmRig.SetBoneLocationByName (UprightPose : FlatPose ℝ) "lowerarm_l" ⟨5, 0, 0⟩)
          "hand_l" ⟨10, 0, 0⟩)
        "upperarm_l" ⟨0, 0, -(Real.sqrt 2 / 2), Real.sqrt 2 / 2⟩) "upperarm_l"
      = ⟨0, 0, 0⟩ ∧
    (ArmRig : UPoseableMeshComponent ℝ (FlatPose ℝ)).GetBoneLocationByName
      (ArmRig.SetBoneRotationByName
        (ArmRig.SetBoneLocationByName
          (ArmRig.SetBoneLocationByName (UprightPose : FlatPose ℝ) "lowerarm_l" ⟨5, 0, 0⟩)
          "hand_l" ⟨10, 0, 0⟩)
        "upperarm_l" ⟨0, 0, -(Real.sqrt 2 / 2), Real.sqrt 2 / 2⟩) "lowerarm_l"
      = ⟨0, -5, 0⟩ ∧
    (ArmRig : UPoseableMeshComponent ℝ (FlatPose ℝ)).GetBoneLocationByName
      (ArmRig.SetBoneRotationByName
        (ArmRig.SetBoneLocationByName
          (ArmRig.SetBoneLocationByName (UprightPose : FlatPose ℝ) "lowerarm_l" ⟨5, 0, 0⟩)
          "hand_l" ⟨10, 0, 0⟩)
        "upperarm_l" ⟨0, 0, -(Real.sqrt 2 / 2), Real.sqrt 2 / 2⟩) "hand_l"
      = ⟨0, -10, 0⟩ := by
  refine ⟨?_, ?_, ?_⟩
  · simp [ArmRig, CarryMesh, UprightPose, IsBelow, ArmParent]
  · simp [ArmRig, CarryMesh, UprightPose, IsBelow, ArmParent]
    rw [QuarterTurn_carry 5 0]
    simp
  · simp [ArmRig, CarryMesh, UprightPose, IsBelow, ArmParent]
    rw [QuarterTurn_carry 10 0]
    simp

/-- C4 (defect of the code). The example of the claim on a skeleton whose bones
carry the bones below them: upperarm_l at the origin, lowerarm_l at (0, 5, 0),
hand_l at (0, 10, 0), identity orientations, two segments of length 5, target
(20, 0, 0). The loop of the unreachable branch does what the claim says: it
leaves the joints at (0, 0, 0), (5, 0, 0) and (10, 0, 0). The orientation
adjustment that closes `SolveFABRIK` then writes to upperarm_l the quarter
turn from the original direction (0, 1, 0) to the new direction (1, 0, 0),
and the write carries lowerarm_l and hand_l: after the call they are at
(0, -5, 0) and (0, -10, 0), and the tip is not on the line from the root to
the target. -/
theorem fabrik_stretch_displaced_by_orientation_adjustment :
    SolveFABRIK.BoneLengths (FMath.mk Real.sqrt Real.arccos Real.sin Real.cos (1 / 100000000))
        (ArmRig : UPoseableMeshComponent ℝ (FlatPose ℝ))
        ["upperarm_l", "lowerarm_l", "hand_l"] UprightPose = [5, 5] ∧
    (∃ t1 : FlatPose ℝ,
      SolveFABRIK.Reposition
          (FMath.mk Real.sqrt Real.arccos Real.sin Real.cos (1 / 100000000))
          ArmRig ["upperarm_l", "lowerarm_l", "hand_l"] "hand_l" "upperarm_l" ⟨20, 0, 0⟩ 1 10
          UprightPose = some t1 ∧
      ArmRig.GetBoneLocationByName t1 "upperarm_l" = ⟨0, 0, 0⟩ ∧
      ArmRig.GetBoneLocationByName t1 "lowerarm_l" = ⟨5, 0, 0⟩ ∧
      ArmRig.GetBoneLocationByName t1 "hand_l" = ⟨10, 0, 0⟩) ∧
    (∃ t : FlatPose ℝ,
      SolveFABRIK (FMath.mk Real.sqrt Real.arccos Real.sin Real.cos (1 / 100000000))
        ArmRig 3 "hand_l" "upperarm_l" ⟨20, 0, 0⟩ 1 10 UprightPose
        = some (Outcome.Solved t) ∧
      ArmRig.GetBoneLocationByName t "upperarm_l" = ⟨0, 0, 0⟩ ∧
      ArmRig.GetBoneLocationByName t "lowerarm_l" = ⟨0, -5, 0⟩ ∧
      ArmRig.GetBoneLocationByName t "hand_l" = ⟨0, -10, 0⟩ ∧
      ∀ c : ℝ, ArmRig.GetBoneLocationByName t "hand_l"
        ≠ (1 - c) * (⟨0, 0, 0⟩ : FVector ℝ) + c * (⟨20, 0, 0⟩ : FVector ℝ)) := by
  have h25 : Real.sqrt 25 = 5 := Real_sqrt_eq 25 5 (by norm_num) (by norm_num)
  obtain ⟨hu, hl, hh⟩ := UprightPose_turned
  refine ⟨?_, ⟨_, UprightPose_Reposition, ?_, ?_, ?_⟩, ⟨_, ?_, hu, hl, hh, ?_⟩⟩
  · simp [SolveFABRIK.BoneLengths, ArmRig, CarryMesh, UprightPose, FVector.Dist,
      FVector.SizeSquared, List.range_succ]
    norm_num [h25]
  · simp [ArmRig, CarryMesh, UprightPose, IsBelow, ArmParent]
  · simp [ArmRig, CarryMesh, UprightPose, IsBelow, ArmParent]
  · simp [ArmRig, CarryMesh, UprightPose, IsBelow, ArmParent]
  · have hmap : (["upperarm_l", "lowerarm_l", "hand_l"] : List FName).map
        ((ArmRig : UPoseableMeshComponent ℝ (FlatPose ℝ)).GetBoneLocationByName UprightPose)
        = [⟨0, 0, 0⟩, ⟨0, 5, 0⟩, ⟨0, 10, 0⟩] := by
      simp [ArmRig, CarryMesh, UprightPose]
    unfold SolveFABRIK
    rw [ChainWalkFABRIK_of_ChainWalk ArmRig UprightPose 3 "hand_l" "upperarm_l" "upperarm_l"
      ["upperarm_l", "lowerarm_l", "hand_l"] ArmRig_arm_walk]
    simp only [show ("upperarm_l" : FName) ≠ "None" by decide, if_false]
    unfold SolveFABRIK.Solve
    rw [UprightPose_Reposition, hmap]
    simp only []
    rw [UprightPose_OrientationAdjustment]
  · intro c
    rw [hh]
    intro h
    have hy := congrArg FVector.Y h
    simp at hy

/-- The reachable branch on the bent forearm of the carrying skeleton with the
target at (2, 0, 0): one iteration. The forward pass puts hand_l on the target
and lowerarm_l at (-1, 0, 0), which carries hand_l to (1, 0, 0); the backward
pass pins lowerarm_l to the origin, which carries hand_l to (2, 0, 0), and
puts hand_l at (3, 0, 0). -/
theorem BentPose_Reposition :
    SolveFABRIK.Reposition (FMath.mk Real.sqrt Real.arccos Real.sin Real.cos (1 / 100000000))
        ArmRig ["lowerarm_l", "hand_l"] "hand_l" "lowerarm_l" ⟨2, 0, 0⟩ 1 1
        (BentPose : FlatPose ℝ)
      = some (ArmRig.SetBoneLocationByName
          (ArmRig.SetBoneLocationByName
            (ArmRig.SetBoneLocationByName
              (ArmRig.SetBoneLocationByName BentPose "hand_l" ⟨2, 0, 0⟩)
              "lowerarm_l" ⟨-1, 0, 0⟩)
            "lowerarm_l" ⟨0, 0, 0⟩)
          "hand_l" ⟨3, 0, 0⟩) := by
  have h9 : Real.sqrt 9 = 3 := Real_sqrt_eq 9 3 (by norm_num) (by norm_num)
  have h4 : Real.sqrt 4 = 2 := Real_sqrt_eq 4 2 (by norm_num) (by norm_num)
  have h13 : (1 : ℝ) < Real.sqrt (2 * 2 + 3 * 3) := by
    rw [Real.lt_sqrt (by norm_num)]; norm_num
  unfold SolveFABRIK.Reposition
  simp [SolveFABRIK.BoneLengths, SolveFABRIK.BoneLengthSum, ArmRig, CarryMesh, BentPose,
    IsBelow, ArmParent, FVector.Dist, FVector.SizeSquared, List.range_succ]
  rw [SolveFABRIK.Loop]
  simp [SolveFABRIK.Iteration, SolveFABRIK.ForwardReaching, SolveFABRIK.BackwardReaching,
    SolveFABRIK.ForwardStep, SolveFABRIK.BackwardStep, IsBelow, ArmParent,
    FVector.Dist, FVector.SizeSquared, List.range_succ, h13]
  rw [SolveFABRIK_Loop_exit _ _ _ _ _ _ _ _ _ _ _ _ _ (by norm_num)]
  norm_num

/-- The orientation adjustment after the reachable branch on the bent forearm:
lowerarm_l is written with the quarter turn about -Z, which carries hand_l
from (3, 0, 0) to (0, -3, 0). -/
theorem BentPose_OrientationAdjustment :
    ∃ t : FlatPose ℝ,
      SolveFABRIK.OrientationAdjustment
          (FMath.mk Real.sqrt Real.arccos Real.sin Real.cos (1 / 100000000))
          ArmRig ["lowerarm_l", "hand_l"] [⟨0, 0, 0⟩, ⟨0, 3, 0⟩]
          (ArmRig.SetBoneLocationByName
            (ArmRig.SetBoneLocationByName
              (ArmRig.SetBoneLocationByName
                (ArmRig.SetBoneLocationByName (BentPose : FlatPose ℝ) "hand_l" ⟨2, 0, 0⟩)
                "lowerarm_l" ⟨-1, 0, 0⟩)
              "lowerarm_l" ⟨0, 0, 0⟩)
            "hand_l" ⟨3, 0, 0⟩) = t ∧
      ArmRig.GetBoneLocationByName t "lowerarm_l" = ⟨0, 0, 0⟩ ∧
      ArmRig.GetBoneLocationByName t "hand_l" = ⟨0, -3, 0⟩ := by
  have h9 : Real.sqrt 9 = 3 := Real_sqrt_eq 9 3 (by norm_num) (by norm_num)
  have hNy : FVector.Normalize
      (FMath.mk Real.sqrt Real.arccos Real.sin Real.cos (1 / 100000000))
      (⟨0, 3, 0⟩ : FVector ℝ) = ⟨0, 1, 0⟩ := by
    simp [FVector.Normalize, FVector.SizeSquared, h9]
  have hNx : FVector.Normalize
      (FMath.mk Real.sqrt Real.arccos Real.sin Real.cos (1 / 100000000))
      (⟨3, 0, 0⟩ : FVector ℝ) = ⟨1, 0, 0⟩ := by
    simp [FVector.Normalize, FVector.SizeSquared, h9]
  have hl : (ArmRig : UPoseableMeshComponent ℝ (FlatPose ℝ)).GetBoneLocationByName
      (ArmRig.SetBoneLocationByName
        (ArmRig.SetBoneLocationByName
          (ArmRig.SetBoneLocationByName
            (ArmRig.SetBoneLocationByName (BentPose : FlatPose ℝ) "hand_l" ⟨2, 0, 0⟩)
            "lowerarm_l" ⟨-1, 0, 0⟩)
          "lowerarm_l" ⟨0, 0, 0⟩)
        "hand_l" ⟨3, 0, 0⟩) "lowerarm_l" = ⟨0, 0, 0⟩ := by
    simp [ArmRig, CarryMesh, BentPose, IsBelow, ArmParent]
  have hh : (ArmRig : UPoseableMeshComponent ℝ (FlatPose ℝ)).GetBoneLocationByName
      (ArmRig.SetBoneLocationByName
        (ArmRig.SetBoneLocationByName
          (ArmRig.SetBoneLocationByName
            (ArmRig.SetBoneLocationByName (BentPose : FlatPose ℝ) "hand_l" ⟨2, 0, 0⟩)
            "lowerarm_l" ⟨-1, 0, 0⟩)
          "lowerarm_l" ⟨0, 0, 0⟩)
        "hand_l" ⟨3, 0, 0⟩) "hand_l" = ⟨3, 0, 0⟩ := by
    simp [ArmRig, CarryMesh, BentPose, IsBelow, ArmParent]
  have hq : (ArmRig : UPoseableMeshComponent ℝ (FlatPose ℝ)).GetBoneQuaternion
      (ArmRig.SetBoneLocationByName
        (ArmRig.SetBoneLocationByName
          (ArmRig.SetBoneLocationByName
            (ArmRig.SetBoneLocationByName (BentPose : FlatPose ℝ) "hand_l" ⟨2, 0, 0⟩)
            "lowerarm_l" ⟨-1, 0, 0⟩)
          "lowerarm_l" ⟨0, 0, 0⟩)
        "hand_l" ⟨3, 0, 0⟩) "lowerarm_l" = FQuat.Identity := by
    simp [ArmRig, CarryMesh, BentPose]
  have hpos : (0 : ℝ) < (FVector.CrossProduct (⟨0, 1, 0⟩ : FVector ℝ)
      ⟨1, 0, 0⟩).SizeSquared := by
    simp [FVector.CrossProduct, FVector.SizeSquared]
  have e1 : (⟨0, 3, 0⟩ : FVector ℝ) - ⟨0, 0, 0⟩ = ⟨0, 3, 0⟩ := by simp
  have e2 : (⟨3, 0, 0⟩ : FVector ℝ) - ⟨0, 0, 0⟩ = ⟨3, 0, 0⟩ := by simp
  have hr : List.range (["lowerarm_l", "hand_l"].length - 1) = [0] := by decide
  have g0 : (["lowerarm_l", "hand_l"] : List FName).getD 0 "None" = "lowerarm_l" := rfl
  have g1 : (["lowerarm_l", "hand_l"] : List FName).getD (0 + 1) "None" = "hand_l" := rfl
  have o0 : ([⟨0, 0, 0⟩, ⟨0, 3, 0⟩] : List (FVector ℝ)).getD 0 ⟨0, 0, 0⟩ = ⟨0, 0, 0⟩ := rfl
  have o1 : ([⟨0, 0, 0⟩, ⟨0, 3, 0⟩] : List (FVector ℝ)).getD (0 + 1) ⟨0, 0, 0⟩
      = ⟨0, 3, 0⟩ := rfl
  have hstep : ∀ s : FlatPose ℝ,
      (ArmRig : UPoseableMeshComponent ℝ (FlatPose ℝ)).GetBoneLocationByName s "lowerarm_l"
        = ⟨0, 0, 0⟩ →
      (ArmRig : UPoseableMeshComponent ℝ (FlatPose ℝ)).GetBoneLocationByName s "hand_l"
        = ⟨3, 0, 0⟩ →
      (ArmRig : UPoseableMeshComponent ℝ (FlatPose ℝ)).GetBoneQuaternion s "lowerarm_l"
        = FQuat.Identity →
      SolveFABRIK.OrientationAdjustment
          (FMath.mk Real.sqrt Real.arccos Real.sin Real.cos (1 / 100000000))
          ArmRig ["lowerarm_l", "hand_l"] [⟨0, 0, 0⟩, ⟨0, 3, 0⟩] s
        = ArmRig.SetBoneRotationByName s "lowerarm_l"
            ⟨0, 0, -(Real.sqrt 2 / 2), Real.sqrt 2 / 2⟩ := by
    intro s hsl hsh hsq
    unfold SolveFABRIK.OrientationAdjustment
    rw [hr, List.foldl_cons, List.foldl_nil]
    unfold SolveFABRIK.OrientationStep
    simp only [g0, g1, o0, o1]
    rw [hsh, hsl, hsq, e1, e2, hNy, hNx, if_pos hpos, QuarterTurn_written]
  refine ⟨_, rfl, ?_, ?_⟩
  · rw [hstep _ hl hh hq]
    simp [ArmRig, CarryMesh, BentPose, IsBelow, ArmParent]
  · rw [hstep _ hl hh hq]
    simp [ArmRig, CarryMesh, BentPose, IsBelow, ArmParent]
    rw [QuarterTurn_carry 3 0]
    simp

/-- Witness of C3: the bent forearm (lowerarm_l at the origin, hand_l at
(0, 3, 0)) of the skeleton whose bones carry the bones below them, with the
target at (2, 0, 0), precision 1 and one iteration allowed. The forward and
the backward pass both reposition with `Lambda = 3/2`; the orientation
adjustment carries the hand to (0, -3, 0); the segment keeps its length 3. -/
theorem fabrik_length_preservation_witness :
    ∃ t : FlatPose ℝ,
      SolveFABRIK (FMath.mk Real.sqrt Real.arccos Real.sin Real.cos (1 / 100000000))
        ArmRig 2 "hand_l" "lowerarm_l" ⟨2, 0, 0⟩ 1 1 BentPose = some (Outcome.Solved t) ∧
      ArmRig.GetBoneLocationByName t "lowerarm_l" = ⟨0, 0, 0⟩ ∧
      ArmRig.GetBoneLocationByName t "hand_l" = ⟨0, -3, 0⟩ ∧
      FVector.Dist (FMath.mk Real.sqrt Real.arccos Real.sin Real.cos (1 / 100000000))
        (ArmRig.GetBoneLocationByName t "lowerarm_l")
        (ArmRig.GetBoneLocationByName t "hand_l") = 3 := by
  have h9 : Real.sqrt 9 = 3 := Real_sqrt_eq 9 3 (by norm_num) (by norm_num)
  obtain ⟨t, ht, hl, hh⟩ := BentPose_OrientationAdjustment
  have hmap : (["lowerarm_l", "hand_l"] : List FName).map
      ((ArmRig : UPoseableMeshComponent ℝ (FlatPose ℝ)).GetBoneLocationByName BentPose)
      = [⟨0, 0, 0⟩, ⟨0, 3, 0⟩] := by
    simp [ArmRig, CarryMesh, BentPose]
  have hsolved : SolveFABRIK (FMath.mk Real.sqrt Real.arccos Real.sin Real.cos (1 / 100000000))
      ArmRig 2 "hand_l" "lowerarm_l" ⟨2, 0, 0⟩ 1 1 (BentPose : FlatPose ℝ)
      = some (Outcome.Solved t) := by
    unfold SolveFABRIK
    rw [ChainWalkFABRIK_of_ChainWalk ArmRig BentPose 2 "hand_l" "lowerarm_l" "lowerarm_l"
      ["lowerarm_l", "hand_l"] ArmRig_forearm_walk]
    simp only [show ("lowerarm_l" : FName) ≠ "None" by decide, if_false]
    unfold SolveFABRIK.Solve
    rw [BentPose_Reposition, hmap]
    simp only []
    rw [ht]
  have hL : SolveFABRIK.BoneLengths
      (FMath.mk Real.sqrt Real.arccos Real.sin Real.cos (1 / 100000000))
      (ArmRig : UPoseableMeshComponent ℝ (FlatPose ℝ)) ["lowerarm_l", "hand_l"] BentPose
      = [3] := by
    simp [SolveFABRIK.BoneLengths, ArmRig, CarryMesh, BentPose, FVector.Dist,
      FVector.SizeSquared, List.range_succ, h9]
  have h := fabrik_length_preservation (RealMath_Exact (1 / 100000000))
    (ArmRig : UPoseableMeshComponent ℝ (FlatPose ℝ)) ArmRig_SegmentStore 2
    "hand_l" "lowerarm_l" "lowerarm_l" ["lowerarm_l", "hand_l"] ⟨2, 0, 0⟩ 1 1 BentPose t
    ArmRig_forearm_walk (by decide) (by decide)
    (by
      rw [hL]
      simp [SolveFABRIK.BoneLengthSum, ArmRig, CarryMesh, BentPose, FVector.Dist,
        FVector.SizeSquared]
      norm_num)
    hsolved 0 (by decide)
  refine ⟨t, hsolved, hl, hh, ?_⟩
  have h1 := h.1
  rw [hL] at h1
  exact h1

end CarryArm

end IKModule
